import Mathlib

/-!
# Retro Arcade (`main.js`): Pong, Snake and Breakout

A shallow embedding of the three game classes of `main.js` and of the part of the
page around them that they talk to.

Conventions of the embedding.

* A JavaScript object becomes a structure; a method becomes a function from the state
  before the call to the state after it.
* `Math.random()` is an explicit argument (one rational or real number per call that the
  method can make); `performance.now()` is an explicit argument as well.
* `requestAnimationFrame(() => this._loop())` increments the field `frames`, the number of
  frame callbacks the browser still has to deliver; the event `frame` delivers one.
* `window.addEventListener` / `removeEventListener` set and clear the field `bound`; a key
  event reaches the handler only while `bound` is true.
* `localStorage` is the field `store`; `onEnd(payload)` appends the payload to `results`.
* Drawing and the `textContent` sinks have no effect on any modelled state and are left out.
* A method that can throw or loop forever returns `Option`; `none` is "no state comes back".
-/

namespace Arcade

/-! ## The high-score store -/

/-- The `localStorage` entries under the `hs-` prefix: key and stored integer. -/
abbrev Store := List (String × Int)

/-- The function `getHS(key)`: `parseInt(localStorage.getItem('hs-'+key) || '0', 10)`. -/
def getHS (st : Store) (key : String) : Int :=
  match st.find? (fun e => e.1 == key) with
  | some e => e.2
  | none => 0

/-- The function `setHS(key, v)`: `localStorage.setItem('hs-'+key, String(v))`. -/
def setHS (st : Store) (key : String) (v : Int) : Store :=
  (key, v) :: st.filter (fun e => !(e.1 == key))

/-! ## Snake -/

/-- A grid cell `{x, y}`; also used for the direction vectors. -/
structure Cell where
  x : Int
  y : Int
deriving DecidableEq, Repr

/-- The fields of a `SnakeGame` object. -/
structure SnakeGame where
  cols : Int
  rows : Int
  snake : List Cell
  dir : Cell
  nextDir : Cell
  food : Cell
  stepInterval : Int
  accel : Int
  score : Int
  lastStep : Int
  running : Bool
  paused : Bool
  last : ℚ
  bound : Bool
  frames : Nat
  store : Store
  results : List Int
deriving DecidableEq, Repr

namespace SnakeGame

/-- The test `this.snake.some(s => s.x===x && s.y===y)`. -/
def occupied (body : List Cell) (c : Cell) : Bool :=
  body.any (fun p => decide (p.x = c.x) && decide (p.y = c.y))

/-- The method `placeFood()`. Each round of the `while` loop reads two outcomes of
`Math.random()` from the tape; the loop leaves with the first cell that is not on the snake.
A tape that runs out before that stands for a loop that has not returned. -/
def placeFood (s : SnakeGame) : List ℚ → Option SnakeGame
  | rx :: ry :: rest =>
    let x : Int := Int.floor (rx * (s.cols : ℚ))
    let y : Int := Int.floor (ry * (s.rows : ℚ))
    if occupied s.snake ⟨x, y⟩ then placeFood s rest
    else some { s with food := ⟨x, y⟩ }
  | _ => none

/-- The constructor up to and including `reset()` and `_bind()`, then `running = false`.
`food` has no value before `placeFood()` assigns it. -/
def new (w h : Nat) (store : Store) (tape : List ℚ) : Option SnakeGame :=
  let cols : Int := ((w / 20 : Nat) : Int)
  let rows : Int := ((h / 20 : Nat) : Int)
  let s0 : SnakeGame :=
    { cols := cols, rows := rows,
      snake := [⟨cols / 2, rows / 2⟩],
      dir := ⟨1, 0⟩, nextDir := ⟨1, 0⟩,
      food := ⟨0, 0⟩,
      stepInterval := 0, accel := 0, score := 0, lastStep := 0,
      running := false, paused := false, last := 0,
      bound := false, frames := 0, store := store, results := [] }
  (placeFood s0 tape).map fun s1 =>
    { s1 with stepInterval := 120, accel := 0, score := 0, lastStep := 0,
              bound := true, running := false }

/-- One statement of `_onKey`, of the shape
`if(k===...){ if(this.dir... !== ...) this.nextDir = d; }`: `hit` is the test on the key,
`allowed` the test on the committed direction. -/
def turn (s : SnakeGame) (hit allowed : Bool) (d : Cell) : SnakeGame :=
  if hit then (if allowed then { s with nextDir := d } else s) else s

/-- The handler `_onKey` installed by `_bind()`: its four statements in order. -/
def _onKey (s : SnakeGame) (k : String) : SnakeGame :=
  let s := turn s (k == "ArrowUp" || k == "w" || k == "W") (s.dir.y != 1) ⟨0, -1⟩
  let s := turn s (k == "ArrowDown" || k == "s" || k == "S") (s.dir.y != -1) ⟨0, 1⟩
  let s := turn s (k == "ArrowLeft" || k == "a" || k == "A") (s.dir.x != 1) ⟨-1, 0⟩
  turn s (k == "ArrowRight" || k == "d" || k == "D") (s.dir.x != -1) ⟨1, 0⟩

/-- A `keydown` event on `window`: it reaches `_onKey` only while the listener is attached. -/
def keydown (s : SnakeGame) (k : String) : SnakeGame :=
  if s.bound then _onKey s k else s

/-- The method `stop()`. -/
def stop (s : SnakeGame) : SnakeGame :=
  { s with running := false, bound := false }

/-- The method `endGame()`. -/
def endGame (s : SnakeGame) : SnakeGame :=
  let s1 := stop s
  let finalScore := s1.score
  let hs := getHS s1.store "snake"
  let s2 := if finalScore > hs then { s1 with store := setHS s1.store "snake" finalScore } else s1
  { s2 with results := s2.results ++ [finalScore] }

/-- The head that `step()` computes from the first body cell and the committed direction,
after the four wrap-around tests. -/
def wrapHead (cols rows : Int) (h0 d : Cell) : Cell :=
  let head : Cell := ⟨h0.x + d.x, h0.y + d.y⟩
  let head := if head.x < 0 then { head with x := cols - 1 } else head
  let head := if head.x ≥ cols then { head with x := 0 } else head
  let head := if head.y < 0 then { head with y := rows - 1 } else head
  if head.y ≥ rows then { head with y := 0 } else head

/-- The method `step()`. With an empty body `this.snake[0].x` throws. -/
def step (s : SnakeGame) (tape : List ℚ) : Option SnakeGame :=
  let s1 := { s with dir := s.nextDir }
  match s1.snake with
  | [] => none
  | h0 :: _ =>
    let head := wrapHead s1.cols s1.rows h0 s1.dir
    if occupied s1.snake head then some (endGame s1)
    else
      let s2 := { s1 with snake := head :: s1.snake }
      if head.x = s2.food.x ∧ head.y = s2.food.y then
        let s3 := { s2 with score := s2.score + 1 }
        let s4 := { s3 with stepInterval := max 50 (s3.stepInterval - 2) }
        placeFood s4 tape
      else
        some { s2 with snake := s2.snake.dropLast }

/-- The method `_loop()`, with the value `now` that `performance.now()` returns in it. -/
def _loop (s : SnakeGame) (now : ℚ) (tape : List ℚ) : Option SnakeGame :=
  if !s.running then some s
  else
    let r := if !s.paused && decide (now - s.last ≥ (s.stepInterval : ℚ))
      then step { s with last := now } tape else some s
    r.map fun s1 => { s1 with frames := s1.frames + 1 }

/-- The method `start()`: `t` is the clock read in `start`, `now` the one read in `_loop`. -/
def start (s : SnakeGame) (t now : ℚ) (tape : List ℚ) : Option SnakeGame :=
  _loop { s with running := true, last := t } now tape

/-- The method `setPaused(p)`: `t` is the clock read in `setPaused`, `now` the one read in
`_loop`. -/
def setPaused (s : SnakeGame) (p : Bool) (t now : ℚ) (tape : List ℚ) : Option SnakeGame :=
  let s1 := { s with paused := p }
  if !p && !s1.running then _loop { s1 with running := true, last := t } now tape
  else some s1

/-- The browser delivers one pending animation-frame callback, if there is one. -/
def frame (s : SnakeGame) (now : ℚ) (tape : List ℚ) : Option SnakeGame :=
  if s.frames = 0 then some s
  else _loop { s with frames := s.frames - 1 } now tape

/-- Every entry of a tape is a possible outcome of `Math.random()`: a number in `[0, 1)`. -/
def validTape (tape : List ℚ) : Prop := ∀ r ∈ tape, 0 ≤ r ∧ r < 1

/-- The head that the next `step()` will compute; `none` when the body is empty. -/
def nextHead (s : SnakeGame) : Option Cell :=
  match s.snake with
  | [] => none
  | h0 :: _ => some (wrapHead s.cols s.rows h0 s.nextDir)

/-- The next `step()` takes the eating branch: no collision and the new head is on the food. -/
def eats (s : SnakeGame) : Bool :=
  match nextHead s with
  | none => false
  | some c => !occupied s.snake c && decide (c.x = s.food.x ∧ c.y = s.food.y)

/-- The reverse of a direction vector. -/
def reverse (d : Cell) : Cell := ⟨-d.x, -d.y⟩

/-- The four unit vectors. -/
def isUnit (d : Cell) : Prop :=
  d = ⟨1, 0⟩ ∨ d = ⟨-1, 0⟩ ∨ d = ⟨0, 1⟩ ∨ d = ⟨0, -1⟩

/-- A cell lies inside the grid of the session. -/
def inGrid (s : SnakeGame) (c : Cell) : Prop :=
  0 ≤ c.x ∧ c.x < s.cols ∧ 0 ≤ c.y ∧ c.y < s.rows

/-- The states a session on a `w`×`h` canvas reaches from the constructor's `reset()` by key
events and `step()` calls that return; the index counts the steps that took the eating
branch. Every tape holds outcomes of `Math.random()`. -/
inductive Reach (w h : Nat) : Nat → SnakeGame → Prop
  | reset {store : Store} {tape : List ℚ} {s : SnakeGame} :
      validTape tape → new w h store tape = some s → Reach w h 0 s
  | key {n : Nat} {s : SnakeGame} (k : String) :
      Reach w h n s → Reach w h n (_onKey s k)
  | step {n : Nat} {s s1 : SnakeGame} {tape : List ℚ} :
      Reach w h n s → validTape tape → step s tape = some s1 →
      Reach w h (n + if eats s then 1 else 0) s1

/-- A state that differs from `s` at most in a buffered direction which is a unit vector
and not the reverse of the committed one. -/
def Steered (s t : SnakeGame) : Prop :=
  t = s ∨ ∃ e, t = { s with nextDir := e } ∧ isUnit e ∧ e ≠ reverse s.dir

/-- The session the constructor builds on a 400×400 canvas with an empty store when the
first two outcomes of `Math.random()` are 3/4 and 1/4. -/
def fresh : SnakeGame :=
  { cols := 20, rows := 20, snake := [⟨10, 10⟩], dir := ⟨1, 0⟩, nextDir := ⟨1, 0⟩,
    food := ⟨15, 5⟩, stepInterval := 120, accel := 0, score := 0, lastStep := 0,
    running := false, paused := false, last := 0, bound := true, frames := 0,
    store := [], results := [] }

end SnakeGame

/-- A call of the page into a session after its construction, or a frame callback. -/
inductive SnakeEv where
  | setPaused (p : Bool) (t now : ℚ) (tape : List ℚ)
  | frame (now : ℚ) (tape : List ℚ)
  | keydown (k : String)

namespace SnakeGame

/-- The effect of one event. -/
def apply (s : SnakeGame) : SnakeEv → Option SnakeGame
  | .setPaused p t now tape => setPaused s p t now tape
  | .frame now tape => frame s now tape
  | .keydown k => some (keydown s k)

/-- The effect of a sequence of events, first to last. -/
def run (s : SnakeGame) : List SnakeEv → Option SnakeGame
  | [] => some s
  | e :: es => (apply s e).bind fun s1 => run s1 es

end SnakeGame

/-- A session on a 400×400 canvas that has eaten four times in a row and is five cells
long, heading right. -/
def SnakeGame.grown : SnakeGame :=
  { cols := 20, rows := 20,
    snake := [⟨14, 10⟩, ⟨13, 10⟩, ⟨12, 10⟩, ⟨11, 10⟩, ⟨10, 10⟩],
    dir := ⟨1, 0⟩, nextDir := ⟨1, 0⟩, food := ⟨5, 5⟩, stepInterval := 112,
    accel := 0, score := 4, lastStep := 0, running := true, paused := false,
    last := 468, bound := true, frames := 1, store := [], results := [] }

/-- The session `grown` after it has turned down, left and up into its own body: the game
is over and one result has been emitted. -/
def SnakeGame.over : SnakeGame :=
  { cols := 20, rows := 20,
    snake := [⟨13, 11⟩, ⟨14, 11⟩, ⟨14, 10⟩, ⟨13, 10⟩, ⟨12, 10⟩],
    dir := ⟨0, -1⟩, nextDir := ⟨0, -1⟩, food := ⟨5, 5⟩, stepInterval := 112,
    accel := 0, score := 4, lastStep := 0, running := false, paused := false,
    last := 804, bound := false, frames := 1, store := [("snake", 4)],
    results := [4] }

/-- The event is a call `setPaused(false)`. -/
def SnakeEv.resumes : SnakeEv → Bool
  | .setPaused p _ _ _ => !p
  | _ => false

/-! ## Pong

Numbers are real numbers: `_reflectFromPaddle` takes a square root, a sine and a cosine. -/

/-- The object `this.ball`. -/
structure PongBall where
  x : ℝ
  y : ℝ
  r : ℝ
  vx : ℝ
  vy : ℝ

/-- The objects `this.player` and `this.ai`; the field `vy` of `this.player` is written once
(0) and never read, and is left out. -/
structure PongPaddle where
  x : ℝ
  y : ℝ
  speed : ℝ

/-- The object `this.score`. -/
structure PongScore where
  player : Nat
  ai : Nat

/-- The object `this.keys`; a missing property reads as false. -/
structure PongKeys where
  up : Bool
  down : Bool

/-- The payload `{ result, score }` passed to `onEnd`. -/
structure PongResult where
  result : String
  score : Nat

/-- The fields of a `PongGame` object. -/
structure PongGame where
  w : ℝ
  h : ℝ
  ball : PongBall
  paddleH : ℝ
  pw : ℝ
  player : PongPaddle
  ai : PongPaddle
  score : PongScore
  maxScore : Nat
  keys : PongKeys
  running : Bool
  paused : Bool
  last : ℝ
  bound : Bool
  frames : Nat
  store : Store
  results : List PongResult

noncomputable section

namespace PongGame

/-- The constructor: `reset()`, `_bind()`, `running = false`. `r1` and `r2` are the two
outcomes of `Math.random()` that `reset()` reads, in that order. -/
def new (w h : Nat) (store : Store) (r1 r2 : ℝ) : PongGame :=
  { w := w, h := h,
    ball := { x := (w : ℝ) / 2, y := (h : ℝ) / 2, r := 8,
              vx := 280 * (if r1 > 0.5 then 1 else -1), vy := 120 * (r2 * 2 - 1) },
    paddleH := 90, pw := 12,
    player := { x := 20, y := ((h : ℝ) - 90) / 2, speed := 380 },
    ai := { x := (w : ℝ) - 20 - 12, y := ((h : ℝ) - 90) / 2, speed := 260 },
    score := { player := 0, ai := 0 },
    maxScore := 7,
    keys := { up := false, down := false },
    running := false, paused := false, last := 0,
    bound := true, frames := 0, store := store, results := [] }

/-- The handler `_onKey`: `isDown` is `e.type === 'keydown'`. -/
def _onKey (s : PongGame) (k : String) (isDown : Bool) : PongGame :=
  let s := if k = "w" ∨ k = "W" ∨ k = "ArrowUp"
    then { s with keys := { s.keys with up := isDown } } else s
  if k = "s" ∨ k = "S" ∨ k = "ArrowDown"
    then { s with keys := { s.keys with down := isDown } } else s

/-- A `keydown` or `keyup` event on `window`. -/
def key (s : PongGame) (k : String) (isDown : Bool) : PongGame :=
  if s.bound then _onKey s k isDown else s

/-- The method `stop()`. -/
def stop (s : PongGame) : PongGame :=
  { s with running := false, bound := false }

/-- The method `_reflectFromPaddle(paddle)`. -/
def _reflectFromPaddle (s : PongGame) (paddle : PongPaddle) : PongGame :=
  let relative := (s.ball.y - (paddle.y + s.paddleH / 2)) / (s.paddleH / 2)
  let speed := Real.sqrt (s.ball.vx * s.ball.vx + s.ball.vy * s.ball.vy)
  let angle := relative * Real.pi / 3
  let dir : ℝ := if s.ball.x < s.w / 2 then 1 else -1
  let s1 := { s with ball := { s.ball with
    vx := dir * Real.cos angle * max 200 (speed * 1.05) } }
  { s1 with ball := { s1.ball with vy := Real.sin angle * max 150 (speed * 1.02) } }

/-- The speed magnitude `sqrt(vx*vx + vy*vy)` of a ball. -/
def speed (b : PongBall) : ℝ :=
  Real.sqrt (b.vx * b.vx + b.vy * b.vy)

/-- The value `relative` that `_reflectFromPaddle(paddle)` computes. -/
def relative (s : PongGame) (paddle : PongPaddle) : ℝ :=
  (s.ball.y - (paddle.y + s.paddleH / 2)) / (s.paddleH / 2)

/-- The method `_resetBall(direction)`: `rs` is the outcome of `Math.random()` that is read
only when `direction` is 0 (falsy), `rv` the one read for `vy`. -/
def _resetBall (s : PongGame) (direction rs rv : ℝ) : PongGame :=
  let s1 := { s with ball := { s.ball with x := s.w / 2, y := s.h / 2 } }
  let sign : ℝ := if direction ≠ 0 then direction else (if rs > 0.5 then 1 else -1)
  { s1 with ball := { s1.ball with vx := 300 * sign, vy := 120 * (rv * 2 - 1) } }

/-- The method `endGame(winner)`. -/
def endGame (s : PongGame) (winner : String) : PongGame :=
  let s1 := { stop s with running := false }
  let finalScore : Nat := s1.score.player
  let hs := getHS s1.store "pong"
  let s2 := if Int.ofNat finalScore > hs
    then { s1 with store := setHS s1.store "pong" (Int.ofNat finalScore) } else s1
  { s2 with results := s2.results ++ [{ result := winner, score := finalScore }] }

/-- Part of `update(dt)`: the statements under `player input` and `ai simple follow`. -/
def movePaddles (s : PongGame) (dt : ℝ) : PongGame :=
  let s := if s.keys.up
    then { s with player := { s.player with y := s.player.y - s.player.speed * dt } } else s
  let s := if s.keys.down
    then { s with player := { s.player with y := s.player.y + s.player.speed * dt } } else s
  let s := { s with player := { s.player with y := max 0 (min (s.h - s.paddleH) s.player.y) } }
  let s := if s.ai.y + s.paddleH / 2 < s.ball.y - 6
    then { s with ai := { s.ai with y := s.ai.y + s.ai.speed * dt } } else s
  let s := if s.ai.y + s.paddleH / 2 > s.ball.y + 6
    then { s with ai := { s.ai with y := s.ai.y - s.ai.speed * dt } } else s
  { s with ai := { s.ai with y := max 0 (min (s.h - s.paddleH) s.ai.y) } }

/-- Part of `update(dt)`: the statements under `ball move` and `top/bottom`. -/
def moveBall (s : PongGame) (dt : ℝ) : PongGame :=
  let s := { s with ball := { s.ball with x := s.ball.x + s.ball.vx * dt } }
  let s := { s with ball := { s.ball with y := s.ball.y + s.ball.vy * dt } }
  let s := if s.ball.y - s.ball.r < 0
    then { s with ball := { s.ball with y := s.ball.r, vy := s.ball.vy * -1 } } else s
  if s.ball.y + s.ball.r > s.h
    then { s with ball := { s.ball with y := s.h - s.ball.r, vy := s.ball.vy * -1 } } else s

/-- Part of `update(dt)`: the statement under `player`: contact with or miss of the left paddle.
`rv` is the outcome of `Math.random()` read by `_resetBall`. -/
def playerSide (s : PongGame) (rv : ℝ) : PongGame :=
  if s.ball.x - s.ball.r < s.player.x + s.pw then
    if s.ball.y > s.player.y ∧ s.ball.y < s.player.y + s.paddleH then
      _reflectFromPaddle
        { s with ball := { s.ball with x := s.player.x + s.pw + s.ball.r } } s.player
    else
      _resetBall { s with score := { s.score with ai := s.score.ai + 1 } } (-1) rv rv
  else s

/-- Part of `update(dt)`: the statement under `ai`: contact with or miss of the right paddle. -/
def aiSide (s : PongGame) (rv : ℝ) : PongGame :=
  if s.ball.x + s.ball.r > s.ai.x then
    if s.ball.y > s.ai.y ∧ s.ball.y < s.ai.y + s.paddleH then
      _reflectFromPaddle { s with ball := { s.ball with x := s.ai.x - s.ball.r } } s.ai
    else
      _resetBall { s with score := { s.score with player := s.score.player + 1 } } 1 rv rv
  else s

/-- Part of `update(dt)`: the last statement: the test of the scores against `maxScore`. -/
def checkEnd (s : PongGame) : PongGame :=
  if s.score.player ≥ s.maxScore ∨ s.score.ai ≥ s.maxScore then
    endGame s (if s.score.player > s.score.ai then "player" else "ai")
  else s

/-- The method `update(dt)`: `ra` and `rb` are the outcomes of `Math.random()` for the `_resetBall`
call of the player branch and of the AI branch. -/
def update (s : PongGame) (dt ra rb : ℝ) : PongGame :=
  checkEnd (aiSide (playerSide (moveBall (movePaddles s dt) dt) ra) rb)

/-- The method `_loop()`, with the value `now` that `performance.now()` returns in it. -/
def _loop (s : PongGame) (now ra rb : ℝ) : PongGame :=
  if !s.running then s
  else
    let s1 := if !s.paused then
        { update s (min 40 (now - s.last) / 1000) ra rb with last := now }
      else s
    { s1 with frames := s1.frames + 1 }

/-- The method `start()`: `t` is the clock read in `start`, `now` the one read in `_loop`. -/
def start (s : PongGame) (t now ra rb : ℝ) : PongGame :=
  _loop { s with last := t, running := true } now ra rb

/-- The method `setPaused(p)`: `t` is the clock read in `setPaused`, `now` the one read in
`_loop`. -/
def setPaused (s : PongGame) (p : Bool) (t now ra rb : ℝ) : PongGame :=
  let s1 := { s with paused := p }
  if !p && !s1.running then _loop { s1 with last := t, running := true } now ra rb
  else s1

/-- The browser delivers one pending animation-frame callback, if there is one. -/
def frame (s : PongGame) (now ra rb : ℝ) : PongGame :=
  if s.frames = 0 then s
  else _loop { s with frames := s.frames - 1 } now ra rb

end PongGame

end

/-- A call of the page into a session after its construction, a frame callback or a key
event. -/
inductive PongEv where
  | setPaused (p : Bool) (t now ra rb : ℝ)
  | frame (now ra rb : ℝ)
  | key (k : String) (isDown : Bool)

/-- The event is a call `setPaused(false)`. -/
def PongEv.resumes : PongEv → Bool
  | .setPaused p _ _ _ _ => !p
  | _ => false

noncomputable section

namespace PongGame

/-- The effect of one event. -/
def apply (s : PongGame) : PongEv → PongGame
  | .setPaused p t now ra rb => setPaused s p t now ra rb
  | .frame now ra rb => frame s now ra rb
  | .key k isDown => key s k isDown

/-- The effect of a sequence of events, first to last. -/
def run (s : PongGame) : List PongEv → PongGame
  | [] => s
  | e :: es => run (apply s e) es

/-- A session on an 800×600 canvas just after the AI has scored and the ball has been served
straight at the player (`Math.random()` gave 1/2, so `vy` is 0), at the moment of the
contact with the player paddle, which the player has moved up by 22.5 from the middle: the
state on which `update` calls `_reflectFromPaddle(this.player)`. -/
def served : PongGame :=
  { w := 800, h := 600,
    ball := { x := 40, y := 300, r := 8, vx := -300, vy := 0 },
    paddleH := 90, pw := 12,
    player := { x := 20, y := 232.5, speed := 380 },
    ai := { x := 768, y := 255, speed := 260 },
    score := { player := 0, ai := 1 }, maxScore := 7,
    keys := { up := false, down := false },
    running := true, paused := false, last := 0, bound := true, frames := 1,
    store := [], results := [] }

/-- A session on an 800×600 canvas in which the ball, served at the player with
`vx = -300` and `vy = -60`, is about to pass the player paddle, which stands lower. -/
def missed : PongGame :=
  { w := 800, h := 600,
    ball := { x := 43, y := 228.6, r := 8, vx := -300, vy := -60 },
    paddleH := 90, pw := 12,
    player := { x := 20, y := 400, speed := 380 },
    ai := { x := 768, y := 183.6, speed := 260 },
    score := { player := 0, ai := 1 }, maxScore := 7,
    keys := { up := false, down := false },
    running := true, paused := false, last := 0, bound := true, frames := 1,
    store := [], results := [] }

/-- The constants that `reset()` fixes on a `w`×`h` canvas. -/
def Geometry (w h : Nat) (s : PongGame) : Prop :=
  s.w = w ∧ s.h = h ∧ s.paddleH = 90 ∧ s.pw = 12 ∧ s.player.x = 20 ∧
  s.ai.x = (w : ℝ) - 20 - 12 ∧ s.ball.r = 8 ∧ s.maxScore = 7

/-- The states of a session on a `w`×`h` canvas reached from `reset()` by key events and by
`update(dt)` calls made while `running` is true. -/
inductive Reach (w h : Nat) : PongGame → Prop
  | reset (store : Store) (r1 r2 : ℝ) : Reach w h { new w h store r1 r2 with running := true }
  | key {s : PongGame} (k : String) (isDown : Bool) : Reach w h s → Reach w h (_onKey s k isDown)
  | update {s : PongGame} (dt ra rb : ℝ) :
      Reach w h s → s.running = true → Reach w h (update s dt ra rb)

end PongGame

end

/-! ## Breakout

Numbers are rational numbers: the class uses the four operations, comparisons and one
`Math.floor` only. -/

/-- The object `this.paddle`. -/
structure BreakoutPaddle where
  w : ℚ
  h : ℚ
  x : ℚ
  y : ℚ
  speed : ℚ
deriving DecidableEq, Repr

/-- The object `this.ball`. -/
structure BreakoutBall where
  x : ℚ
  y : ℚ
  r : ℚ
  vx : ℚ
  vy : ℚ
deriving DecidableEq, Repr

/-- An element of `this.bricks`. -/
structure Brick where
  x : ℚ
  y : ℚ
  w : ℚ
  h : ℚ
  alive : Bool
deriving DecidableEq, Repr

/-- The object `this.keys`; a missing property reads as false. -/
structure BreakoutKeys where
  left : Bool
  right : Bool
deriving DecidableEq, Repr

/-- The payload `{ score, win }` passed to `onEnd`. -/
structure BreakoutResult where
  score : Int
  win : Bool
deriving DecidableEq, Repr

/-- The fields of a `BreakoutGame` object. -/
structure BreakoutGame where
  w : ℚ
  h : ℚ
  paddle : BreakoutPaddle
  ball : BreakoutBall
  rows : Nat
  cols : Nat
  brickW : ℚ
  brickH : ℚ
  bricks : List Brick
  lives : Int
  score : Int
  mouseX : ℚ
  keys : BreakoutKeys
  running : Bool
  paused : Bool
  last : ℚ
  bound : Bool
  frames : Nat
  store : Store
  results : List BreakoutResult
deriving DecidableEq, Repr

namespace BreakoutGame

/-- The bricks that the two nested loops of `reset()` push, row by row. -/
def layBricks (rows cols : Nat) (brickW brickH : ℚ) : List Brick :=
  (List.range rows).flatMap fun r => (List.range cols).map fun c =>
    { x := 30 + (c : ℚ) * (brickW + 2), y := 40 + (r : ℚ) * (brickH + 6),
      w := brickW, h := brickH, alive := true }

/-- The constructor: `reset()`, `_bind()`, `running = false`. `r` is the outcome of
`Math.random()` that `reset()` reads. -/
def new (w h : Nat) (store : Store) (r : ℚ) : BreakoutGame :=
  let brickW : ℚ := ((Int.floor (((w : ℚ) - 60) / 10) : Int) : ℚ)
  { w := w, h := h,
    paddle := { w := 120, h := 12, x := ((w : ℚ) - 120) / 2, y := (h : ℚ) - 40, speed := 600 },
    ball := { x := (w : ℚ) / 2, y := (h : ℚ) - 60, r := 8,
              vx := 220 * (if r > 1/2 then 1 else -1), vy := -260 },
    rows := 5, cols := 10,
    brickW := brickW, brickH := 20,
    bricks := layBricks 5 10 brickW 20,
    lives := 3, score := 0,
    mouseX := ((w : ℚ) - 120) / 2,
    keys := { left := false, right := false },
    running := false, paused := false, last := 0,
    bound := true, frames := 0, store := store, results := [] }

/-- The handler `_onMouse`: `clientX` is `e.clientX`, `left` and `width` are the fields of
`getBoundingClientRect()`; `this.canvas.width` is the width read by the constructor.

When `rect.width` is 0 the quotient `canvas.width / rect.width` is no rational number. If
`(clientX - left) * canvas.width` is positive, `x` and `x - paddle.w / 2` are `Infinity`,
`Math.min` leaves `w - paddle.w` and `Math.max` the larger of 0 and that. If it is negative,
they are `-Infinity`, `Math.min` leaves `-Infinity` and `Math.max` leaves 0. If it is 0, `x`
is `NaN` (`0 * Infinity`, or `0 / 0` times any number), `Math.min` and `Math.max` pass `NaN`
on and `paddle.x` holds no number: the result is `none`. -/
def _onMouse (s : BreakoutGame) (clientX left width : ℚ) : Option BreakoutGame :=
  if width = 0 then
    if (clientX - left) * s.w > 0 then
      some { s with paddle := { s.paddle with x := max 0 (s.w - s.paddle.w) } }
    else if (clientX - left) * s.w < 0 then
      some { s with paddle := { s.paddle with x := 0 } }
    else none
  else
    let x := (clientX - left) * (s.w / width)
    let s := { s with paddle := { s.paddle with x := x - s.paddle.w / 2 } }
    some { s with paddle := { s.paddle with x := max 0 (min (s.w - s.paddle.w) s.paddle.x) } }

/-- The handler `_onKey`: `down` is `e.type === 'keydown'`. -/
def _onKey (s : BreakoutGame) (k : String) (down : Bool) : BreakoutGame :=
  let s := if k = "ArrowLeft" then { s with keys := { s.keys with left := down } } else s
  if k = "ArrowRight" then { s with keys := { s.keys with right := down } } else s

/-- A `mousemove` event on the canvas. -/
def mousemove (s : BreakoutGame) (clientX left width : ℚ) : Option BreakoutGame :=
  if s.bound then _onMouse s clientX left width else some s

/-- A `keydown` or `keyup` event on `window`. -/
def key (s : BreakoutGame) (k : String) (down : Bool) : BreakoutGame :=
  if s.bound then _onKey s k down else s

/-- The method `stop()`. -/
def stop (s : BreakoutGame) : BreakoutGame :=
  { s with running := false, bound := false }

/-- The method `endGame(win = false)`. -/
def endGame (s : BreakoutGame) (win : Bool) : BreakoutGame :=
  let s1 := stop s
  let finalScore := s1.score
  let hs := getHS s1.store "breakout"
  let s2 := if finalScore > hs
    then { s1 with store := setHS s1.store "breakout" finalScore } else s1
  { s2 with results := s2.results ++ [{ score := finalScore, win := win }] }

/-- The overlap test of the brick loop of `update`. -/
def overlaps (ball : BreakoutBall) (b : Brick) : Bool :=
  decide (ball.x > b.x) && decide (ball.x < b.x + b.w) &&
  decide (ball.y - ball.r < b.y + b.h) && decide (ball.y + ball.r > b.y)

/-- The brick loop of `update`: the bricks in order, with the vertical velocity and the
score as the loop has them when it reaches each brick. Returns the velocity, the score and
the bricks after the loop. -/
def hitBricks (ball : BreakoutBall) : ℚ → Int → List Brick → ℚ × Int × List Brick
  | vy, score, [] => (vy, score, [])
  | vy, score, b :: rest =>
    if !b.alive then
      let r := hitBricks ball vy score rest
      (r.1, r.2.1, b :: r.2.2)
    else if overlaps ball b then
      let r := hitBricks ball (vy * -1) (score + 10) rest
      (r.1, r.2.1, { b with alive := false } :: r.2.2)
    else
      let r := hitBricks ball vy score rest
      (r.1, r.2.1, b :: r.2.2)

/-- Part of `update(dt)`: the first three statements: the paddle follows the held keys and is
clamped to the board. -/
def movePaddle (s : BreakoutGame) (dt : ℚ) : BreakoutGame :=
  let s := if s.keys.left
    then { s with paddle := { s.paddle with x := s.paddle.x - s.paddle.speed * dt } } else s
  let s := if s.keys.right
    then { s with paddle := { s.paddle with x := s.paddle.x + s.paddle.speed * dt } } else s
  { s with paddle := { s.paddle with x := max 0 (min (s.w - s.paddle.w) s.paddle.x) } }

/-- Part of `update(dt)`: the two statements that move the ball. -/
def moveBall (s : BreakoutGame) (dt : ℚ) : BreakoutGame :=
  let s := { s with ball := { s.ball with x := s.ball.x + s.ball.vx * dt } }
  { s with ball := { s.ball with y := s.ball.y + s.ball.vy * dt } }

/-- Part of `update(dt)`: the statements under `wall collisions`. -/
def walls (s : BreakoutGame) : BreakoutGame :=
  let s := if s.ball.x - s.ball.r < 0
    then { s with ball := { s.ball with x := s.ball.r, vx := s.ball.vx * -1 } } else s
  let s := if s.ball.x + s.ball.r > s.w
    then { s with ball := { s.ball with x := s.w - s.ball.r, vx := s.ball.vx * -1 } } else s
  if s.ball.y - s.ball.r < 0
    then { s with ball := { s.ball with y := s.ball.r, vy := s.ball.vy * -1 } } else s

/-- Part of `update(dt)`: the statement under `paddle collision`. -/
def paddleHit (s : BreakoutGame) : BreakoutGame :=
  if s.ball.y + s.ball.r > s.paddle.y ∧
      s.ball.x > s.paddle.x ∧ s.ball.x < s.paddle.x + s.paddle.w ∧ s.ball.vy > 0 then
    let rel := (s.ball.x - (s.paddle.x + s.paddle.w / 2)) / (s.paddle.w / 2)
    { s with ball := { s.ball with vx := rel * 420, vy := s.ball.vy * -1,
                                   y := s.paddle.y - s.ball.r - 1 } }
  else s

/-- Part of `update(dt)`: the brick loop. -/
def breakBricks (s : BreakoutGame) : BreakoutGame :=
  let r := hitBricks s.ball s.ball.vy s.score s.bricks
  { s with ball := { s.ball with vy := r.1 }, score := r.2.1, bricks := r.2.2 }

/-- Part of `update(dt)`: the statements after the brick loop: the bottom edge, then the win test.
`r` is the outcome of `Math.random()` read when the ball is put back. -/
def settle (s : BreakoutGame) (r : ℚ) : BreakoutGame :=
  let win (s : BreakoutGame) : BreakoutGame :=
    if s.bricks.all (fun b => !b.alive) then endGame s true else s
  if s.ball.y - s.ball.r > s.h then
    let s := { s with lives := s.lives - 1 }
    if s.lives ≤ 0 then endGame s false
    else
      let s := { s with paddle := { s.paddle with x := (s.w - s.paddle.w) / 2 } }
      let s := { s with ball := { s.ball with x := s.w / 2, y := s.h - 60 } }
      let s := { s with ball :=
        { s.ball with vx := 220 * (if r > 1/2 then 1 else -1), vy := -260 } }
      win s
  else win s

/-- The method `update(dt)`: `r` is the outcome of `Math.random()` for the respawn. -/
def update (s : BreakoutGame) (dt r : ℚ) : BreakoutGame :=
  settle (breakBricks (paddleHit (walls (moveBall (movePaddle s dt) dt)))) r

/-- The method `_loop()`, with the value `now` that `performance.now()` returns in it. -/
def _loop (s : BreakoutGame) (now r : ℚ) : BreakoutGame :=
  if !s.running then s
  else
    let dt := min 40 (now - s.last) / 1000
    let s := { s with last := now }
    let s := if !s.paused then update s dt r else s
    { s with frames := s.frames + 1 }

/-- The method `start()`: `t` is the clock read in `start`, `now` the one read in `_loop`. -/
def start (s : BreakoutGame) (t now r : ℚ) : BreakoutGame :=
  _loop { s with last := t, running := true } now r

/-- The method `setPaused(p)`: `t` is the clock read in `setPaused`, `now` the one read in
`_loop`. -/
def setPaused (s : BreakoutGame) (p : Bool) (t now r : ℚ) : BreakoutGame :=
  let s1 := { s with paused := p }
  if !p && !s1.running then _loop { s1 with running := true, last := t } now r
  else s1

/-- The browser delivers one pending animation-frame callback, if there is one. -/
def frame (s : BreakoutGame) (now r : ℚ) : BreakoutGame :=
  if s.frames = 0 then s
  else _loop { s with frames := s.frames - 1 } now r

end BreakoutGame

/-- A call of the page into a session after its construction, a frame callback or an input
event. -/
inductive BreakoutEv where
  | setPaused (p : Bool) (t now r : ℚ)
  | frame (now r : ℚ)
  | key (k : String) (down : Bool)
  | mousemove (clientX left width : ℚ)

/-- The event is a call `setPaused(false)`. -/
def BreakoutEv.resumes : BreakoutEv → Bool
  | .setPaused p _ _ _ => !p
  | _ => false

namespace BreakoutGame

/-- The effect of one event. -/
def apply (s : BreakoutGame) : BreakoutEv → Option BreakoutGame
  | .setPaused p t now r => some (setPaused s p t now r)
  | .frame now r => some (frame s now r)
  | .key k down => some (key s k down)
  | .mousemove clientX left width => mousemove s clientX left width

/-- The effect of a sequence of events, first to last. -/
def run (s : BreakoutGame) : List BreakoutEv → Option BreakoutGame
  | [] => some s
  | e :: es => (apply s e).bind fun s1 => run s1 es

end BreakoutGame


/-! ## Breakout: the stages of `update` and the reachable states -/

namespace BreakoutGame

/-- The state of `update(dt)` when the brick loop starts: paddle and ball have moved, the
three walls and the paddle have been handled. -/
def beforeBricks (s : BreakoutGame) (dt : ℚ) : BreakoutGame :=
  paddleHit (walls (moveBall (movePaddle s dt) dt))

/-- The state of `update(dt)` when the brick loop is over, before the bottom-edge test. -/
def afterBricks (s : BreakoutGame) (dt : ℚ) : BreakoutGame :=
  breakBricks (beforeBricks s dt)

/-- The bottom-edge test of `update`: `this.ball.y - this.ball.r > this.h`. -/
def fallen (s : BreakoutGame) : Bool :=
  decide (s.ball.y - s.ball.r > s.h)

/-- The state that the `else` branch of the bottom-edge test of `update` builds: one life
less, paddle and ball put back, `r` the outcome of `Math.random()` for the direction. -/
def respawn (s : BreakoutGame) (r : ℚ) : BreakoutGame :=
  let s := { s with lives := s.lives - 1 }
  let s := { s with paddle := { s.paddle with x := (s.w - s.paddle.w) / 2 } }
  let s := { s with ball := { s.ball with x := s.w / 2, y := s.h - 60 } }
  { s with ball := { s.ball with vx := 220 * (if r > 1/2 then 1 else -1), vy := -260 } }

/-- The brick loop kills the brick: it is alive and passes the overlap test. -/
def kills (ball : BreakoutBall) (b : Brick) : Bool :=
  b.alive && overlaps ball b

/-- The number of dead bricks of a list. -/
def deadCount (bricks : List Brick) : Nat :=
  bricks.countP fun b => !b.alive

/-- The constants that `reset()` fixes on a `w`×`h` canvas. -/
def Geometry (w h : Nat) (s : BreakoutGame) : Prop :=
  s.w = w ∧ s.h = h ∧ s.paddle.w = 120 ∧ s.paddle.y = (h : ℚ) - 40 ∧ s.ball.r = 8

/-- The states of a session on a `w`×`h` canvas reached from `reset()` by key events, by
mouse events after which `paddle.x` holds a number, and by `update(dt)` calls made while
`running` is true; the index counts the updates in which the ball passed the bottom edge. -/
inductive Reach (w h : Nat) : Nat → BreakoutGame → Prop
  | reset (store : Store) (r : ℚ) : Reach w h 0 { new w h store r with running := true }
  | key {k : Nat} {s : BreakoutGame} (c : String) (down : Bool) :
      Reach w h k s → Reach w h k (_onKey s c down)
  | mouse {k : Nat} {s t : BreakoutGame} (clientX left width : ℚ) :
      Reach w h k s → _onMouse s clientX left width = some t → Reach w h k t
  | update {k : Nat} {s : BreakoutGame} (dt r : ℚ) :
      Reach w h k s → s.running = true →
      Reach w h (k + if fallen (afterBricks s dt) then 1 else 0) (update s dt r)

/-- A session on an 800×600 canvas after a first update of three seconds, which sends the
ball to the top left corner, with the paddle at x = 420, where a pointer move to
`clientX = 480` over a canvas shown at its own size puts it. -/
def aimed : BreakoutGame :=
  { update { new 800 600 [] 0 with running := true } 3 0 with
    paddle := { (update { new 800 600 [] 0 with running := true } 3 0).paddle with x := 420 } }

/-- A session on an 800×160 canvas with one life and one brick left, the first of the
lowest row (x from 30 to 104, y from 144 to 164); the ball is below the paddle, in the
column next to that brick, and moves down and to the left. -/
def lastBrick : BreakoutGame :=
  { new 800 160 [] 0 with
    running := true, lives := 1, score := 490,
    ball := { x := 110, y := 160, r := 8, vx := -220, vy := 260 },
    bricks := (layBricks 5 10 74 20).map fun b =>
      { b with alive := decide (b.x = 30 ∧ b.y = 144) } }

end BreakoutGame

/-! ## Breakout: the layout of the bricks -/

namespace BreakoutGame

/-- A brick with its flag `alive` set, as `reset()` pushes it: the place of a brick. -/
def unbroken (b : Brick) : Brick := { b with alive := true }

end BreakoutGame

/-! ## Snake: lemmas -/

namespace SnakeGame

theorem occupied_iff (body : List Cell) (c : Cell) : occupied body c = true ↔ c ∈ body := by
  unfold occupied
  rw [List.any_eq_true]
  constructor
  · rintro ⟨p, hp, h⟩
    simp only [Bool.and_eq_true, decide_eq_true_eq] at h
    have hpc : p = c := by
      cases p; cases c; simp_all
    exact hpc ▸ hp
  · intro hc
    exact ⟨c, hc, by simp⟩

theorem occupied_false_iff (body : List Cell) (c : Cell) :
    occupied body c = false ↔ c ∉ body := by
  rw [← occupied_iff]; simp

theorem validTape_tail2 {rx ry : ℚ} {rest : List ℚ} (h : validTape (rx :: ry :: rest)) :
    validTape rest := by
  intro r hr
  exact h r (List.mem_cons_of_mem _ (List.mem_cons_of_mem _ hr))

theorem floor_draw_bounds {r : ℚ} {n : Int} (hr : 0 ≤ r ∧ r < 1) (hn : 1 ≤ n) :
    0 ≤ Int.floor (r * (n : ℚ)) ∧ Int.floor (r * (n : ℚ)) < n := by
  have hn' : (0 : ℚ) < (n : ℚ) := by exact_mod_cast (by omega : (0 : Int) < n)
  constructor
  · exact Int.floor_nonneg.mpr (mul_nonneg hr.1 hn'.le)
  · rw [Int.floor_lt]
    calc r * (n : ℚ) < 1 * (n : ℚ) := by exact mul_lt_mul_of_pos_right hr.2 hn'
      _ = (n : ℚ) := one_mul _

/-- What `placeFood()` does when it returns: only `food` changes, and the new food cell is
off the body. -/
theorem placeFood_frame (s : SnakeGame) :
    ∀ (tape : List ℚ) (s1 : SnakeGame), placeFood s tape = some s1 →
      s1 = { s with food := s1.food } ∧ s1.food ∉ s.snake
  | [], s1, h => by simp [placeFood] at h
  | [_], s1, h => by simp [placeFood] at h
  | rx :: ry :: rest, s1, h => by
    rw [placeFood] at h
    by_cases hocc : occupied s.snake
        ⟨Int.floor (rx * (s.cols : ℚ)), Int.floor (ry * (s.rows : ℚ))⟩ = true
    · simp only [hocc, if_true] at h
      exact placeFood_frame s rest s1 h
    · simp only [hocc] at h
      simp only [Bool.false_eq_true, if_false, Option.some.injEq] at h
      subst h
      exact ⟨rfl, fun hm => hocc ((occupied_iff _ _).2 hm)⟩

/-- With outcomes of `Math.random()` in `[0, 1)` and a grid that has a cell, the cell that
`placeFood()` picks is inside the grid. -/
theorem placeFood_inGrid (s : SnakeGame) (hc : 1 ≤ s.cols) (hr : 1 ≤ s.rows) :
    ∀ (tape : List ℚ) (s1 : SnakeGame), validTape tape → placeFood s tape = some s1 →
      inGrid s s1.food
  | [], s1, _, h => by simp [placeFood] at h
  | [_], s1, _, h => by simp [placeFood] at h
  | rx :: ry :: rest, s1, hv, h => by
    rw [placeFood] at h
    by_cases hocc : occupied s.snake
        ⟨Int.floor (rx * (s.cols : ℚ)), Int.floor (ry * (s.rows : ℚ))⟩ = true
    · simp only [hocc, if_true] at h
      exact placeFood_inGrid s hc hr rest s1 (validTape_tail2 hv) h
    · simp only [hocc] at h
      simp only [Bool.false_eq_true, if_false, Option.some.injEq] at h
      subst h
      have hx := floor_draw_bounds (hv rx (List.mem_cons_self _ _)) hc
      have hy := floor_draw_bounds
        (hv ry (List.mem_cons_of_mem _ (List.mem_cons_self _ _))) hr
      exact ⟨hx.1, hx.2, hy.1, hy.2⟩

theorem cell_eq_iff (c d : Cell) : (c.x = d.x ∧ c.y = d.y) ↔ c = d := by
  cases c; cases d; simp

/-- The three ways in which `step()` returns. -/
theorem step_some {s s1 : SnakeGame} {tape : List ℚ} (h : step s tape = some s1) :
    ∃ h0 tl, s.snake = h0 :: tl ∧
      ((wrapHead s.cols s.rows h0 s.nextDir ∈ s.snake ∧
          s1 = endGame { s with dir := s.nextDir }) ∨
       (wrapHead s.cols s.rows h0 s.nextDir ∉ s.snake ∧
          wrapHead s.cols s.rows h0 s.nextDir = s.food ∧
          placeFood { s with dir := s.nextDir, snake := wrapHead s.cols s.rows h0 s.nextDir :: s.snake,
                             score := s.score + 1,
                             stepInterval := max 50 (s.stepInterval - 2) } tape = some s1) ∨
       (wrapHead s.cols s.rows h0 s.nextDir ∉ s.snake ∧ wrapHead s.cols s.rows h0 s.nextDir ≠ s.food ∧
          s1 = { s with dir := s.nextDir,
                        snake := (wrapHead s.cols s.rows h0 s.nextDir :: s.snake).dropLast })) := by
  unfold step at h
  cases hs : s.snake with
  | nil => simp [hs] at h
  | cons h0 tl =>
    refine ⟨h0, tl, rfl, ?_⟩
    simp only [hs] at h
    by_cases hocc : occupied (h0 :: tl) (wrapHead s.cols s.rows h0 s.nextDir) = true
    · left
      rw [if_pos hocc] at h
      refine ⟨(occupied_iff _ _).1 hocc, ?_⟩
      simpa using h.symm
    · right
      rw [if_neg hocc] at h
      have hnot : wrapHead s.cols s.rows h0 s.nextDir ∉ h0 :: tl := fun hm => hocc ((occupied_iff _ _).2 hm)
      by_cases hf : (wrapHead s.cols s.rows h0 s.nextDir).x = s.food.x ∧ (wrapHead s.cols s.rows h0 s.nextDir).y = s.food.y
      · left
        rw [if_pos hf] at h
        exact ⟨hnot, (cell_eq_iff _ _).1 hf, h⟩
      · right
        rw [if_neg hf] at h
        refine ⟨hnot, fun he => hf ((cell_eq_iff _ _).2 he), ?_⟩
        simpa using h.symm

theorem Steered.dir_eq {s t : SnakeGame} (h : Steered s t) : t.dir = s.dir := by
  rcases h with h | ⟨e, h, _⟩ <;> rw [h]

theorem turn_steered {s t : SnakeGame} (hit allowed : Bool) (d : Cell) (ht : Steered s t)
    (hd : isUnit d) (hal : allowed = true → d ≠ reverse t.dir) :
    Steered s (turn t hit allowed d) := by
  unfold turn
  by_cases h1 : hit = true
  · by_cases h2 : allowed = true
    · rw [if_pos h1, if_pos h2]
      right
      refine ⟨d, ?_, hd, ?_⟩
      · rcases ht with h | ⟨e, h, _⟩ <;> rw [h]
      · rw [← ht.dir_eq]; exact hal h2
    · rw [if_pos h1, if_neg h2]; exact ht
  · rw [if_neg h1]; exact ht

theorem onKey_steered (s : SnakeGame) (k : String) : Steered s (_onKey s k) := by
  unfold _onKey
  dsimp only
  apply turn_steered
  apply turn_steered
  apply turn_steered
  apply turn_steered
  · exact Or.inl rfl
  all_goals first
    | (unfold isUnit; simp)
    | (intro h hr; simp only [reverse, bne_iff_ne, ne_eq] at h hr
       rw [Cell.mk.injEq] at hr
       omega)


theorem endGame_keeps (s : SnakeGame) :
    (endGame s).cols = s.cols ∧ (endGame s).rows = s.rows ∧ (endGame s).snake = s.snake ∧
    (endGame s).dir = s.dir ∧ (endGame s).nextDir = s.nextDir ∧ (endGame s).food = s.food ∧
    (endGame s).stepInterval = s.stepInterval ∧ (endGame s).score = s.score ∧
    (endGame s).running = false ∧ (endGame s).results = s.results ++ [s.score] := by
  unfold endGame stop
  dsimp only
  split_ifs <;> simp

/-- The facts about the food cell that hold along every run. -/
theorem reach_food {w h n : Nat} {s : SnakeGame} (hr : Reach w h n s) :
    s.food ∉ s.snake ∧ (1 ≤ s.cols → 1 ≤ s.rows → inGrid s s.food) := by
  induction hr with
  | @reset store tape s hv hnew =>
    unfold new at hnew
    simp only [Option.map_eq_some'] at hnew
    obtain ⟨s1, hp, rfl⟩ := hnew
    obtain ⟨h1, h2⟩ := placeFood_frame _ tape s1 hp
    have h3 := fun hc hr => placeFood_inGrid _ hc hr tape s1 hv hp
    rw [h1]
    exact ⟨h2, h3⟩
  | @key n s k _ ih =>
    rcases onKey_steered s k with hk | ⟨e, hk, _, _⟩ <;> rw [hk] <;> exact ih
  | @step n s s1 tape _ hv hstep ih =>
    obtain ⟨h0, tl, hs, hcase⟩ := step_some hstep
    rcases hcase with ⟨_, rfl⟩ | ⟨_, _, hp⟩ | ⟨hnot, hne, rfl⟩
    · obtain ⟨e1, e2, e3, _, _, e6, _⟩ := endGame_keeps { s with dir := s.nextDir }
      unfold inGrid
      rw [e1, e2, e3, e6]
      exact ih
    · obtain ⟨h1, h2⟩ := placeFood_frame _ tape s1 hp
      have h3 := fun hc hr => placeFood_inGrid _ hc hr tape s1 hv hp
      rw [h1]
      exact ⟨h2, h3⟩
    · refine ⟨fun hm => ?_, ih.2⟩
      have hm' := List.mem_of_mem_dropLast hm
      rcases List.mem_cons.1 hm' with he | hin
      · exact hne he.symm
      · exact ih.1 hin

/-- The facts about the two direction fields that hold along every run. -/
theorem reach_dir {w h n : Nat} {s : SnakeGame} (hr : Reach w h n s) :
    isUnit s.nextDir ∧ s.nextDir ≠ reverse s.dir := by
  induction hr with
  | @reset store tape s hv hnew =>
    unfold new at hnew
    simp only [Option.map_eq_some'] at hnew
    obtain ⟨s1, hp, rfl⟩ := hnew
    obtain ⟨h1, _⟩ := placeFood_frame _ tape s1 hp
    rw [h1]
    simp [isUnit, reverse]
  | @key n s k _ ih =>
    rcases onKey_steered s k with hk | ⟨e, hk, he1, he2⟩ <;> rw [hk]
    · exact ih
    · exact ⟨he1, he2⟩
  | @step n s s1 tape _ hv hstep ih =>
    have hself : s.nextDir ≠ reverse s.nextDir := by
      rcases ih.1 with h | h | h | h <;> rw [h] <;> simp [reverse]
    obtain ⟨h0, tl, hs, hcase⟩ := step_some hstep
    rcases hcase with ⟨_, rfl⟩ | ⟨_, _, hp⟩ | ⟨hnot, hne, rfl⟩
    · obtain ⟨_, _, _, e4, e5, _⟩ := endGame_keeps { s with dir := s.nextDir }
      rw [e4, e5]
      exact ⟨ih.1, hself⟩
    · obtain ⟨h1, _⟩ := placeFood_frame _ tape s1 hp
      rw [h1]
      exact ⟨ih.1, hself⟩
    · exact ⟨ih.1, hself⟩

theorem step_dir {s s1 : SnakeGame} {tape : List ℚ}
    (hstep : step s tape = some s1) : s1.dir = s.nextDir := by
  obtain ⟨h0, tl, hs, hcase⟩ := step_some hstep
  rcases hcase with ⟨_, rfl⟩ | ⟨_, _, hp⟩ | ⟨hnot, hne, rfl⟩
  · exact (endGame_keeps { s with dir := s.nextDir }).2.2.2.1
  · obtain ⟨h1, _⟩ := placeFood_frame _ tape s1 hp
    rw [h1]
  · rfl

theorem emod_wrap (n : Int) (hn : 1 ≤ n) (a : Int) :
    (a = -1 → a % n = n - 1) ∧ (a = n → a % n = 0) ∧ (0 ≤ a → a < n → a % n = a) := by
  refine ⟨?_, ?_, ?_⟩
  · intro ha
    subst ha
    have h1 : (-1 + n) % n = -1 + n := Int.emod_eq_of_lt (by omega) (by omega)
    have h2 : (-1 + n) % n = -1 % n := Int.add_emod_self
    omega
  · intro ha; rw [ha]; exact Int.emod_self
  · intro h1 h2; exact Int.emod_eq_of_lt h1 h2

theorem wrapHead_eq_mod {cols rows : Int} (hc : 1 ≤ cols) (hr : 1 ≤ rows) {h0 d : Cell}
    (hx : 0 ≤ h0.x ∧ h0.x < cols) (hy : 0 ≤ h0.y ∧ h0.y < rows) (hd : isUnit d) :
    wrapHead cols rows h0 d = ⟨(h0.x + d.x) % cols, (h0.y + d.y) % rows⟩ := by
  obtain ⟨mx1, mx2, mx3⟩ := emod_wrap cols hc (h0.x + d.x)
  obtain ⟨my1, my2, my3⟩ := emod_wrap rows hr (h0.y + d.y)
  unfold wrapHead
  rcases hd with h | h | h | h <;> subst h <;> dsimp only at * <;>
    split_ifs <;> (try dsimp only at *) <;> simp only [Cell.mk.injEq] <;> constructor <;> omega

theorem eats_iff {s : SnakeGame} {h0 : Cell} {tl : List Cell} (hs : s.snake = h0 :: tl) :
    eats s = true ↔
      wrapHead s.cols s.rows h0 s.nextDir ∉ s.snake ∧
      wrapHead s.cols s.rows h0 s.nextDir = s.food := by
  unfold eats nextHead
  rw [hs]
  simp only [Bool.and_eq_true, Bool.not_eq_true', decide_eq_true_eq]
  rw [occupied_false_iff, cell_eq_iff]

theorem max_speedup (n : Nat) :
    max (50 : Int) (max 50 (120 - 2 * (n : Int)) - 2) =
      max 50 (120 - 2 * ((n + 1 : Nat) : Int)) := by
  simp only [max_def]
  split_ifs <;> push_cast at * <;> omega

/-- Score, body length and step interval as functions of the number of eating steps. -/
theorem reach_growth {w h n : Nat} {s : SnakeGame} (hr : Reach w h n s) :
    s.score = n ∧ s.snake.length = 1 + n ∧ s.stepInterval = max 50 (120 - 2 * (n : Int)) := by
  induction hr with
  | @reset store tape s hv hnew =>
    unfold new at hnew
    simp only [Option.map_eq_some'] at hnew
    obtain ⟨s1, hp, rfl⟩ := hnew
    obtain ⟨h1, _⟩ := placeFood_frame _ tape s1 hp
    rw [h1]
    simp
  | @key n s k _ ih =>
    rcases onKey_steered s k with hk | ⟨e, hk, _, _⟩ <;> rw [hk] <;> exact ih
  | @step n s s1 tape _ hv hstep ih =>
    obtain ⟨h0, tl, hs, hcase⟩ := step_some hstep
    rcases hcase with ⟨hin, rfl⟩ | ⟨hnot, hfood, hp⟩ | ⟨hnot, hne, rfl⟩
    · have he : eats s = false := by
        rw [← Bool.not_eq_true, eats_iff hs]; exact fun hh => hh.1 hin
      obtain ⟨_, _, e3, _, _, _, e7, e8, _⟩ := endGame_keeps { s with dir := s.nextDir }
      rw [e3, e7, e8, he]
      simpa using ih
    · have he : eats s = true := (eats_iff hs).2 ⟨hnot, hfood⟩
      obtain ⟨h1, _⟩ := placeFood_frame _ tape s1 hp
      rw [h1, he]
      obtain ⟨i1, i2, i3⟩ := ih
      refine ⟨?_, ?_, ?_⟩
      · simp [i1]
      · simp [i2]; omega
      · simp only [if_true]
        rw [i3]
        exact max_speedup n
    · have he : eats s = false := by
        rw [← Bool.not_eq_true, eats_iff hs]; exact fun hh => hne hh.2
      rw [he]
      obtain ⟨i1, i2, i3⟩ := ih
      refine ⟨by simpa using i1, ?_, by simpa using i3⟩
      simp [i2]

/-! ## Snake: the claims -/

theorem new_fresh : new 400 400 [] [3/4, 1/4] = some fresh := by
  norm_num [new, placeFood, occupied, fresh, Int.floor_eq_iff]

theorem validTape_fresh : validTape [3/4, 1/4] := by
  intro r hr
  simp only [List.mem_cons, List.mem_singleton, List.not_mem_nil, or_false] at hr
  rcases hr with rfl | rfl <;> norm_num

theorem reach_fresh : Reach 400 400 0 fresh :=
  Reach.reset validTape_fresh new_fresh

/-- C2, as stated, fails on a canvas narrower than one cell: on a 10×40 canvas the grid has
0 columns and 2 rows, `reset()` puts the body on cell (0, 1), and with both outcomes of
`Math.random()` equal to 0 `placeFood()` returns with the food on cell (0, 0), whose `x` is
not below `cols = 0`. -/
theorem snake_food_outside_empty_grid :
    ∃ s : SnakeGame, Reach 10 40 0 s ∧ s.cols = 0 ∧ s.food = ⟨0, 0⟩ ∧ ¬ inGrid s s.food := by
  refine ⟨{ cols := 0, rows := 2, snake := [⟨0, 1⟩], dir := ⟨1, 0⟩, nextDir := ⟨1, 0⟩,
            food := ⟨0, 0⟩, stepInterval := 120, accel := 0, score := 0, lastStep := 0,
            running := false, paused := false, last := 0, bound := true, frames := 0,
            store := [], results := [] }, ?_, rfl, rfl, ?_⟩
  · refine @Reach.reset 10 40 [] [0, 0] _ ?_ ?_
    · intro r hr
      simp only [List.mem_cons, List.mem_singleton, List.not_mem_nil, or_false, or_self] at hr
      subst hr
      norm_num
    · norm_num [new, placeFood, occupied]
  · unfold inGrid
    simp

/-- C2, amended: when the grid has at least one column and one row, in every state reached
from the constructor's `reset()` by key events and `step()` calls that return, for all
outcomes of `Math.random()` in `[0, 1)`, the food cell is inside the grid and is not a cell
of the body. -/
theorem snake_food_inside_grid_off_body {w h n : Nat} {s : SnakeGame}
    (hreach : Reach w h n s) (hc : 1 ≤ s.cols) (hr : 1 ≤ s.rows) :
    (0 ≤ s.food.x ∧ s.food.x < s.cols ∧ 0 ≤ s.food.y ∧ s.food.y < s.rows) ∧
    ∀ p ∈ s.snake, p ≠ s.food :=
  ⟨(reach_food hreach).2 hc hr, fun _ hp he => (reach_food hreach).1 (he ▸ hp)⟩

/-- The amended C2 at the fresh session on a 400×400 canvas. -/
theorem snake_food_inside_grid_off_body_witness :
    Reach 400 400 0 fresh ∧ 1 ≤ fresh.cols ∧ 1 ≤ fresh.rows ∧
    ((0 ≤ fresh.food.x ∧ fresh.food.x < fresh.cols ∧ 0 ≤ fresh.food.y ∧
        fresh.food.y < fresh.rows) ∧ ∀ p ∈ fresh.snake, p ≠ fresh.food) :=
  ⟨reach_fresh, by decide, by decide,
    snake_food_inside_grid_off_body reach_fresh (by decide) (by decide)⟩

/-- C3: in every state reached from the constructor's `reset()` by key events and `step()`
calls, `nextDir` is not the negation of `dir`; hence the direction that a `step()` commits
is never the reverse of the direction committed before it. -/
theorem snake_never_reverses {w h n : Nat} {s : SnakeGame} (hreach : Reach w h n s) :
    s.nextDir ≠ reverse s.dir ∧
    ∀ (tape : List ℚ) (s1 : SnakeGame), step s tape = some s1 →
      s1.dir = s.nextDir ∧ s1.dir ≠ reverse s.dir := by
  refine ⟨(reach_dir hreach).2, fun tape s1 hstep => ?_⟩
  have hd := step_dir hstep
  exact ⟨hd, hd ▸ (reach_dir hreach).2⟩

/-- C3 at the fresh session after the keys `ArrowUp` and `ArrowLeft` pressed in a row. -/
theorem snake_never_reverses_witness :
    Reach 400 400 0 (_onKey (_onKey fresh "ArrowUp") "ArrowLeft") ∧
    (_onKey (_onKey fresh "ArrowUp") "ArrowLeft").nextDir ≠
      reverse (_onKey (_onKey fresh "ArrowUp") "ArrowLeft").dir :=
  ⟨Reach.key _ (Reach.key _ reach_fresh),
   (snake_never_reverses (Reach.key "ArrowLeft" (Reach.key "ArrowUp" reach_fresh))).1⟩

/-- C4: a `step()` that returns without ending the game (no result is emitted) grows body
and score by exactly 1 and sets `stepInterval` to `max(50, stepInterval - 2)` when the new
head is the food cell, and leaves all three unchanged otherwise. Hence after `n` eating
steps from `reset()` score is `n`, body length is `1 + n` and `stepInterval` is
`max(50, 120 - 2n)`; after 3 of them body length is 4 and `stepInterval` is 114. -/
theorem snake_growth {w h n : Nat} {s : SnakeGame} (hreach : Reach w h n s) :
    (s.score = n ∧ s.snake.length = 1 + n ∧ s.stepInterval = max 50 (120 - 2 * (n : Int))) ∧
    (n = 3 → s.snake.length = 4 ∧ s.stepInterval = 114) ∧
    (∀ (t t1 : SnakeGame) (h0 : Cell) (tl : List Cell) (tape : List ℚ),
      t.snake = h0 :: tl → step t tape = some t1 → t1.results = t.results →
      (wrapHead t.cols t.rows h0 t.nextDir = t.food →
        t1.snake.length = t.snake.length + 1 ∧ t1.score = t.score + 1 ∧
        t1.stepInterval = max 50 (t.stepInterval - 2)) ∧
      (wrapHead t.cols t.rows h0 t.nextDir ≠ t.food →
        t1.snake.length = t.snake.length ∧ t1.score = t.score ∧
        t1.stepInterval = t.stepInterval)) := by
  refine ⟨reach_growth hreach, ?_, ?_⟩
  · intro hn
    obtain ⟨_, h2, h3⟩ := reach_growth hreach
    subst hn
    exact ⟨by omega, by rw [h3]; decide⟩
  · intro t t1 h0 tl tape hs hstep hres
    obtain ⟨h0', tl', hs', hcase⟩ := step_some hstep
    have hh : h0' = h0 := by
      rw [hs] at hs'
      exact ((List.cons.injEq _ _ _ _ ▸ hs') : h0 = h0' ∧ tl = tl').1.symm
    subst hh
    rcases hcase with ⟨_, rfl⟩ | ⟨_, hfood, hp⟩ | ⟨_, hne, rfl⟩
    · exfalso
      have e := (endGame_keeps { t with dir := t.nextDir }).2.2.2.2.2.2.2.2.2
      rw [e] at hres
      simp at hres
    · obtain ⟨h1, _⟩ := placeFood_frame _ tape t1 hp
      refine ⟨fun _ => ?_, fun hne => absurd hfood hne⟩
      rw [h1]
      exact ⟨by simp, rfl, rfl⟩
    · refine ⟨fun hfood => absurd hfood hne, fun _ => ⟨?_, rfl, rfl⟩⟩
      simp

/-- C4 on a run: a fresh session on a 400×400 canvas whose food is served on the cell ahead
of the head three times in a row has eaten 3 times after 3 steps. -/
theorem snake_growth_witness :
    ∃ s : SnakeGame, Reach 400 400 3 s ∧ s.score = 3 ∧ s.snake.length = 4 ∧
      s.stepInterval = 114 := by
  have hv : ∀ a b : ℚ, (0 ≤ a ∧ a < 1) → (0 ≤ b ∧ b < 1) → validTape [a, b] := by
    intro a b ha hb r hr
    simp only [List.mem_cons, List.mem_singleton, List.not_mem_nil, or_false] at hr
    rcases hr with rfl | rfl <;> assumption
  let s0 : SnakeGame := { fresh with food := ⟨11, 10⟩ }
  let s1 : SnakeGame := { s0 with snake := [⟨11, 10⟩, ⟨10, 10⟩], food := ⟨12, 10⟩,
                                  score := 1, stepInterval := 118 }
  let s2 : SnakeGame := { s1 with snake := [⟨12, 10⟩, ⟨11, 10⟩, ⟨10, 10⟩], food := ⟨13, 10⟩,
                                  score := 2, stepInterval := 116 }
  let s3 : SnakeGame := { s2 with snake := [⟨13, 10⟩, ⟨12, 10⟩, ⟨11, 10⟩, ⟨10, 10⟩],
                                  food := ⟨14, 10⟩, score := 3, stepInterval := 114 }
  have r0 : Reach 400 400 0 s0 :=
    @Reach.reset 400 400 [] [11/20, 1/2] s0 (hv (11/20) (1/2) (by norm_num) (by norm_num))
      (by norm_num [new, placeFood, occupied, fresh, Int.floor_eq_iff, s0])
  have r1 : Reach 400 400 1 s1 :=
    Reach.step r0 (hv (3/5) (1/2) (by norm_num) (by norm_num))
      (by norm_num [step, wrapHead, placeFood, occupied, fresh, Int.floor_eq_iff, s0, s1])
  have r2 : Reach 400 400 2 s2 :=
    Reach.step r1 (hv (13/20) (1/2) (by norm_num) (by norm_num))
      (by norm_num [step, wrapHead, placeFood, occupied, fresh, Int.floor_eq_iff, s0, s1, s2])
  have r3 : Reach 400 400 3 s3 :=
    Reach.step r2 (hv (7/10) (1/2) (by norm_num) (by norm_num))
      (by norm_num [step, wrapHead, placeFood, occupied, fresh, Int.floor_eq_iff,
            s0, s1, s2, s3])
  exact ⟨s3, r3, (snake_growth r3).1.1, (snake_growth r3).2.1 rfl⟩

/-- C5: with at least one column and one row, from a state whose head is inside the grid
and whose buffered direction (the one `step()` commits) is a unit vector, the head that
`step()` computes is `((head.x + dir.x) mod cols, (head.y + dir.y) mod rows)`, a cell of
the grid; `step()` calls `endGame()` exactly when that cell is on the current body, and
otherwise returns (when `placeFood()` does) with that cell as the new head, no result
emitted and every body cell still inside the grid. -/
theorem snake_step_wraps (s : SnakeGame) (h0 : Cell) (tl : List Cell)
    (hc : 1 ≤ s.cols) (hr : 1 ≤ s.rows) (hs : s.snake = h0 :: tl)
    (hin : inGrid s h0) (hd : isUnit s.nextDir) :
    wrapHead s.cols s.rows h0 s.nextDir =
      ⟨(h0.x + s.nextDir.x) % s.cols, (h0.y + s.nextDir.y) % s.rows⟩ ∧
    inGrid s ⟨(h0.x + s.nextDir.x) % s.cols, (h0.y + s.nextDir.y) % s.rows⟩ ∧
    (∀ tape : List ℚ,
      (⟨(h0.x + s.nextDir.x) % s.cols, (h0.y + s.nextDir.y) % s.rows⟩ : Cell) ∈ s.snake →
      step s tape = some (endGame { s with dir := s.nextDir })) ∧
    (∀ tape : List ℚ,
      (⟨(h0.x + s.nextDir.x) % s.cols, (h0.y + s.nextDir.y) % s.rows⟩ : Cell) ∉ s.snake →
      (⟨(h0.x + s.nextDir.x) % s.cols, (h0.y + s.nextDir.y) % s.rows⟩ : Cell) ≠ s.food →
      step s tape = some { s with dir := s.nextDir, snake :=
        ((⟨(h0.x + s.nextDir.x) % s.cols, (h0.y + s.nextDir.y) % s.rows⟩ : Cell) ::
          s.snake).dropLast }) ∧
    (∀ (tape : List ℚ) (s1 : SnakeGame), step s tape = some s1 →
      (s1.results = s.results ++ [s.score] ↔
        (⟨(h0.x + s.nextDir.x) % s.cols, (h0.y + s.nextDir.y) % s.rows⟩ : Cell) ∈ s.snake) ∧
      (s1.results = s.results ↔
        (⟨(h0.x + s.nextDir.x) % s.cols, (h0.y + s.nextDir.y) % s.rows⟩ : Cell) ∉ s.snake) ∧
      ((⟨(h0.x + s.nextDir.x) % s.cols, (h0.y + s.nextDir.y) % s.rows⟩ : Cell) ∉ s.snake →
        s1.snake.head? = some ⟨(h0.x + s.nextDir.x) % s.cols, (h0.y + s.nextDir.y) % s.rows⟩) ∧
      ((∀ p ∈ s.snake, inGrid s p) → ∀ p ∈ s1.snake, inGrid s1 p)) := by
  have hw := wrapHead_eq_mod hc hr ⟨hin.1, hin.2.1⟩ ⟨hin.2.2.1, hin.2.2.2⟩ hd
  have hgrid : inGrid s ⟨(h0.x + s.nextDir.x) % s.cols, (h0.y + s.nextDir.y) % s.rows⟩ :=
    ⟨Int.emod_nonneg _ (by omega), Int.emod_lt_of_pos _ (by omega),
     Int.emod_nonneg _ (by omega), Int.emod_lt_of_pos _ (by omega)⟩
  rw [← hw] at hgrid ⊢
  refine ⟨rfl, hgrid, ?_, ?_, ?_⟩
  · intro tape hmem
    unfold step
    simp only [hs]
    rw [if_pos ((occupied_iff _ _).2 (hs ▸ hmem))]
  · intro tape hnot hne
    unfold step
    simp only [hs]
    rw [if_neg (fun ho => hnot (hs ▸ (occupied_iff _ _).1 ho)),
      if_neg (fun hf => hne ((cell_eq_iff _ _).1 hf))]
  · intro tape s1 hstep
    obtain ⟨h0', tl', hs', hcase⟩ := step_some hstep
    have hh : h0' = h0 := by
      rw [hs] at hs'
      exact ((List.cons.injEq _ _ _ _ ▸ hs') : h0 = h0' ∧ tl = tl').1.symm
    subst hh
    rcases hcase with ⟨hmem, rfl⟩ | ⟨hnot, hfood, hp⟩ | ⟨hnot, hne, rfl⟩
    · obtain ⟨e1, e2, e3, _, _, _, _, _, _, e10⟩ := endGame_keeps { s with dir := s.nextDir }
      refine ⟨⟨fun _ => hmem, fun _ => e10⟩, ⟨fun he => ?_, fun hn => absurd hmem hn⟩,
        fun hn => absurd hmem hn, fun hall p hp => ?_⟩
      · rw [e10] at he; simp at he
      · rw [e3] at hp
        unfold inGrid
        rw [e1, e2]
        exact hall p hp
    · obtain ⟨h1, _⟩ := placeFood_frame _ tape s1 hp
      rw [h1]
      refine ⟨⟨fun he => ?_, fun hm => absurd hm hnot⟩, ⟨fun _ => hnot, fun _ => rfl⟩,
        fun _ => rfl, fun hall p hp => ?_⟩
      · simp at he
      · rcases List.mem_cons.1 hp with he | hin'
        · rw [he]; exact hgrid
        · exact hall p hin'
    · refine ⟨⟨fun he => ?_, fun hm => absurd hm hnot⟩, ⟨fun _ => hnot, fun _ => rfl⟩,
        fun _ => ?_, fun hall p hp => ?_⟩
      · simp at he
      · rw [hs]; rfl
      · rcases List.mem_cons.1 (List.mem_of_mem_dropLast hp) with he | hin'
        · rw [he]; exact hgrid
        · exact hall p hin'

/-- C5 at the fresh session on a 400×400 canvas: the head moves from (10, 10) to (11, 10). -/
theorem snake_step_wraps_witness :
    1 ≤ fresh.cols ∧ 1 ≤ fresh.rows ∧ inGrid fresh ⟨10, 10⟩ ∧ isUnit fresh.nextDir ∧
    wrapHead fresh.cols fresh.rows ⟨10, 10⟩ fresh.nextDir =
      ⟨(10 + fresh.nextDir.x) % fresh.cols, (10 + fresh.nextDir.y) % fresh.rows⟩ ∧
    step fresh [] = some { fresh with snake := [⟨11, 10⟩] } :=
  have hg : inGrid fresh ⟨10, 10⟩ := by unfold inGrid; decide
  have hu : isUnit fresh.nextDir := Or.inl rfl
  have h := snake_step_wraps fresh ⟨10, 10⟩ [] (by decide) (by decide) rfl hg hu
  ⟨by decide, by decide, hg, hu, h.1, h.2.2.2.1 [] (by decide) (by decide)⟩

end SnakeGame

/-! ## Pong: lemmas -/

noncomputable section

namespace PongGame

theorem reflect_vx (s : PongGame) (p : PongPaddle) :
    (_reflectFromPaddle s p).ball.vx =
      (if s.ball.x < s.w / 2 then 1 else -1) * Real.cos (relative s p * Real.pi / 3) *
        max 200 (speed s.ball * 1.05) := rfl

theorem reflect_vy (s : PongGame) (p : PongPaddle) :
    (_reflectFromPaddle s p).ball.vy =
      Real.sin (relative s p * Real.pi / 3) * max 150 (speed s.ball * 1.02) := rfl

theorem speed_nonneg (b : PongBall) : 0 ≤ speed b := Real.sqrt_nonneg _

theorem floors_ordered {v : ℝ} (hv : 0 ≤ v) : max 150 (v * 1.02) ≤ max 200 (v * 1.05) := by
  apply max_le
  · exact le_trans (by norm_num) (le_max_left _ _)
  · exact le_trans (by nlinarith) (le_max_right _ _)

theorem slow_floor_pos (v : ℝ) : 0 < max 150 (v * 1.02) :=
  lt_of_lt_of_le (by norm_num) (le_max_left _ _)

/-- The square of the outgoing speed of `_reflectFromPaddle`. -/
theorem reflect_speed_sq (s : PongGame) (p : PongPaddle) :
    (_reflectFromPaddle s p).ball.vx * (_reflectFromPaddle s p).ball.vx +
      (_reflectFromPaddle s p).ball.vy * (_reflectFromPaddle s p).ball.vy =
    Real.cos (relative s p * Real.pi / 3) ^ 2 * max 200 (speed s.ball * 1.05) ^ 2 +
      Real.sin (relative s p * Real.pi / 3) ^ 2 * max 150 (speed s.ball * 1.02) ^ 2 := by
  rw [reflect_vx, reflect_vy]
  split_ifs <;> ring

theorem mix_bounds {A B c sn : ℝ} (hB : 0 ≤ B) (hAB : B ≤ A) (h1 : sn ^ 2 + c ^ 2 = 1) :
    B ^ 2 ≤ c ^ 2 * A ^ 2 + sn ^ 2 * B ^ 2 ∧ c ^ 2 * A ^ 2 + sn ^ 2 * B ^ 2 ≤ A ^ 2 := by
  have hsq : B ^ 2 ≤ A ^ 2 := by nlinarith
  have hc := mul_nonneg (sq_nonneg c) (sub_nonneg.2 hsq)
  have hs := mul_nonneg (sq_nonneg sn) (sub_nonneg.2 hsq)
  constructor <;> nlinarith

/-- The outgoing speed of `_reflectFromPaddle` lies between the two floored speeds. -/
theorem reflect_speed_bounds (s : PongGame) (p : PongPaddle) :
    max 150 (speed s.ball * 1.02) ≤ speed (_reflectFromPaddle s p).ball ∧
    speed (_reflectFromPaddle s p).ball ≤ max 200 (speed s.ball * 1.05) := by
  have hB := slow_floor_pos (speed s.ball)
  have hAB := floors_ordered (speed_nonneg s.ball)
  have hA : 0 < max 200 (speed s.ball * 1.05) := lt_of_lt_of_le hB hAB
  have hm := mix_bounds hB.le hAB (Real.sin_sq_add_cos_sq (relative s p * Real.pi / 3))
  have he : speed (_reflectFromPaddle s p).ball = Real.sqrt
      (Real.cos (relative s p * Real.pi / 3) ^ 2 * max 200 (speed s.ball * 1.05) ^ 2 +
        Real.sin (relative s p * Real.pi / 3) ^ 2 * max 150 (speed s.ball * 1.02) ^ 2) := by
    rw [← reflect_speed_sq]; rfl
  rw [he]
  exact ⟨(Real.le_sqrt' hB).2 hm.1, (Real.sqrt_le_left hA.le).2 hm.2⟩


theorem geometry_new (w h : Nat) (store : Store) (r1 r2 : ℝ) :
    Geometry w h (new w h store r1 r2) := by
  unfold Geometry new
  simp

theorem geometry_onKey {w h : Nat} {s : PongGame} (k : String) (d : Bool)
    (hg : Geometry w h s) : Geometry w h (_onKey s k d) := by
  unfold _onKey
  dsimp only
  split_ifs <;> exact hg

theorem geometry_movePaddles {w h : Nat} {s : PongGame} (dt : ℝ)
    (hg : Geometry w h s) : Geometry w h (movePaddles s dt) := by
  unfold movePaddles
  dsimp only
  split_ifs <;> exact hg

theorem geometry_moveBall {w h : Nat} {s : PongGame} (dt : ℝ)
    (hg : Geometry w h s) : Geometry w h (moveBall s dt) := by
  unfold moveBall
  dsimp only
  split_ifs <;> exact hg

theorem geometry_playerSide {w h : Nat} {s : PongGame} (r : ℝ)
    (hg : Geometry w h s) : Geometry w h (playerSide s r) := by
  unfold playerSide _reflectFromPaddle _resetBall
  dsimp only
  split_ifs <;> exact hg

theorem geometry_aiSide {w h : Nat} {s : PongGame} (r : ℝ)
    (hg : Geometry w h s) : Geometry w h (aiSide s r) := by
  unfold aiSide _reflectFromPaddle _resetBall
  dsimp only
  split_ifs <;> exact hg

theorem geometry_checkEnd {w h : Nat} {s : PongGame}
    (hg : Geometry w h s) : Geometry w h (checkEnd s) := by
  unfold checkEnd endGame stop
  dsimp only
  split_ifs <;> exact hg

theorem geometry_update {w h : Nat} {s : PongGame} (dt ra rb : ℝ)
    (hg : Geometry w h s) : Geometry w h (update s dt ra rb) :=
  geometry_checkEnd (geometry_aiSide rb (geometry_playerSide ra
    (geometry_moveBall dt (geometry_movePaddles dt hg))))

theorem reach_geometry {w h : Nat} {s : PongGame} (hr : Reach w h s) : Geometry w h s := by
  induction hr with
  | reset store r1 r2 => exact geometry_new w h store r1 r2
  | key k d _ ih => exact geometry_onKey k d ih
  | update dt ra rb _ _ ih => exact geometry_update dt ra rb ih

/-- The five ways through the two paddle tests of `update` on a canvas at least 80 wide:
at most one of the two tests fires. -/
theorem sides_cases {w h : Nat} {m : PongGame} (ra rb : ℝ) (hg : Geometry w h m)
    (hw : (80 : ℝ) ≤ w) :
    (m.ball.x - m.ball.r < m.player.x + m.pw ∧
      (m.ball.y > m.player.y ∧ m.ball.y < m.player.y + m.paddleH) ∧
      aiSide (playerSide m ra) rb = _reflectFromPaddle
        { m with ball := { m.ball with x := m.player.x + m.pw + m.ball.r } } m.player) ∨
    (m.ball.x - m.ball.r < m.player.x + m.pw ∧
      ¬ (m.ball.y > m.player.y ∧ m.ball.y < m.player.y + m.paddleH) ∧
      aiSide (playerSide m ra) rb =
        _resetBall { m with score := { m.score with ai := m.score.ai + 1 } } (-1) ra ra) ∨
    (¬ (m.ball.x - m.ball.r < m.player.x + m.pw) ∧ m.ball.x + m.ball.r > m.ai.x ∧
      (m.ball.y > m.ai.y ∧ m.ball.y < m.ai.y + m.paddleH) ∧
      aiSide (playerSide m ra) rb = _reflectFromPaddle
        { m with ball := { m.ball with x := m.ai.x - m.ball.r } } m.ai) ∨
    (¬ (m.ball.x - m.ball.r < m.player.x + m.pw) ∧ m.ball.x + m.ball.r > m.ai.x ∧
      ¬ (m.ball.y > m.ai.y ∧ m.ball.y < m.ai.y + m.paddleH) ∧
      aiSide (playerSide m ra) rb =
        _resetBall { m with score := { m.score with player := m.score.player + 1 } } 1 rb rb) ∨
    (¬ (m.ball.x - m.ball.r < m.player.x + m.pw) ∧ ¬ (m.ball.x + m.ball.r > m.ai.x) ∧
      aiSide (playerSide m ra) rb = m) := by
  obtain ⟨g1, g2, g3, g4, g5, g6, g7, g8⟩ := hg
  by_cases pf : m.ball.x - m.ball.r < m.player.x + m.pw
  · by_cases pc : m.ball.y > m.player.y ∧ m.ball.y < m.player.y + m.paddleH
    · left
      refine ⟨pf, pc, ?_⟩
      have hp : playerSide m ra = _reflectFromPaddle
          { m with ball := { m.ball with x := m.player.x + m.pw + m.ball.r } } m.player := by
        unfold playerSide; rw [if_pos pf, if_pos pc]
      rw [hp]
      unfold aiSide
      rw [if_neg]
      show ¬ (m.player.x + m.pw + m.ball.r + m.ball.r > m.ai.x)
      rw [g4, g5, g6, g7]; intro hh; linarith
    · right; left
      refine ⟨pf, pc, ?_⟩
      have hp : playerSide m ra =
          _resetBall { m with score := { m.score with ai := m.score.ai + 1 } } (-1) ra ra := by
        unfold playerSide; rw [if_pos pf, if_neg pc]
      rw [hp]
      unfold aiSide
      rw [if_neg]
      show ¬ (m.w / 2 + m.ball.r > m.ai.x)
      rw [g1, g6, g7]; intro hh; linarith
  · have hp : playerSide m ra = m := by unfold playerSide; rw [if_neg pf]
    rw [hp]
    right; right
    by_cases af : m.ball.x + m.ball.r > m.ai.x
    · by_cases ac : m.ball.y > m.ai.y ∧ m.ball.y < m.ai.y + m.paddleH
      · left
        refine ⟨pf, af, ac, ?_⟩
        unfold aiSide; rw [if_pos af, if_pos ac]
      · right; left
        refine ⟨pf, af, ac, ?_⟩
        unfold aiSide; rw [if_pos af, if_neg ac]
    · right; right
      refine ⟨pf, af, ?_⟩
      unfold aiSide; rw [if_neg af]

theorem movePaddles_frame (s : PongGame) (dt : ℝ) :
    (movePaddles s dt).score = s.score ∧ (movePaddles s dt).running = s.running ∧
    (movePaddles s dt).results = s.results ∧ (movePaddles s dt).ball = s.ball := by
  unfold movePaddles
  dsimp only
  split_ifs <;> exact ⟨rfl, rfl, rfl, rfl⟩

theorem moveBall_frame (s : PongGame) (dt : ℝ) :
    (moveBall s dt).score = s.score ∧ (moveBall s dt).running = s.running ∧
    (moveBall s dt).results = s.results ∧ (moveBall s dt).player = s.player ∧
    (moveBall s dt).ai = s.ai := by
  unfold moveBall
  dsimp only
  split_ifs <;> exact ⟨rfl, rfl, rfl, rfl, rfl⟩

theorem resetBall_frame (s : PongGame) (d rs rv : ℝ) :
    (_resetBall s d rs rv).score = s.score ∧ (_resetBall s d rs rv).running = s.running ∧
    (_resetBall s d rs rv).results = s.results ∧
    (_resetBall s d rs rv).ball.x = s.w / 2 ∧ (_resetBall s d rs rv).ball.y = s.h / 2 ∧
    (_resetBall s d rs rv).ball.vy = 120 * (rv * 2 - 1) ∧
    (d ≠ 0 → (_resetBall s d rs rv).ball.vx = 300 * d) := by
  refine ⟨rfl, rfl, rfl, rfl, rfl, rfl, fun hd => ?_⟩
  unfold _resetBall
  dsimp only
  rw [if_pos hd]

theorem endGame_frame (s : PongGame) (winner : String) :
    (endGame s winner).score = s.score ∧ (endGame s winner).ball = s.ball ∧
    (endGame s winner).running = false ∧
    (endGame s winner).results = s.results ++ [⟨winner, s.score.player⟩] := by
  unfold endGame stop
  dsimp only
  split_ifs <;> exact ⟨rfl, rfl, rfl, rfl⟩

theorem checkEnd_frame (s : PongGame) :
    (checkEnd s).score = s.score ∧ (checkEnd s).ball = s.ball := by
  unfold checkEnd
  by_cases hc : s.score.player ≥ s.maxScore ∨ s.score.ai ≥ s.maxScore
  · rw [if_pos hc]
    exact ⟨(endGame_frame s _).1, (endGame_frame s _).2.1⟩
  · rw [if_neg hc]
    exact ⟨rfl, rfl⟩

theorem checkEnd_below {s : PongGame} (hmax : s.maxScore = 7)
    (h : s.score.player < 7 ∧ s.score.ai < 7) : checkEnd s = s := by
  unfold checkEnd
  rw [if_neg]
  rw [hmax]
  omega

theorem checkEnd_reached {s : PongGame} (hmax : s.maxScore = 7)
    (h : ¬ (s.score.player < 7 ∧ s.score.ai < 7)) :
    checkEnd s = endGame s (if s.score.player > s.score.ai then "player" else "ai") := by
  unfold checkEnd
  rw [if_pos]
  rw [hmax]
  omega

/-- While the session is running both scores are below 7. -/
theorem reach_scores {w h : Nat} {s : PongGame} (hr : Reach w h s) :
    s.running = true → s.score.player < 7 ∧ s.score.ai < 7 := by
  induction hr with
  | reset store r1 r2 =>
    intro _
    show (0 : Nat) < 7 ∧ (0 : Nat) < 7
    exact ⟨by norm_num, by norm_num⟩
  | @key s k d _ ih =>
    unfold _onKey
    dsimp only
    split_ifs <;> exact ih
  | @update s dt ra rb hs _ _ =>
    intro hrun
    have hg := geometry_aiSide rb (geometry_playerSide ra
      (geometry_moveBall dt (geometry_movePaddles dt (reach_geometry hs))))
    have hmax := hg.2.2.2.2.2.2.2
    unfold update at hrun ⊢
    by_cases hb : (aiSide (playerSide (moveBall (movePaddles s dt) dt) ra) rb).score.player < 7 ∧
        (aiSide (playerSide (moveBall (movePaddles s dt) dt) ra) rb).score.ai < 7
    · rw [checkEnd_below hmax hb]; exact hb
    · rw [checkEnd_reached hmax hb, (endGame_frame _ _).2.2.1] at hrun
      exact absurd hrun (by decide)

/-- On a canvas at least 80 wide the two paddle tests change at most one score, by 1, and
neither the running flag nor the emitted results. -/
theorem sides_score {w h : Nat} {m : PongGame} (ra rb : ℝ) (hg : Geometry w h m)
    (hw : (80 : ℝ) ≤ w) :
    (aiSide (playerSide m ra) rb).running = m.running ∧
    (aiSide (playerSide m ra) rb).results = m.results ∧
    (((aiSide (playerSide m ra) rb).score.player = m.score.player ∧
        (aiSide (playerSide m ra) rb).score.ai = m.score.ai) ∨
      ((aiSide (playerSide m ra) rb).score.player = m.score.player + 1 ∧
        (aiSide (playerSide m ra) rb).score.ai = m.score.ai) ∨
      ((aiSide (playerSide m ra) rb).score.player = m.score.player ∧
        (aiSide (playerSide m ra) rb).score.ai = m.score.ai + 1)) := by
  rcases sides_cases ra rb hg hw with ⟨_, _, e⟩ | ⟨_, _, e⟩ | ⟨_, _, _, e⟩ | ⟨_, _, _, e⟩ |
    ⟨_, _, e⟩ <;> rw [e]
  · exact ⟨rfl, rfl, Or.inl ⟨rfl, rfl⟩⟩
  · exact ⟨rfl, rfl, Or.inr (Or.inr ⟨rfl, rfl⟩)⟩
  · exact ⟨rfl, rfl, Or.inl ⟨rfl, rfl⟩⟩
  · exact ⟨rfl, rfl, Or.inr (Or.inl ⟨rfl, rfl⟩)⟩
  · exact ⟨rfl, rfl, Or.inl ⟨rfl, rfl⟩⟩


/-- Inside the open cone of 60 degrees the cosine exceeds 1/2 and bounds the sine. -/
theorem cone_trig {ρ : ℝ} (h1 : -1 < ρ) (h2 : ρ < 1) :
    1 / 2 < Real.cos (ρ * Real.pi / 3) ∧
    |Real.sin (ρ * Real.pi / 3)| ≤ Real.sqrt 3 * Real.cos (ρ * Real.pi / 3) := by
  have hpi := Real.pi_pos
  have habs : |ρ * Real.pi / 3| < Real.pi / 3 := by
    rw [abs_lt]
    constructor <;> nlinarith
  have hcos : 1 / 2 < Real.cos (ρ * Real.pi / 3) := by
    rw [← Real.cos_abs, ← Real.cos_pi_div_three]
    exact Real.cos_lt_cos_of_nonneg_of_le_pi (abs_nonneg _) (by linarith) habs
  refine ⟨hcos, ?_⟩
  have h3 : (0 : ℝ) ≤ Real.sqrt 3 := Real.sqrt_nonneg 3
  have h3sq : Real.sqrt 3 ^ 2 = 3 := Real.sq_sqrt (by norm_num)
  apply abs_le_of_sq_le_sq _ (mul_nonneg h3 (by linarith))
  have hcs := Real.sin_sq_add_cos_sq (ρ * Real.pi / 3)
  rw [mul_pow, h3sq]
  nlinarith

/-- The value `relative` at a contact lies strictly between -1 and 1. -/
theorem relative_contact {s : PongGame} {p : PongPaddle} (hH : s.paddleH = 90)
    (hc : s.ball.y > p.y ∧ s.ball.y < p.y + s.paddleH) :
    -1 < relative s p ∧ relative s p < 1 := by
  unfold relative
  rw [hH] at hc ⊢
  constructor
  · rw [lt_div_iff₀ (by norm_num)]; linarith [hc.1]
  · rw [div_lt_iff₀ (by norm_num)]; linarith [hc.2]

/-- The velocity that `_reflectFromPaddle` gives at a contact stays inside the cone of 60
degrees around the horizontal and points along `dir`. -/
theorem reflect_cone {s : PongGame} {p : PongPaddle} (h1 : -1 < relative s p)
    (h2 : relative s p < 1) :
    (s.ball.x < s.w / 2 → 0 < (_reflectFromPaddle s p).ball.vx) ∧
    (¬ s.ball.x < s.w / 2 → (_reflectFromPaddle s p).ball.vx < 0) ∧
    |(_reflectFromPaddle s p).ball.vy| ≤ Real.sqrt 3 * |(_reflectFromPaddle s p).ball.vx| := by
  obtain ⟨hcos, hsin⟩ := cone_trig h1 h2
  have hB := slow_floor_pos (speed s.ball)
  have hAB := floors_ordered (speed_nonneg s.ball)
  have hA : 0 < max 200 (speed s.ball * 1.05) := lt_of_lt_of_le hB hAB
  have hc0 : 0 < Real.cos (relative s p * Real.pi / 3) := by linarith
  have h3 : (0 : ℝ) ≤ Real.sqrt 3 := Real.sqrt_nonneg 3
  rw [reflect_vx, reflect_vy]
  refine ⟨fun hx => ?_, fun hx => ?_, ?_⟩
  · rw [if_pos hx, one_mul]; exact mul_pos hc0 hA
  · rw [if_neg hx]
    have := mul_pos hc0 hA
    linarith
  · have hvx : |(if s.ball.x < s.w / 2 then (1 : ℝ) else -1) *
        Real.cos (relative s p * Real.pi / 3) * max 200 (speed s.ball * 1.05)| =
        Real.cos (relative s p * Real.pi / 3) * max 200 (speed s.ball * 1.05) := by
      split_ifs
      · rw [one_mul, abs_of_pos (mul_pos hc0 hA)]
      · rw [show (-1 : ℝ) * Real.cos (relative s p * Real.pi / 3) *
            max 200 (speed s.ball * 1.05) =
            -(Real.cos (relative s p * Real.pi / 3) * max 200 (speed s.ball * 1.05)) by ring,
          abs_neg, abs_of_pos (mul_pos hc0 hA)]
    rw [hvx, abs_mul, abs_of_pos hB]
    calc |Real.sin (relative s p * Real.pi / 3)| * max 150 (speed s.ball * 1.02)
        ≤ (Real.sqrt 3 * Real.cos (relative s p * Real.pi / 3)) *
            max 150 (speed s.ball * 1.02) := mul_le_mul_of_nonneg_right hsin hB.le
      _ ≤ (Real.sqrt 3 * Real.cos (relative s p * Real.pi / 3)) *
            max 200 (speed s.ball * 1.05) :=
          mul_le_mul_of_nonneg_left hAB (mul_nonneg h3 hc0.le)
      _ = Real.sqrt 3 * (Real.cos (relative s p * Real.pi / 3) *
            max 200 (speed s.ball * 1.05)) := by ring

/-- What the player-paddle test of `update` leaves behind when it fires: the ball is at
x = 40 after a contact and at the centre after a miss, so on a canvas at least 80 wide the
AI-paddle test that follows does not fire. -/
theorem playerSide_cases {w h : Nat} {m : PongGame} (ra : ℝ) (hg : Geometry w h m)
    (hw : (80 : ℝ) ≤ w) :
    (m.ball.x - m.ball.r < m.player.x + m.pw ∧
      (m.ball.y > m.player.y ∧ m.ball.y < m.player.y + m.paddleH) ∧
      playerSide m ra = _reflectFromPaddle
        { m with ball := { m.ball with x := m.player.x + m.pw + m.ball.r } } m.player ∧
      ¬ ((playerSide m ra).ball.x + (playerSide m ra).ball.r > (playerSide m ra).ai.x)) ∨
    (m.ball.x - m.ball.r < m.player.x + m.pw ∧
      ¬ (m.ball.y > m.player.y ∧ m.ball.y < m.player.y + m.paddleH) ∧
      playerSide m ra =
        _resetBall { m with score := { m.score with ai := m.score.ai + 1 } } (-1) ra ra ∧
      ¬ ((playerSide m ra).ball.x + (playerSide m ra).ball.r > (playerSide m ra).ai.x)) ∨
    (¬ (m.ball.x - m.ball.r < m.player.x + m.pw) ∧ playerSide m ra = m) := by
  obtain ⟨g1, g2, g3, g4, g5, g6, g7, g8⟩ := hg
  by_cases pf : m.ball.x - m.ball.r < m.player.x + m.pw
  · by_cases pc : m.ball.y > m.player.y ∧ m.ball.y < m.player.y + m.paddleH
    · left
      have hp : playerSide m ra = _reflectFromPaddle
          { m with ball := { m.ball with x := m.player.x + m.pw + m.ball.r } } m.player := by
        unfold playerSide; rw [if_pos pf, if_pos pc]
      refine ⟨pf, pc, hp, ?_⟩
      rw [hp]
      show ¬ (m.player.x + m.pw + m.ball.r + m.ball.r > m.ai.x)
      rw [g4, g5, g6, g7]; intro hh; linarith
    · right; left
      have hp : playerSide m ra =
          _resetBall { m with score := { m.score with ai := m.score.ai + 1 } } (-1) ra ra := by
        unfold playerSide; rw [if_pos pf, if_neg pc]
      refine ⟨pf, pc, hp, ?_⟩
      rw [hp]
      show ¬ (m.w / 2 + m.ball.r > m.ai.x)
      rw [g1, g6, g7]; intro hh; linarith
  · right; right
    exact ⟨pf, by unfold playerSide; rw [if_neg pf]⟩

theorem aiSide_idle {p : PongGame} (rb : ℝ) (h : ¬ (p.ball.x + p.ball.r > p.ai.x)) :
    aiSide p rb = p := by
  unfold aiSide; rw [if_neg h]

theorem aiSide_contact {p : PongGame} (rb : ℝ) (h : p.ball.x + p.ball.r > p.ai.x)
    (hc : p.ball.y > p.ai.y ∧ p.ball.y < p.ai.y + p.paddleH) :
    aiSide p rb =
      _reflectFromPaddle { p with ball := { p.ball with x := p.ai.x - p.ball.r } } p.ai := by
  unfold aiSide; rw [if_pos h, if_pos hc]

theorem aiSide_miss {p : PongGame} (rb : ℝ) (h : p.ball.x + p.ball.r > p.ai.x)
    (hc : ¬ (p.ball.y > p.ai.y ∧ p.ball.y < p.ai.y + p.paddleH)) :
    aiSide p rb =
      _resetBall { p with score := { p.score with player := p.score.player + 1 } } 1 rb rb := by
  unfold aiSide; rw [if_pos h, if_neg hc]

theorem update_ball (s : PongGame) (dt ra rb : ℝ) :
    (update s dt ra rb).ball = (aiSide (playerSide (moveBall (movePaddles s dt) dt) ra) rb).ball ∧
    (update s dt ra rb).score =
      (aiSide (playerSide (moveBall (movePaddles s dt) dt) ra) rb).score := by
  unfold update
  exact ⟨(checkEnd_frame _).2, (checkEnd_frame _).1⟩


theorem movePaddles_wh (s : PongGame) (dt : ℝ) :
    (movePaddles s dt).w = s.w ∧ (movePaddles s dt).h = s.h := by
  unfold movePaddles
  dsimp only
  split_ifs <;> exact ⟨rfl, rfl⟩

theorem moveBall_wh (s : PongGame) (dt : ℝ) :
    (moveBall s dt).w = s.w ∧ (moveBall s dt).h = s.h := by
  unfold moveBall
  dsimp only
  split_ifs <;> exact ⟨rfl, rfl⟩

theorem moved_frame (s : PongGame) (dt : ℝ) :
    (moveBall (movePaddles s dt) dt).w = s.w ∧ (moveBall (movePaddles s dt) dt).h = s.h ∧
    (moveBall (movePaddles s dt) dt).score = s.score := by
  refine ⟨?_, ?_, ?_⟩
  · rw [(moveBall_wh _ dt).1, (movePaddles_wh s dt).1]
  · rw [(moveBall_wh _ dt).2, (movePaddles_wh s dt).2]
  · rw [(moveBall_frame _ dt).1, (movePaddles_frame s dt).1]

theorem playerSide_frame (m : PongGame) (ra : ℝ) :
    (playerSide m ra).w = m.w ∧ (playerSide m ra).h = m.h ∧
    (playerSide m ra).score.player = m.score.player := by
  unfold playerSide
  split_ifs <;> exact ⟨rfl, rfl, rfl⟩

theorem playerSide_miss {m : PongGame} (ra : ℝ)
    (pf : m.ball.x - m.ball.r < m.player.x + m.pw)
    (pc : ¬ (m.ball.y > m.player.y ∧ m.ball.y < m.player.y + m.paddleH)) :
    playerSide m ra =
      _resetBall { m with score := { m.score with ai := m.score.ai + 1 } } (-1) ra ra := by
  unfold playerSide; rw [if_pos pf, if_neg pc]


theorem served_speed : speed served.ball = 300 := by
  unfold speed served
  rw [show ((-300 : ℝ) * -300 + 0 * 0) = 300 ^ 2 by norm_num]
  exact Real.sqrt_sq (by norm_num)

theorem served_angle : relative served served.player * Real.pi / 3 = Real.pi / 6 := by
  unfold relative served
  norm_num
  ring

theorem served_out_sq :
    (_reflectFromPaddle served served.player).ball.vx *
        (_reflectFromPaddle served served.player).ball.vx +
      (_reflectFromPaddle served served.player).ball.vy *
        (_reflectFromPaddle served served.player).ball.vy = 97827.75 := by
  rw [reflect_speed_sq, served_speed, served_angle, Real.cos_pi_div_six, Real.sin_pi_div_six]
  have h3 : Real.sqrt 3 ^ 2 = 3 := Real.sq_sqrt (by norm_num)
  have hA : max (200 : ℝ) (300 * 1.05) = 315 := by norm_num
  have hB : max (150 : ℝ) (300 * 1.02) = 306 := by norm_num
  rw [hA, hB, div_pow, h3]
  norm_num


/-! ## Pong: the claims -/

/-- C6: on a canvas at least 80 wide, from every state reached from `reset()` by key events
and `update(dt)` calls made while the session is running, both scores are below 7 and one
more `update(dt)` changes at most one score, by exactly 1. As long as both scores stay
below 7 the update does not end the game; the update in which a score reaches 7 calls
`endGame`: the other score is below 7, and the result emitted names the side that reached 7
and carries the tally of the player. -/
theorem pong_first_to_seven {w h : Nat} {s : PongGame} (hreach : Reach w h s)
    (hw : 80 ≤ w) (hrun : s.running = true) (dt ra rb : ℝ) :
    (s.score.player < 7 ∧ s.score.ai < 7) ∧
    (((update s dt ra rb).score.player = s.score.player ∧
        (update s dt ra rb).score.ai = s.score.ai) ∨
      ((update s dt ra rb).score.player = s.score.player + 1 ∧
        (update s dt ra rb).score.ai = s.score.ai) ∨
      ((update s dt ra rb).score.player = s.score.player ∧
        (update s dt ra rb).score.ai = s.score.ai + 1)) ∧
    ((update s dt ra rb).score.player < 7 ∧ (update s dt ra rb).score.ai < 7 →
      (update s dt ra rb).running = true ∧ (update s dt ra rb).results = s.results) ∧
    ((update s dt ra rb).score.player = 7 →
      (update s dt ra rb).score.ai < 7 ∧ (update s dt ra rb).running = false ∧
      (update s dt ra rb).results = s.results ++ [⟨"player", 7⟩]) ∧
    ((update s dt ra rb).score.ai = 7 →
      (update s dt ra rb).score.player < 7 ∧ (update s dt ra rb).running = false ∧
      (update s dt ra rb).results =
        s.results ++ [⟨"ai", (update s dt ra rb).score.player⟩]) := by
  have hlt := reach_scores hreach hrun
  have hgm := geometry_moveBall dt (geometry_movePaddles dt (reach_geometry hreach))
  have hwr : (80 : ℝ) ≤ w := by exact_mod_cast hw
  obtain ⟨q1, q2, q3⟩ := sides_score ra rb hgm hwr
  have hmax := (geometry_aiSide rb (geometry_playerSide ra hgm)).2.2.2.2.2.2.2
  have m1 := (moveBall_frame (movePaddles s dt) dt)
  have m2 := (movePaddles_frame s dt)
  rw [m1.1, m2.1] at q3
  rw [m1.2.1, m2.2.1, hrun] at q1
  rw [m1.2.2.1, m2.2.2.1] at q2
  have hsc := (checkEnd_frame (aiSide (playerSide (moveBall (movePaddles s dt) dt) ra) rb)).1
  unfold update
  rw [hsc]
  refine ⟨hlt, q3, ?_, ?_, ?_⟩
  · intro hb
    rw [checkEnd_below hmax hb]
    exact ⟨q1, q2⟩
  · intro hp
    have hn : ¬ ((aiSide (playerSide (moveBall (movePaddles s dt) dt) ra) rb).score.player < 7 ∧
        (aiSide (playerSide (moveBall (movePaddles s dt) dt) ra) rb).score.ai < 7) := by omega
    have hai : (aiSide (playerSide (moveBall (movePaddles s dt) dt) ra) rb).score.ai < 7 := by
      omega
    rw [checkEnd_reached hmax hn]
    obtain ⟨_, _, e3, e4⟩ := endGame_frame
      (aiSide (playerSide (moveBall (movePaddles s dt) dt) ra) rb)
      (if (aiSide (playerSide (moveBall (movePaddles s dt) dt) ra) rb).score.player >
          (aiSide (playerSide (moveBall (movePaddles s dt) dt) ra) rb).score.ai
        then "player" else "ai")
    refine ⟨hai, e3, ?_⟩
    rw [e4, q2, if_pos (by omega), hp]
  · intro ha
    have hn : ¬ ((aiSide (playerSide (moveBall (movePaddles s dt) dt) ra) rb).score.player < 7 ∧
        (aiSide (playerSide (moveBall (movePaddles s dt) dt) ra) rb).score.ai < 7) := by omega
    have hpl : (aiSide (playerSide (moveBall (movePaddles s dt) dt) ra) rb).score.player < 7 := by
      omega
    rw [checkEnd_reached hmax hn]
    obtain ⟨_, _, e3, e4⟩ := endGame_frame
      (aiSide (playerSide (moveBall (movePaddles s dt) dt) ra) rb)
      (if (aiSide (playerSide (moveBall (movePaddles s dt) dt) ra) rb).score.player >
          (aiSide (playerSide (moveBall (movePaddles s dt) dt) ra) rb).score.ai
        then "player" else "ai")
    refine ⟨hpl, e3, ?_⟩
    rw [e4, q2, if_neg (by omega)]

/-- C6 at the first update of a session on an 800×600 canvas. -/
theorem pong_first_to_seven_witness :
    Reach 800 600 { new 800 600 [] 0 (1/2) with running := true } ∧ 80 ≤ 800 ∧
    ((update { new 800 600 [] 0 (1/2) with running := true } (2/125) 0 0).score.player < 7 ∧
     (update { new 800 600 [] 0 (1/2) with running := true } (2/125) 0 0).score.ai < 7 →
     (update { new 800 600 [] 0 (1/2) with running := true } (2/125) 0 0).running = true ∧
     (update { new 800 600 [] 0 (1/2) with running := true } (2/125) 0 0).results = []) :=
  ⟨Reach.reset [] 0 (1/2), by norm_num,
   (pong_first_to_seven (Reach.reset [] 0 (1/2)) (by norm_num) rfl (2/125) 0 0).2.2.1⟩

/-- C7, as stated, fails: in `missed` the ball passes the player paddle during an update of
20 ms, the AI scores (1 → 2), the ball is re-centred at (400, 300), and the served `vx` is
-300: it points at the player, who conceded, not at the AI paddle on the right. -/
theorem pong_serve_after_ai_point_goes_left :
    (moveBall (movePaddles missed (1/50)) (1/50)).ball.x -
        (moveBall (movePaddles missed (1/50)) (1/50)).ball.r <
      (moveBall (movePaddles missed (1/50)) (1/50)).player.x +
        (moveBall (movePaddles missed (1/50)) (1/50)).pw ∧
    ¬ ((moveBall (movePaddles missed (1/50)) (1/50)).ball.y >
        (moveBall (movePaddles missed (1/50)) (1/50)).player.y) ∧
    (update missed (1/50) (1/4) (1/4)).score.ai = missed.score.ai + 1 ∧
    (update missed (1/50) (1/4) (1/4)).score.player = missed.score.player ∧
    (update missed (1/50) (1/4) (1/4)).ball.x = 400 ∧
    (update missed (1/50) (1/4) (1/4)).ball.y = 300 ∧
    (update missed (1/50) (1/4) (1/4)).ball.vx = -300 ∧
    ¬ (0 < (update missed (1/50) (1/4) (1/4)).ball.vx) := by
  norm_num [update, checkEnd, aiSide, playerSide, moveBall, movePaddles, _resetBall, missed]

/-- C7, amended: in `update`, with `m` the state after the paddles and the ball have moved
and `p` the state after the player-paddle test: when the player paddle misses, the AI's
score goes up by 1, the ball is put at `(w/2, h/2)` and served with `vx = -300`, at the
player paddle on the left; when the AI paddle misses, the player's score goes up by 1, the
ball is put at `(w/2, h/2)` and served with `vx = 300`, at the AI paddle on the right. The
serve goes at the side that conceded the point. After a miss of the AI paddle this is the
state the update returns; after a miss of the player paddle it is so whenever the AI-paddle
test does not fire on the re-centred ball, as on every canvas at least 80 wide. -/
theorem pong_miss_serves_at_conceder (s m p : PongGame) (dt ra rb : ℝ)
    (hm : m = moveBall (movePaddles s dt) dt) (hp : p = playerSide m ra) :
    (m.ball.x - m.ball.r < m.player.x + m.pw →
      ¬ (m.ball.y > m.player.y ∧ m.ball.y < m.player.y + m.paddleH) →
      p.score.ai = s.score.ai + 1 ∧ p.score.player = s.score.player ∧
      p.ball.x = s.w / 2 ∧ p.ball.y = s.h / 2 ∧ p.ball.vx = -300 ∧
      (¬ (p.ball.x + p.ball.r > p.ai.x) →
        (update s dt ra rb).score = p.score ∧ (update s dt ra rb).ball = p.ball) ∧
      (∀ w h : Nat, Reach w h s → 80 ≤ w →
        (update s dt ra rb).score = p.score ∧ (update s dt ra rb).ball = p.ball)) ∧
    (p.ball.x + p.ball.r > p.ai.x →
      ¬ (p.ball.y > p.ai.y ∧ p.ball.y < p.ai.y + p.paddleH) →
      (update s dt ra rb).score.player = s.score.player + 1 ∧
      (update s dt ra rb).score.ai = p.score.ai ∧
      (update s dt ra rb).ball.x = s.w / 2 ∧ (update s dt ra rb).ball.y = s.h / 2 ∧
      (update s dt ra rb).ball.vx = 300) := by
  obtain ⟨mw, mh, msc⟩ := moved_frame s dt
  rw [← hm] at mw mh msc
  obtain ⟨u1, u2⟩ := update_ball s dt ra rb
  rw [← hm, ← hp] at u1 u2
  constructor
  · intro pf pc
    have e := playerSide_miss ra pf pc
    rw [← hp] at e
    have hidle : ¬ (p.ball.x + p.ball.r > p.ai.x) →
        (update s dt ra rb).score = p.score ∧ (update s dt ra rb).ball = p.ball := by
      intro hi
      rw [u1, u2, aiSide_idle rb hi]
      exact ⟨rfl, rfl⟩
    refine ⟨?_, ?_, ?_, ?_, ?_, hidle, ?_⟩
    · rw [e, ← msc]; rfl
    · rw [e, ← msc]; rfl
    · rw [e, ← mw]; rfl
    · rw [e, ← mh]; rfl
    · rw [e]
      have := (resetBall_frame { m with score := { m.score with ai := m.score.ai + 1 } }
        (-1) ra ra).2.2.2.2.2.2 (by norm_num)
      rw [this]; norm_num
    · intro w h hreach hw
      have hgm : Geometry w h m := hm ▸ geometry_moveBall dt (geometry_movePaddles dt
        (reach_geometry hreach))
      have hwr : (80 : ℝ) ≤ w := by exact_mod_cast hw
      rcases playerSide_cases ra hgm hwr with ⟨_, _, _, hi⟩ | ⟨_, _, _, hi⟩ | ⟨npf, _⟩
      · rw [← hp] at hi; exact hidle hi
      · rw [← hp] at hi; exact hidle hi
      · exact absurd pf npf
  · intro af ac
    have e := aiSide_miss rb af ac
    obtain ⟨pw, ph, psc⟩ := playerSide_frame m ra
    rw [← hp] at pw ph psc
    rw [u1, u2, e]
    refine ⟨?_, rfl, ?_, ?_, ?_⟩
    · show p.score.player + 1 = s.score.player + 1
      rw [psc, msc]
    · show p.w / 2 = s.w / 2
      rw [pw, mw]
    · show p.h / 2 = s.h / 2
      rw [ph, mh]
    · have := (resetBall_frame { p with score := { p.score with player := p.score.player + 1 } }
        1 rb rb).2.2.2.2.2.2 (by norm_num)
      rw [this]; norm_num

/-- The amended C7 at `missed`: the hypotheses of the player-paddle miss hold there and the
serve that follows has `vx = -300`. -/
theorem pong_miss_serves_at_conceder_witness :
    (moveBall (movePaddles missed (1/50)) (1/50)).ball.x -
        (moveBall (movePaddles missed (1/50)) (1/50)).ball.r <
      (moveBall (movePaddles missed (1/50)) (1/50)).player.x +
        (moveBall (movePaddles missed (1/50)) (1/50)).pw ∧
    (playerSide (moveBall (movePaddles missed (1/50)) (1/50)) (1/4)).score.ai =
      missed.score.ai + 1 ∧
    (playerSide (moveBall (movePaddles missed (1/50)) (1/50)) (1/4)).ball.vx = -300 := by
  have pf : (moveBall (movePaddles missed (1/50)) (1/50)).ball.x -
        (moveBall (movePaddles missed (1/50)) (1/50)).ball.r <
      (moveBall (movePaddles missed (1/50)) (1/50)).player.x +
        (moveBall (movePaddles missed (1/50)) (1/50)).pw := by
    norm_num [moveBall, movePaddles, missed]
  have pc : ¬ ((moveBall (movePaddles missed (1/50)) (1/50)).ball.y >
        (moveBall (movePaddles missed (1/50)) (1/50)).player.y ∧
      (moveBall (movePaddles missed (1/50)) (1/50)).ball.y <
        (moveBall (movePaddles missed (1/50)) (1/50)).player.y +
          (moveBall (movePaddles missed (1/50)) (1/50)).paddleH) := by
    norm_num [moveBall, movePaddles, missed]
  have h := (pong_miss_serves_at_conceder missed _ _ (1/50) (1/4) (1/4) rfl rfl).1 pf pc
  exact ⟨pf, h.1, h.2.2.2.2.1⟩

/-- C8, as stated, fails: in `served` the ball (speed 300) touches the player paddle at a
quarter of its height above the middle (`relative` = 1/2, angle 30 degrees); after
`_reflectFromPaddle` its speed squared is 97827.75, so its speed is not
`max(200, 300 * 1.05) = 315`, whose square is 99225. -/
theorem pong_reflect_speed_below_single_floor :
    (served.ball.y > served.player.y ∧ served.ball.y < served.player.y + served.paddleH) ∧
    relative served served.player = 1 / 2 ∧
    speed served.ball = 300 ∧
    max 200 (speed served.ball * 1.05) = 315 ∧
    speed (_reflectFromPaddle served served.player).ball ^ 2 = 97827.75 ∧
    speed (_reflectFromPaddle served served.player).ball ≠
      max 200 (speed served.ball * 1.05) := by
  have hmax : max 200 (speed served.ball * 1.05) = 315 := by
    rw [served_speed]; norm_num
  have hsq : speed (_reflectFromPaddle served served.player).ball ^ 2 = 97827.75 := by
    unfold speed
    rw [served_out_sq]
    exact Real.sq_sqrt (by norm_num)
  refine ⟨by norm_num [served], by norm_num [relative, served], served_speed, hmax, hsq, ?_⟩
  intro he
  rw [he, hmax] at hsq
  norm_num at hsq

/-- C8, amended: `_reflectFromPaddle` applies the floor 200 and the growth factor 1.05 to
the x component and the floor 150 and the growth factor 1.02 to the y component of a
velocity of direction `angle = relative * π / 3`. With `s` the speed before, the speed
after is `sqrt(cos(angle)² * max(200, 1.05 s)² + sin(angle)² * max(150, 1.02 s)²)`: it
lies between `max(150, 1.02 s)` and `max(200, 1.05 s)` and is `max(200, 1.05 s)` when
`relative` is 0. -/
theorem pong_reflect_speed_two_floors (s : PongGame) (paddle : PongPaddle) :
    (_reflectFromPaddle s paddle).ball.vx =
      (if s.ball.x < s.w / 2 then 1 else -1) *
        Real.cos (relative s paddle * Real.pi / 3) * max 200 (speed s.ball * 1.05) ∧
    (_reflectFromPaddle s paddle).ball.vy =
      Real.sin (relative s paddle * Real.pi / 3) * max 150 (speed s.ball * 1.02) ∧
    speed (_reflectFromPaddle s paddle).ball = Real.sqrt
      (Real.cos (relative s paddle * Real.pi / 3) ^ 2 * max 200 (speed s.ball * 1.05) ^ 2 +
        Real.sin (relative s paddle * Real.pi / 3) ^ 2 * max 150 (speed s.ball * 1.02) ^ 2) ∧
    max 150 (speed s.ball * 1.02) ≤ speed (_reflectFromPaddle s paddle).ball ∧
    speed (_reflectFromPaddle s paddle).ball ≤ max 200 (speed s.ball * 1.05) ∧
    (relative s paddle = 0 →
      speed (_reflectFromPaddle s paddle).ball = max 200 (speed s.ball * 1.05)) := by
  have he : speed (_reflectFromPaddle s paddle).ball = Real.sqrt
      (Real.cos (relative s paddle * Real.pi / 3) ^ 2 * max 200 (speed s.ball * 1.05) ^ 2 +
        Real.sin (relative s paddle * Real.pi / 3) ^ 2 *
          max 150 (speed s.ball * 1.02) ^ 2) := by
    rw [← reflect_speed_sq]; rfl
  refine ⟨rfl, rfl, he, (reflect_speed_bounds s paddle).1, (reflect_speed_bounds s paddle).2,
    fun h0 => ?_⟩
  have hA : 0 < max 200 (speed s.ball * 1.05) :=
    lt_of_lt_of_le (by norm_num) (le_max_left _ _)
  rw [he, h0]
  simp only [zero_mul, zero_div, Real.cos_zero, Real.sin_zero, one_pow, one_mul, ne_eq,
    OfNat.ofNat_ne_zero, not_false_eq_true, zero_pow, add_zero]
  exact Real.sqrt_sq hA.le

/-- The amended C8 at the contact of `served`, where `relative` is 1/2. -/
theorem pong_reflect_speed_two_floors_witness :
    relative served served.player = 1 / 2 ∧
    max 150 (speed served.ball * 1.02) ≤
      speed (_reflectFromPaddle served served.player).ball ∧
    speed (_reflectFromPaddle served served.player).ball ≤
      max 200 (speed served.ball * 1.05) :=
  ⟨by norm_num [relative, served],
   (pong_reflect_speed_two_floors served served.player).2.2.2.1,
   (pong_reflect_speed_two_floors served served.player).2.2.2.2.1⟩

/-- C9: for every state and paddle (so for every contact that `update` detects and every
incoming velocity) the speed magnitude of the ball after `_reflectFromPaddle` is at least
the speed magnitude before it, and at least 150. -/
theorem pong_reflect_speed_nondecreasing (s : PongGame) (paddle : PongPaddle) :
    speed s.ball ≤ speed (_reflectFromPaddle s paddle).ball ∧
    150 ≤ speed (_reflectFromPaddle s paddle).ball := by
  have h := (reflect_speed_bounds s paddle).1
  have hv := speed_nonneg s.ball
  constructor
  · refine le_trans ?_ (le_trans (le_max_right _ _) h)
    nlinarith
  · exact le_trans (le_max_left _ _) h

/-- C10: on a canvas more than 80 wide, from every state reached from `reset()`, at a
contact that `update` detects (`m` is the state after the paddles and the ball have moved,
`p` the state after the player-paddle test) the value `relative` lies in [-1, 1], the
velocity the update leaves points away from the paddle that was hit, and
`|vy| ≤ sqrt(3) * |vx|`. -/
theorem pong_contact_cone {w h : Nat} {s m p : PongGame} (hreach : Reach w h s) (hw : 80 < w)
    (dt ra rb : ℝ) (hm : m = moveBall (movePaddles s dt) dt) (hp : p = playerSide m ra) :
    (m.ball.x - m.ball.r < m.player.x + m.pw →
      (m.ball.y > m.player.y ∧ m.ball.y < m.player.y + m.paddleH) →
      (-1 ≤ relative m m.player ∧ relative m m.player ≤ 1) ∧
      0 < (update s dt ra rb).ball.vx ∧
      |(update s dt ra rb).ball.vy| ≤ Real.sqrt 3 * |(update s dt ra rb).ball.vx|) ∧
    (p.ball.x + p.ball.r > p.ai.x →
      (p.ball.y > p.ai.y ∧ p.ball.y < p.ai.y + p.paddleH) →
      (-1 ≤ relative p p.ai ∧ relative p p.ai ≤ 1) ∧
      (update s dt ra rb).ball.vx < 0 ∧
      |(update s dt ra rb).ball.vy| ≤ Real.sqrt 3 * |(update s dt ra rb).ball.vx|) := by
  have hgm : Geometry w h m := hm ▸ geometry_moveBall dt (geometry_movePaddles dt
    (reach_geometry hreach))
  have hwr : (80 : ℝ) < w := by exact_mod_cast hw
  have hu := (update_ball s dt ra rb).1
  rw [← hm, ← hp] at hu
  rw [hu]
  obtain ⟨g1, g2, g3, g4, g5, g6, g7, g8⟩ := hgm
  constructor
  · intro pf pc
    rcases playerSide_cases ra ⟨g1, g2, g3, g4, g5, g6, g7, g8⟩ hwr.le with
      ⟨_, _, e, hidle⟩ | ⟨_, npc, _, _⟩ | ⟨npf, _⟩
    · rw [← hp] at e hidle
      rw [aiSide_idle rb hidle, e]
      obtain ⟨r1, r2⟩ := relative_contact (p := m.player) g3 pc
      have hcone := reflect_cone (s := { m with ball :=
        { m.ball with x := m.player.x + m.pw + m.ball.r } }) (p := m.player) r1 r2
      refine ⟨⟨r1.le, r2.le⟩, hcone.1 ?_, hcone.2.2⟩
      show m.player.x + m.pw + m.ball.r < m.w / 2
      rw [g1, g4, g5, g7]; linarith
    · exact absurd pc npc
    · exact absurd pf npf
  · intro af ac
    have hpm : p = m := by
      rcases playerSide_cases ra ⟨g1, g2, g3, g4, g5, g6, g7, g8⟩ hwr.le with
        ⟨_, _, _, hidle⟩ | ⟨_, _, _, hidle⟩ | ⟨_, e⟩
      · rw [← hp] at hidle; exact absurd af hidle
      · rw [← hp] at hidle; exact absurd af hidle
      · rw [hp, e]
    subst hpm
    rw [aiSide_contact rb af ac]
    obtain ⟨r1, r2⟩ := relative_contact (p := p.ai) g3 ac
    have hcone := reflect_cone (s := { p with ball :=
      { p.ball with x := p.ai.x - p.ball.r } }) (p := p.ai) r1 r2
    refine ⟨⟨r1.le, r2.le⟩, hcone.2.1 ?_, hcone.2.2⟩
    show ¬ (p.ai.x - p.ball.r < p.w / 2)
    rw [g1, g6, g7]; intro hh; linarith

/-- C10 on an 82×600 canvas: the first update of 10 ms after a serve to the left is a
contact with the player paddle, and the ball leaves it to the right inside the cone. -/
theorem pong_contact_cone_witness :
    Reach 82 600 { new 82 600 [] 0 (1/2) with running := true } ∧ 80 < 82 ∧
    (moveBall (movePaddles { new 82 600 [] 0 (1/2) with running := true } (1/100))
        (1/100)).ball.x -
      (moveBall (movePaddles { new 82 600 [] 0 (1/2) with running := true } (1/100))
        (1/100)).ball.r <
      (moveBall (movePaddles { new 82 600 [] 0 (1/2) with running := true } (1/100))
        (1/100)).player.x +
      (moveBall (movePaddles { new 82 600 [] 0 (1/2) with running := true } (1/100))
        (1/100)).pw ∧
    0 < (update { new 82 600 [] 0 (1/2) with running := true } (1/100) 0 0).ball.vx ∧
    |(update { new 82 600 [] 0 (1/2) with running := true } (1/100) 0 0).ball.vy| ≤
      Real.sqrt 3 *
        |(update { new 82 600 [] 0 (1/2) with running := true } (1/100) 0 0).ball.vx| := by
  have pf : (moveBall (movePaddles { new 82 600 [] 0 (1/2) with running := true } (1/100))
        (1/100)).ball.x -
      (moveBall (movePaddles { new 82 600 [] 0 (1/2) with running := true } (1/100))
        (1/100)).ball.r <
      (moveBall (movePaddles { new 82 600 [] 0 (1/2) with running := true } (1/100))
        (1/100)).player.x +
      (moveBall (movePaddles { new 82 600 [] 0 (1/2) with running := true } (1/100))
        (1/100)).pw := by
    norm_num [moveBall, movePaddles, new]
  have pc : (moveBall (movePaddles { new 82 600 [] 0 (1/2) with running := true } (1/100))
        (1/100)).ball.y >
      (moveBall (movePaddles { new 82 600 [] 0 (1/2) with running := true } (1/100))
        (1/100)).player.y ∧
      (moveBall (movePaddles { new 82 600 [] 0 (1/2) with running := true } (1/100))
        (1/100)).ball.y <
      (moveBall (movePaddles { new 82 600 [] 0 (1/2) with running := true } (1/100))
        (1/100)).player.y +
      (moveBall (movePaddles { new 82 600 [] 0 (1/2) with running := true } (1/100))
        (1/100)).paddleH := by
    norm_num [moveBall, movePaddles, new]
  have h := (pong_contact_cone (Reach.reset [] 0 (1/2)) (by norm_num : 80 < 82)
    (1/100) 0 0 rfl rfl).1 pf pc
  exact ⟨Reach.reset [] 0 (1/2), by norm_num, pf, h.2.1, h.2.2⟩

end PongGame

end

/-! ## The life cycle of a session -/


/-- A stopped Snake session ignores every event other than `setPaused(false)`, up to the
`paused` flag and the count of pending frame callbacks. -/
theorem snake_apply_inert {s : SnakeGame} (e : SnakeEv) (hrun : s.running = false)
    (hb : s.bound = false) (he : e.resumes = false) :
    ∃ (p : Bool) (f : Nat), SnakeGame.apply s e = some { s with paused := p, frames := f } := by
  cases e with
  | setPaused p t now tape =>
    have hp : p = true := by simpa [SnakeEv.resumes] using he
    subst hp
    exact ⟨true, s.frames, rfl⟩
  | frame now tape =>
    show ∃ (p : Bool) (f : Nat), SnakeGame.frame s now tape = some _
    unfold SnakeGame.frame
    by_cases hf : s.frames = 0
    · rw [if_pos hf]; exact ⟨s.paused, s.frames, rfl⟩
    · rw [if_neg hf]
      have hl : SnakeGame._loop { s with frames := s.frames - 1 } now tape =
          some { s with frames := s.frames - 1 } := by
        unfold SnakeGame._loop
        rw [if_pos (by simp [hrun])]
      rw [hl]
      exact ⟨s.paused, s.frames - 1, rfl⟩
  | keydown k =>
    show ∃ (p : Bool) (f : Nat), some (SnakeGame.keydown s k) = some _
    have hk : SnakeGame.keydown s k = s := by
      unfold SnakeGame.keydown
      rw [if_neg (by simp [hb])]
    rw [hk]
    exact ⟨s.paused, s.frames, rfl⟩

theorem snake_run_inert (evs : List SnakeEv) :
    ∀ s : SnakeGame, s.running = false → s.bound = false →
      (∀ e ∈ evs, e.resumes = false) →
      ∃ (p : Bool) (f : Nat), SnakeGame.run s evs = some { s with paused := p, frames := f } := by
  induction evs with
  | nil => intro s _ _ _; exact ⟨s.paused, s.frames, rfl⟩
  | cons e es ih =>
    intro s hrun hb hev
    obtain ⟨p, f, h1⟩ := snake_apply_inert e hrun hb (hev e (List.mem_cons_self _ _))
    obtain ⟨p2, f2, h2⟩ := ih { s with paused := p, frames := f } hrun hb
      (fun e he => hev e (List.mem_cons_of_mem _ he))
    refine ⟨p2, f2, ?_⟩
    unfold SnakeGame.run
    rw [h1]
    exact h2

theorem pong_apply_inert {s : PongGame} (e : PongEv) (hrun : s.running = false)
    (hb : s.bound = false) (he : e.resumes = false) :
    ∃ (p : Bool) (f : Nat), PongGame.apply s e = { s with paused := p, frames := f } := by
  cases e with
  | setPaused p t now ra rb =>
    have hp : p = true := by simpa [PongEv.resumes] using he
    subst hp
    exact ⟨true, s.frames, rfl⟩
  | frame now ra rb =>
    show ∃ (p : Bool) (f : Nat), PongGame.frame s now ra rb = _
    unfold PongGame.frame
    by_cases hf : s.frames = 0
    · rw [if_pos hf]; exact ⟨s.paused, s.frames, rfl⟩
    · rw [if_neg hf]
      have hl : PongGame._loop { s with frames := s.frames - 1 } now ra rb =
          { s with frames := s.frames - 1 } := by
        unfold PongGame._loop
        rw [if_pos (by simp [hrun])]
      rw [hl]
      exact ⟨s.paused, s.frames - 1, rfl⟩
  | key k d =>
    show ∃ (p : Bool) (f : Nat), PongGame.key s k d = _
    have hk : PongGame.key s k d = s := by
      unfold PongGame.key
      rw [if_neg (by simp [hb])]
    rw [hk]
    exact ⟨s.paused, s.frames, rfl⟩

theorem pong_run_inert (evs : List PongEv) :
    ∀ s : PongGame, s.running = false → s.bound = false →
      (∀ e ∈ evs, e.resumes = false) →
      ∃ (p : Bool) (f : Nat), PongGame.run s evs = { s with paused := p, frames := f } := by
  induction evs with
  | nil => intro s _ _ _; exact ⟨s.paused, s.frames, rfl⟩
  | cons e es ih =>
    intro s hrun hb hev
    obtain ⟨p, f, h1⟩ := pong_apply_inert e hrun hb (hev e (List.mem_cons_self _ _))
    obtain ⟨p2, f2, h2⟩ := ih { s with paused := p, frames := f } hrun hb
      (fun e he => hev e (List.mem_cons_of_mem _ he))
    refine ⟨p2, f2, ?_⟩
    show PongGame.run (PongGame.apply s e) es = _
    rw [h1]
    exact h2

theorem breakout_apply_inert {s : BreakoutGame} (e : BreakoutEv)
    (hrun : s.running = false) (hb : s.bound = false) (he : e.resumes = false) :
    ∃ (p : Bool) (f : Nat),
      BreakoutGame.apply s e = some { s with paused := p, frames := f } := by
  cases e with
  | setPaused p t now r =>
    have hp : p = true := by simpa [BreakoutEv.resumes] using he
    subst hp
    exact ⟨true, s.frames, rfl⟩
  | frame now r =>
    show ∃ (p : Bool) (f : Nat), some (BreakoutGame.frame s now r) = some _
    unfold BreakoutGame.frame
    by_cases hf : s.frames = 0
    · rw [if_pos hf]; exact ⟨s.paused, s.frames, rfl⟩
    · rw [if_neg hf]
      have hl : BreakoutGame._loop { s with frames := s.frames - 1 } now r =
          { s with frames := s.frames - 1 } := by
        unfold BreakoutGame._loop
        rw [if_pos (by simp [hrun])]
      rw [hl]
      exact ⟨s.paused, s.frames - 1, rfl⟩
  | key k d =>
    show ∃ (p : Bool) (f : Nat), some (BreakoutGame.key s k d) = some _
    have hk : BreakoutGame.key s k d = s := by
      unfold BreakoutGame.key
      rw [if_neg (by simp [hb])]
    rw [hk]
    exact ⟨s.paused, s.frames, rfl⟩
  | mousemove c l w =>
    show ∃ (p : Bool) (f : Nat), BreakoutGame.mousemove s c l w = some _
    have hk : BreakoutGame.mousemove s c l w = some s := by
      unfold BreakoutGame.mousemove
      rw [if_neg (by simp [hb])]
    rw [hk]
    exact ⟨s.paused, s.frames, rfl⟩

theorem breakout_run_inert (evs : List BreakoutEv) :
    ∀ s : BreakoutGame, s.running = false → s.bound = false →
      (∀ e ∈ evs, e.resumes = false) →
      ∃ (p : Bool) (f : Nat),
        BreakoutGame.run s evs = some { s with paused := p, frames := f } := by
  induction evs with
  | nil => intro s _ _ _; exact ⟨s.paused, s.frames, rfl⟩
  | cons e es ih =>
    intro s hrun hb hev
    obtain ⟨p, f, h1⟩ := breakout_apply_inert e hrun hb (hev e (List.mem_cons_self _ _))
    obtain ⟨p2, f2, h2⟩ := ih { s with paused := p, frames := f } hrun hb
      (fun e he => hev e (List.mem_cons_of_mem _ he))
    refine ⟨p2, f2, ?_⟩
    unfold BreakoutGame.run
    rw [h1]
    exact h2
theorem SnakeGame.play_to_grown :
    (SnakeGame.new 400 400 [] [11/20, 1/2]).bind (fun s => (SnakeGame.start s 0 0 []).bind
      (fun s => SnakeGame.run s
        [.frame 120 [3/5, 1/2], .frame 238 [13/20, 1/2], .frame 354 [7/10, 1/2],
         .frame 468 [1/4, 1/4]])) = some SnakeGame.grown := by
  norm_num [SnakeGame.new, SnakeGame.start, SnakeGame.run, SnakeGame.apply, SnakeGame.frame,
    SnakeGame._loop, SnakeGame.step, SnakeGame.wrapHead, SnakeGame.placeFood,
    SnakeGame.occupied, Int.floor_eq_iff, SnakeGame.grown]

theorem SnakeGame.play_to_over :
    SnakeGame.run SnakeGame.grown
      [.keydown "ArrowDown", .frame 580 [], .keydown "ArrowLeft", .frame 692 [],
       .keydown "ArrowUp", .frame 804 []] = some SnakeGame.over := by
  simp [SnakeGame.run, SnakeGame.apply, SnakeGame.frame,
    SnakeGame._loop, SnakeGame.step, SnakeGame.wrapHead,
    SnakeGame.occupied, SnakeGame.keydown, SnakeGame._onKey, SnakeGame.turn,
    SnakeGame.endGame, SnakeGame.stop, getHS, setHS, SnakeGame.grown, SnakeGame.over]
  norm_num

theorem SnakeGame.play_on_after_over :
    SnakeGame.run SnakeGame.over
      [.setPaused true 850 850 [], .setPaused false 900 900 [], .frame 1012 []] =
    some { SnakeGame.over with running := false, last := 1012, frames := 2,
                               results := [4, 4] } := by
  simp [SnakeGame.run, SnakeGame.apply, SnakeGame.frame, SnakeGame.setPaused,
    SnakeGame._loop, SnakeGame.step, SnakeGame.wrapHead,
    SnakeGame.occupied, SnakeGame.endGame, SnakeGame.stop, getHS, setHS, SnakeGame.over]
  norm_num

theorem snake_stopped_stop (s : SnakeGame) :
    (SnakeGame.stop s).running = false ∧ (SnakeGame.stop s).bound = false := ⟨rfl, rfl⟩

theorem snake_stopped_endGame (s : SnakeGame) :
    (SnakeGame.endGame s).running = false ∧ (SnakeGame.endGame s).bound = false := by
  unfold SnakeGame.endGame SnakeGame.stop
  dsimp only
  split_ifs <;> exact ⟨rfl, rfl⟩

theorem pong_stopped_stop (s : PongGame) :
    (PongGame.stop s).running = false ∧ (PongGame.stop s).bound = false := ⟨rfl, rfl⟩

theorem pong_stopped_endGame (s : PongGame) (winner : String) :
    (PongGame.endGame s winner).running = false ∧
    (PongGame.endGame s winner).bound = false := by
  unfold PongGame.endGame PongGame.stop
  dsimp only
  split_ifs <;> exact ⟨rfl, rfl⟩

theorem breakout_stopped_stop (s : BreakoutGame) :
    (BreakoutGame.stop s).running = false ∧ (BreakoutGame.stop s).bound = false := ⟨rfl, rfl⟩

theorem breakout_stopped_endGame (s : BreakoutGame) (win : Bool) :
    (BreakoutGame.endGame s win).running = false ∧
    (BreakoutGame.endGame s win).bound = false := by
  unfold BreakoutGame.endGame BreakoutGame.stop
  dsimp only
  split_ifs <;> exact ⟨rfl, rfl⟩

/-- C1, as stated, fails. Snake: a game on a 400×400 canvas is played from the constructor
to a self-collision (`over`: `running` is false, one result, 4, has been emitted); the
calls `setPaused(true)`, `setPaused(false)` and one frame 112 ms later run `step()` again,
which calls `endGame()` again: a second result is emitted. Pong and Breakout: after
`stop()` on a started session, `setPaused(false)` sets `running` and runs `update`, which
moves the ball. -/
theorem stopped_session_resumes_on_unpause :
    ((SnakeGame.new 400 400 [] [11/20, 1/2]).bind (fun s => (SnakeGame.start s 0 0 []).bind
      (fun s => SnakeGame.run s
        [.frame 120 [3/5, 1/2], .frame 238 [13/20, 1/2], .frame 354 [7/10, 1/2],
         .frame 468 [1/4, 1/4]])) = some SnakeGame.grown) ∧
    SnakeGame.run SnakeGame.grown
      [.keydown "ArrowDown", .frame 580 [], .keydown "ArrowLeft", .frame 692 [],
       .keydown "ArrowUp", .frame 804 []] = some SnakeGame.over ∧
    SnakeGame.over.running = false ∧ SnakeGame.over.results = [4] ∧
    SnakeGame.run SnakeGame.over
      [.setPaused true 850 850 [], .setPaused false 900 900 [], .frame 1012 []] =
      some { SnakeGame.over with last := 1012, frames := 2, results := [4, 4] } ∧
    (PongGame.stop (PongGame.start (PongGame.new 800 600 [] 0 (1/2)) 0 0 0 0)).running = false ∧
    (PongGame.stop (PongGame.start (PongGame.new 800 600 [] 0 (1/2)) 0 0 0 0)).ball.x = 400 ∧
    (PongGame.setPaused (PongGame.stop (PongGame.start (PongGame.new 800 600 [] 0 (1/2))
      0 0 0 0)) false 1000 1016 0 0).running = true ∧
    (PongGame.setPaused (PongGame.stop (PongGame.start (PongGame.new 800 600 [] 0 (1/2))
      0 0 0 0)) false 1000 1016 0 0).ball.x = 395.52 ∧
    (BreakoutGame.stop (BreakoutGame.start (BreakoutGame.new 800 600 [] 0) 0 0 0)).running
      = false ∧
    (BreakoutGame.stop (BreakoutGame.start (BreakoutGame.new 800 600 [] 0) 0 0 0)).ball.y
      = 540 ∧
    (BreakoutGame.setPaused (BreakoutGame.stop (BreakoutGame.start
      (BreakoutGame.new 800 600 [] 0) 0 0 0)) false 1000 1016 0).running = true ∧
    (BreakoutGame.setPaused (BreakoutGame.stop (BreakoutGame.start
      (BreakoutGame.new 800 600 [] 0) 0 0 0)) false 1000 1016 0).ball.y = 13396 / 25 := by
  refine ⟨SnakeGame.play_to_grown, SnakeGame.play_to_over, rfl, rfl,
    SnakeGame.play_on_after_over, ?_, ?_, ?_, ?_, by decide!, by decide!, by decide!,
    by decide!⟩
  · rfl
  · norm_num [PongGame.stop, PongGame.start, PongGame._loop, PongGame.update,
      PongGame.checkEnd, PongGame.aiSide, PongGame.playerSide, PongGame.moveBall,
      PongGame.movePaddles, PongGame.new]
  · norm_num [PongGame.setPaused, PongGame.stop, PongGame.start, PongGame._loop,
      PongGame.update, PongGame.checkEnd, PongGame.aiSide, PongGame.playerSide,
      PongGame.moveBall, PongGame.movePaddles, PongGame.new]
  · norm_num [PongGame.setPaused, PongGame.stop, PongGame.start, PongGame._loop,
      PongGame.update, PongGame.checkEnd, PongGame.aiSide, PongGame.playerSide,
      PongGame.moveBall, PongGame.movePaddles, PongGame.new]

/-- C1, amended: for each of the three sessions, once `stop()` or `endGame()` has run,
every later sequence of `setPaused(true)` calls, frame callbacks and input events (any
events but a call `setPaused(false)`) leaves the whole state as it is, except for the
`paused` flag and the count of pending frame callbacks: `running` stays false, `update` or
`step` changes nothing, and no further result is emitted. A call `setPaused(false)` sets
`running` again and re-enters `_loop`. -/
theorem stopped_session_inert_until_unpaused :
    (∀ (s0 s : SnakeGame) (evs : List SnakeEv),
      s = SnakeGame.stop s0 ∨ s = SnakeGame.endGame s0 →
      (∀ e ∈ evs, e.resumes = false) →
      ∃ (p : Bool) (f : Nat), SnakeGame.run s evs = some { s with paused := p, frames := f }) ∧
    (∀ (s0 s : PongGame) (winner : String) (evs : List PongEv),
      s = PongGame.stop s0 ∨ s = PongGame.endGame s0 winner →
      (∀ e ∈ evs, e.resumes = false) →
      ∃ (p : Bool) (f : Nat), PongGame.run s evs = { s with paused := p, frames := f }) ∧
    (∀ (s0 s : BreakoutGame) (win : Bool) (evs : List BreakoutEv),
      s = BreakoutGame.stop s0 ∨ s = BreakoutGame.endGame s0 win →
      (∀ e ∈ evs, e.resumes = false) →
      ∃ (p : Bool) (f : Nat),
        BreakoutGame.run s evs = some { s with paused := p, frames := f }) ∧
    (∀ (s : SnakeGame) (t now : ℚ) (tape : List ℚ), s.running = false →
      SnakeGame.setPaused s false t now tape =
        SnakeGame._loop { s with paused := false, running := true, last := t } now tape) ∧
    (∀ (s : PongGame) (t now ra rb : ℝ), s.running = false →
      PongGame.setPaused s false t now ra rb =
        PongGame._loop { s with paused := false, last := t, running := true } now ra rb) ∧
    (∀ (s : BreakoutGame) (t now r : ℚ), s.running = false →
      BreakoutGame.setPaused s false t now r =
        BreakoutGame._loop { s with paused := false, running := true, last := t } now r) := by
  refine ⟨?_, ?_, ?_, ?_, ?_, ?_⟩
  · rintro s0 s evs (rfl | rfl) hev
    · exact snake_run_inert evs _ (snake_stopped_stop s0).1
        (snake_stopped_stop s0).2 hev
    · exact snake_run_inert evs _ (snake_stopped_endGame s0).1
        (snake_stopped_endGame s0).2 hev
  · rintro s0 s winner evs (rfl | rfl) hev
    · exact pong_run_inert evs _ (pong_stopped_stop s0).1
        (pong_stopped_stop s0).2 hev
    · exact pong_run_inert evs _ (pong_stopped_endGame s0 winner).1
        (pong_stopped_endGame s0 winner).2 hev
  · rintro s0 s win evs (rfl | rfl) hev
    · exact breakout_run_inert evs _ (breakout_stopped_stop s0).1
        (breakout_stopped_stop s0).2 hev
    · exact breakout_run_inert evs _ (breakout_stopped_endGame s0 win).1
        (breakout_stopped_endGame s0 win).2 hev
  · intro s t now tape hrun
    unfold SnakeGame.setPaused
    simp [hrun]
  · intro s t now ra rb hrun
    unfold PongGame.setPaused
    simp [hrun]
  · intro s t now r hrun
    unfold BreakoutGame.setPaused
    simp [hrun]

/-- The amended C1 at the finished Snake game `over`: a pause and three frame callbacks
later it is still stopped and still has its one result. -/
theorem stopped_session_inert_until_unpaused_witness :
    ∃ (p : Bool) (f : Nat),
      SnakeGame.run (SnakeGame.stop SnakeGame.over)
        [.setPaused true 850 850 [], .frame 900 [], .frame 1100 [], .frame 1300 []] =
      some { SnakeGame.stop SnakeGame.over with paused := p, frames := f } :=
  stopped_session_inert_until_unpaused.1 SnakeGame.over _ _ (Or.inl rfl)
    (by decide)

/-! ## The high-score store and `stop()` -/

theorem getHS_setHS_self (st : Store) (k : String) (v : Int) : getHS (setHS st k v) k = v := by
  simp [getHS, setHS]

theorem getHS_setHS_other (st : Store) {k c : String} (v : Int) (h : c ≠ k) :
    getHS (setHS st k v) c = getHS st c := by
  have hk : (k == c) = false := by
    rw [beq_eq_false_iff_ne]; exact fun e => h e.symm
  have hp : (fun a : String × Int => decide ((!(a.1 == k)) = true ∧ (a.1 == c) = true)) =
      fun a => a.1 == c := by
    funext a
    by_cases hac : a.1 = c
    · have hak : (a.1 == k) = false := by rw [beq_eq_false_iff_ne, hac]; exact h
      simp [hac, h]
    · have hac2 : (a.1 == c) = false := by rw [beq_eq_false_iff_ne]; exact hac
      simp [hac2]
  unfold getHS setHS
  rw [List.find?, hk, List.find?_filter, hp]

/-- What `endGame()` does to the store: the entry of key `key` becomes the larger of the
old entry and the final score `f`, nothing else changes. -/
theorem store_after (st : Store) (key : String) (f : Int) :
    getHS (if f > getHS st key then setHS st key f else st) key = max (getHS st key) f ∧
    (∀ c : String, c ≠ key →
      getHS (if f > getHS st key then setHS st key f else st) c = getHS st c) ∧
    getHS st key ≤ getHS (if f > getHS st key then setHS st key f else st) key := by
  by_cases hf : f > getHS st key
  · rw [if_pos hf]
    refine ⟨?_, fun c hc => getHS_setHS_other st f hc, ?_⟩
    · rw [getHS_setHS_self, max_eq_right hf.le]
    · rw [getHS_setHS_self]; exact hf.le
  · rw [if_neg hf]
    exact ⟨(max_eq_left (not_lt.1 hf)).symm, fun _ _ => rfl, le_refl _⟩

theorem snake_endGame_store (s : SnakeGame) :
    (SnakeGame.endGame s).store =
      if s.score > getHS s.store "snake" then setHS s.store "snake" s.score else s.store := by
  unfold SnakeGame.endGame SnakeGame.stop
  dsimp only
  split_ifs <;> rfl

theorem pong_endGame_store (s : PongGame) (winner : String) :
    (PongGame.endGame s winner).store =
      if Int.ofNat s.score.player > getHS s.store "pong"
        then setHS s.store "pong" (Int.ofNat s.score.player) else s.store := by
  unfold PongGame.endGame PongGame.stop
  dsimp only
  split_ifs <;> rfl

theorem breakout_endGame_store (s : BreakoutGame) (win : Bool) :
    (BreakoutGame.endGame s win).store =
      if s.score > getHS s.store "breakout"
        then setHS s.store "breakout" s.score else s.store := by
  unfold BreakoutGame.endGame BreakoutGame.stop
  dsimp only
  split_ifs <;> rfl

/-- C17: with the store read as a map from keys to integers (a missing key reads 0), for
each session `endGame()` with final score `f` writes its own key (`pong`, `snake`,
`breakout`) only if `f` is strictly greater than the stored value; afterwards the entry of
that key is the larger of its old value and `f`, so it has not decreased, and every other
key reads as before. The final score of Pong is the tally of the player. -/
theorem high_score_is_max_and_other_keys_kept :
    (∀ s : SnakeGame,
      (SnakeGame.endGame s).store =
        (if s.score > getHS s.store "snake" then setHS s.store "snake" s.score
          else s.store) ∧
      getHS (SnakeGame.endGame s).store "snake" = max (getHS s.store "snake") s.score ∧
      (∀ c : String, c ≠ "snake" → getHS (SnakeGame.endGame s).store c = getHS s.store c) ∧
      getHS s.store "snake" ≤ getHS (SnakeGame.endGame s).store "snake") ∧
    (∀ (s : PongGame) (winner : String),
      (PongGame.endGame s winner).store =
        (if Int.ofNat s.score.player > getHS s.store "pong"
          then setHS s.store "pong" (Int.ofNat s.score.player) else s.store) ∧
      getHS (PongGame.endGame s winner).store "pong" =
        max (getHS s.store "pong") (Int.ofNat s.score.player) ∧
      (∀ c : String, c ≠ "pong" →
        getHS (PongGame.endGame s winner).store c = getHS s.store c) ∧
      getHS s.store "pong" ≤ getHS (PongGame.endGame s winner).store "pong") ∧
    (∀ (s : BreakoutGame) (win : Bool),
      (BreakoutGame.endGame s win).store =
        (if s.score > getHS s.store "breakout" then setHS s.store "breakout" s.score
          else s.store) ∧
      getHS (BreakoutGame.endGame s win).store "breakout" =
        max (getHS s.store "breakout") s.score ∧
      (∀ c : String, c ≠ "breakout" →
        getHS (BreakoutGame.endGame s win).store c = getHS s.store c) ∧
      getHS s.store "breakout" ≤ getHS (BreakoutGame.endGame s win).store "breakout") := by
  refine ⟨fun s => ?_, fun s winner => ?_, fun s win => ?_⟩
  · rw [snake_endGame_store]
    exact ⟨rfl, store_after s.store "snake" s.score⟩
  · rw [pong_endGame_store]
    exact ⟨rfl, store_after s.store "pong" (Int.ofNat s.score.player)⟩
  · rw [breakout_endGame_store]
    exact ⟨rfl, store_after s.store "breakout" s.score⟩

/-- C17 on a store that holds 3 for Snake and 9 for Pong: a Snake game that ends with
score 4 raises the Snake entry to 4 and leaves the Pong entry at 9. -/
theorem high_score_is_max_and_other_keys_kept_witness :
    getHS (SnakeGame.endGame { SnakeGame.over with store := [("snake", 3), ("pong", 9)] }).store
      "snake" = max 3 4 ∧
    getHS (SnakeGame.endGame { SnakeGame.over with store := [("snake", 3), ("pong", 9)] }).store
      "pong" = 9 :=
  ⟨(high_score_is_max_and_other_keys_kept.1
      { SnakeGame.over with store := [("snake", 3), ("pong", 9)] }).2.1,
   (high_score_is_max_and_other_keys_kept.1
      { SnakeGame.over with store := [("snake", 3), ("pong", 9)] }).2.2.1 "pong" (by decide)⟩

/-- C18: for each of the three sessions and every state, `stop()` changes nothing but the
running flag and the attached listeners, calling it twice gives the state that calling it
once gives, and after it the session is not running and has no listener attached. -/
theorem stop_idempotent_and_detaches :
    (∀ s : PongGame,
      PongGame.stop (PongGame.stop s) = PongGame.stop s ∧
      PongGame.stop s = { s with running := false, bound := false } ∧
      (PongGame.stop s).bound = false ∧ (PongGame.stop s).running = false) ∧
    (∀ s : SnakeGame,
      SnakeGame.stop (SnakeGame.stop s) = SnakeGame.stop s ∧
      SnakeGame.stop s = { s with running := false, bound := false } ∧
      (SnakeGame.stop s).bound = false ∧ (SnakeGame.stop s).running = false) ∧
    (∀ s : BreakoutGame,
      BreakoutGame.stop (BreakoutGame.stop s) = BreakoutGame.stop s ∧
      BreakoutGame.stop s = { s with running := false, bound := false } ∧
      (BreakoutGame.stop s).bound = false ∧ (BreakoutGame.stop s).running = false) :=
  ⟨fun _ => ⟨rfl, rfl, rfl, rfl⟩, fun _ => ⟨rfl, rfl, rfl, rfl⟩, fun _ => ⟨rfl, rfl, rfl, rfl⟩⟩

/-! ## Snake: the body has no repeated cell -/

namespace SnakeGame

/-- The body is non-empty and has no repeated cell along every run. -/
theorem reach_nodup {w h n : Nat} {s : SnakeGame} (hr : Reach w h n s) :
    s.snake ≠ [] ∧ s.snake.Nodup := by
  induction hr with
  | @reset store tape s hv hnew =>
    unfold new at hnew
    simp only [Option.map_eq_some'] at hnew
    obtain ⟨s1, hp, rfl⟩ := hnew
    obtain ⟨h1, _⟩ := placeFood_frame _ tape s1 hp
    rw [h1]
    exact ⟨List.cons_ne_nil _ _, List.nodup_singleton _⟩
  | @key n s k _ ih =>
    rcases onKey_steered s k with hk | ⟨e, hk, _, _⟩ <;> rw [hk] <;> exact ih
  | @step n s s1 tape _ hv hstep ih =>
    obtain ⟨h0, tl, hs, hcase⟩ := step_some hstep
    rcases hcase with ⟨_, rfl⟩ | ⟨hnot, _, hp⟩ | ⟨hnot, _, rfl⟩
    · rw [(endGame_keeps { s with dir := s.nextDir }).2.2.1]
      exact ih
    · obtain ⟨h1, _⟩ := placeFood_frame _ tape s1 hp
      rw [h1]
      exact ⟨List.cons_ne_nil _ _, List.nodup_cons.2 ⟨hnot, ih.2⟩⟩
    · have hnd : (wrapHead s.cols s.rows h0 s.nextDir :: s.snake).Nodup :=
        List.nodup_cons.2 ⟨hnot, ih.2⟩
      refine ⟨?_, hnd.sublist (List.dropLast_sublist _)⟩
      show (wrapHead s.cols s.rows h0 s.nextDir :: s.snake).dropLast ≠ []
      rw [hs]
      simp [List.dropLast]

/-- C20: in every state reached from the constructor's `reset()` by key events and `step()`
calls the body is non-empty and its cells are pairwise distinct; and in any state, a step
whose new head is the last cell of the body (the tail) calls `endGame()` and leaves the
body as it was, although the tail would have moved away. -/
theorem snake_body_distinct_and_tail_collides {w h n : Nat} {s : SnakeGame}
    (hreach : Reach w h n s) :
    s.snake ≠ [] ∧ s.snake.Nodup ∧
    ∀ (t : SnakeGame) (h0 : Cell) (tl : List Cell) (tape : List ℚ), t.snake = h0 :: tl →
      t.snake.getLast? = some (wrapHead t.cols t.rows h0 t.nextDir) →
      step t tape = some (endGame { t with dir := t.nextDir }) ∧
      (endGame { t with dir := t.nextDir }).snake = t.snake ∧
      (endGame { t with dir := t.nextDir }).results = t.results ++ [t.score] := by
  refine ⟨(reach_nodup hreach).1, (reach_nodup hreach).2, ?_⟩
  intro t h0 tl tape hs hlast
  have hmem : wrapHead t.cols t.rows h0 t.nextDir ∈ h0 :: tl :=
    hs ▸ List.mem_of_getLast?_eq_some hlast
  refine ⟨?_, (endGame_keeps _).2.2.1, (endGame_keeps _).2.2.2.2.2.2.2.2.2⟩
  unfold step
  simp only [hs]
  rw [if_pos ((occupied_iff _ _).2 hmem)]

/-- C20 on a run from the constructor on a 400×400 canvas: after three eating steps to the
right and the turns down and left the body is the square (12,11), (13,11), (13,10),
(12,10); after the key `ArrowUp` the next head is the tail (12,10), and `step()` ends the
game. -/
theorem snake_body_distinct_and_tail_collides_witness :
    ∃ s : SnakeGame, Reach 400 400 3 s ∧
      s.snake = [⟨12, 11⟩, ⟨13, 11⟩, ⟨13, 10⟩, ⟨12, 10⟩] ∧ s.snake.Nodup ∧
      s.snake.getLast? = some (wrapHead s.cols s.rows ⟨12, 11⟩ s.nextDir) ∧
      step s [] = some (endGame { s with dir := s.nextDir }) := by
  have hv : ∀ a b : ℚ, (0 ≤ a ∧ a < 1) → (0 ≤ b ∧ b < 1) → validTape [a, b] := by
    intro a b ha hb r hr
    simp only [List.mem_cons, List.mem_singleton, List.not_mem_nil, or_false] at hr
    rcases hr with rfl | rfl <;> assumption
  have hv0 : validTape [] := fun r hr => absurd hr (List.not_mem_nil r)
  let s0 : SnakeGame := { fresh with food := ⟨11, 10⟩ }
  let s1 : SnakeGame := { s0 with snake := [⟨11, 10⟩, ⟨10, 10⟩], food := ⟨12, 10⟩,
                                  score := 1, stepInterval := 118 }
  let s2 : SnakeGame := { s1 with snake := [⟨12, 10⟩, ⟨11, 10⟩, ⟨10, 10⟩],
                                  food := ⟨13, 10⟩, score := 2, stepInterval := 116 }
  let s3 : SnakeGame := { s2 with snake := [⟨13, 10⟩, ⟨12, 10⟩, ⟨11, 10⟩, ⟨10, 10⟩],
                                  food := ⟨5, 5⟩, score := 3, stepInterval := 114 }
  let s4 : SnakeGame := { s3 with snake := [⟨13, 11⟩, ⟨13, 10⟩, ⟨12, 10⟩, ⟨11, 10⟩],
                                  dir := ⟨0, 1⟩, nextDir := ⟨0, 1⟩ }
  let s5 : SnakeGame := { s4 with snake := [⟨12, 11⟩, ⟨13, 11⟩, ⟨13, 10⟩, ⟨12, 10⟩],
                                  dir := ⟨-1, 0⟩, nextDir := ⟨-1, 0⟩ }
  let s6 : SnakeGame := { s5 with nextDir := ⟨0, -1⟩ }
  have r0 : Reach 400 400 0 s0 :=
    @Reach.reset 400 400 [] [11/20, 1/2] s0 (hv (11/20) (1/2) (by norm_num) (by norm_num))
      (by norm_num [new, placeFood, occupied, fresh, Int.floor_eq_iff, s0])
  have r1 : Reach 400 400 1 s1 :=
    Reach.step r0 (hv (3/5) (1/2) (by norm_num) (by norm_num))
      (by norm_num [step, wrapHead, placeFood, occupied, fresh, Int.floor_eq_iff, s0, s1])
  have r2 : Reach 400 400 2 s2 :=
    Reach.step r1 (hv (13/20) (1/2) (by norm_num) (by norm_num))
      (by norm_num [step, wrapHead, placeFood, occupied, fresh, Int.floor_eq_iff, s0, s1, s2])
  have r3 : Reach 400 400 3 s3 :=
    Reach.step r2 (hv (1/4) (1/4) (by norm_num) (by norm_num))
      (by norm_num [step, wrapHead, placeFood, occupied, fresh, Int.floor_eq_iff,
            s0, s1, s2, s3])
  have k3 : _onKey s3 "ArrowDown" = { s3 with nextDir := ⟨0, 1⟩ } := by decide
  have r4 : Reach 400 400 3 s4 :=
    Reach.step (Reach.key "ArrowDown" r3) hv0 (by rw [k3]; decide)
  have k4 : _onKey s4 "ArrowLeft" = { s4 with nextDir := ⟨-1, 0⟩ } := by decide
  have r5 : Reach 400 400 3 s5 :=
    Reach.step (Reach.key "ArrowLeft" r4) hv0 (by rw [k4]; decide)
  have k5 : _onKey s5 "ArrowUp" = s6 := by decide
  have r6 : Reach 400 400 3 s6 := k5 ▸ Reach.key "ArrowUp" r5
  have hlast : s6.snake.getLast? = some (wrapHead s6.cols s6.rows ⟨12, 11⟩ s6.nextDir) := by
    decide
  exact ⟨s6, r6, rfl, (snake_body_distinct_and_tail_collides r6).2.1, hlast,
    ((snake_body_distinct_and_tail_collides r6).2.2 s6 ⟨12, 11⟩ _ [] rfl hlast).1⟩

end SnakeGame

/-! ## The frame clock -/

theorem clamp_bounds_real {last now : ℝ} (h : last ≤ now) :
    0 ≤ min 40 (now - last) / 1000 ∧ min 40 (now - last) / 1000 ≤ 0.04 := by
  have h0 : (0 : ℝ) ≤ min 40 (now - last) := le_min (by norm_num) (by linarith)
  have h1 : min 40 (now - last) ≤ 40 := min_le_left _ _
  constructor
  · positivity
  · rw [div_le_iff₀ (by norm_num)]
    linarith

theorem clamp_bounds_rat {last now : ℚ} (h : last ≤ now) :
    0 ≤ min 40 (now - last) / 1000 ∧ min 40 (now - last) / 1000 ≤ 1 / 25 := by
  have h0 : (0 : ℚ) ≤ min 40 (now - last) := le_min (by norm_num) (by linarith)
  have h1 : min 40 (now - last) ≤ 40 := min_le_left _ _
  constructor
  · positivity
  · rw [div_le_iff₀ (by norm_num)]
    linarith

/-- C16: with `last ≤ now`, a tick of `_loop` either runs no update (the session is not
running, or is paused) or runs `update` exactly once, with
`dt = min(40, now - last) / 1000`, and then `0 ≤ dt ≤ 0.04`; this holds for Pong and for
Breakout whatever `now - last` is, so also at the first tick after a pause, where
`setPaused(false)` on a running session leaves `last` as it was. -/
theorem frame_dt_clamped :
    (∀ (s : PongGame) (now ra rb : ℝ), s.last ≤ now →
      (0 ≤ min 40 (now - s.last) / 1000 ∧ min 40 (now - s.last) / 1000 ≤ 0.04) ∧
      (s.running = true → s.paused = false →
        PongGame._loop s now ra rb =
          { PongGame.update s (min 40 (now - s.last) / 1000) ra rb with
            last := now,
            frames := (PongGame.update s (min 40 (now - s.last) / 1000) ra rb).frames + 1 }) ∧
      (s.running = true → s.paused = true →
        PongGame._loop s now ra rb = { s with frames := s.frames + 1 }) ∧
      (s.running = false → PongGame._loop s now ra rb = s) ∧
      (s.running = true → ∀ t u : ℝ,
        PongGame.setPaused s false t u ra rb = { s with paused := false })) ∧
    (∀ (s : BreakoutGame) (now r : ℚ), s.last ≤ now →
      (0 ≤ min 40 (now - s.last) / 1000 ∧ min 40 (now - s.last) / 1000 ≤ 1 / 25) ∧
      (s.running = true → s.paused = false →
        BreakoutGame._loop s now r =
          { BreakoutGame.update { s with last := now } (min 40 (now - s.last) / 1000) r with
            frames := (BreakoutGame.update { s with last := now }
              (min 40 (now - s.last) / 1000) r).frames + 1 }) ∧
      (s.running = true → s.paused = true →
        BreakoutGame._loop s now r = { s with last := now, frames := s.frames + 1 }) ∧
      (s.running = false → BreakoutGame._loop s now r = s) ∧
      (s.running = true → ∀ t u : ℚ,
        BreakoutGame.setPaused s false t u r = { s with paused := false })) := by
  constructor
  · intro s now ra rb hle
    refine ⟨clamp_bounds_real hle, ?_, ?_, ?_, ?_⟩
    · intro hr hp
      unfold PongGame._loop
      simp [hr, hp]
    · intro hr hp
      unfold PongGame._loop
      simp [hr, hp]
    · intro hr
      unfold PongGame._loop
      simp [hr]
    · intro hr t u
      unfold PongGame.setPaused
      simp [hr]
  · intro s now r hle
    refine ⟨clamp_bounds_rat hle, ?_, ?_, ?_, ?_⟩
    · intro hr hp
      unfold BreakoutGame._loop
      simp [hr, hp]
    · intro hr hp
      unfold BreakoutGame._loop
      simp [hr, hp]
    · intro hr
      unfold BreakoutGame._loop
      simp [hr]
    · intro hr t u
      unfold BreakoutGame.setPaused
      simp [hr]

/-- C16 after a pause of 1000 seconds: a Pong session whose last update was at time 0 and
that is ticked at time 1000016 ms runs `update` with `dt = 0.04`, not with 1000.016. -/
theorem frame_dt_clamped_witness :
    min 40 ((1000016 : ℝ) -
        ({ PongGame.new 800 600 [] 0 (1/2) with running := true } : PongGame).last) / 1000
      = 0.04 ∧
    PongGame._loop { PongGame.new 800 600 [] 0 (1/2) with running := true } 1000016 0 0 =
      { PongGame.update { PongGame.new 800 600 [] 0 (1/2) with running := true }
          (min 40 ((1000016 : ℝ) -
            ({ PongGame.new 800 600 [] 0 (1/2) with running := true } : PongGame).last)
              / 1000) 0 0 with
        last := 1000016,
        frames := (PongGame.update { PongGame.new 800 600 [] 0 (1/2) with running := true }
          (min 40 ((1000016 : ℝ) -
            ({ PongGame.new 800 600 [] 0 (1/2) with running := true } : PongGame).last)
              / 1000) 0 0).frames + 1 } :=
  ⟨by norm_num [PongGame.new],
   (frame_dt_clamped.1 { PongGame.new 800 600 [] 0 (1/2) with running := true } 1000016 0 0
      (by norm_num [PongGame.new])).2.1 rfl rfl⟩

/-! ## Breakout: the paddle -/

namespace BreakoutGame

/-- C15: in `update`, with `q` the state after motion and wall handling, the paddle step
changes the ball exactly when `ball.vy > 0`, `ball.y + r > paddle.y` and `ball.x` is
strictly inside `(paddle.x, paddle.x + paddle.w)`. Then `vx` becomes `rel * 420` with
`rel = (ball.x - (paddle.x + paddle.w / 2)) / (paddle.w / 2)` strictly between -1 and 1, so
`|vx| < 420`; `vy` is negated, so it is negative and of the same magnitude; `ball.y`
becomes `paddle.y - r - 1`; nothing else changes. Otherwise the paddle step changes
nothing. -/
theorem breakout_paddle_reflection (s q : BreakoutGame) (dt : ℚ)
    (hq : q = walls (moveBall (movePaddle s dt) dt)) :
    (q.ball.y + q.ball.r > q.paddle.y ∧ q.ball.x > q.paddle.x ∧
        q.ball.x < q.paddle.x + q.paddle.w ∧ q.ball.vy > 0 →
      beforeBricks s dt = { q with ball := { q.ball with
        vx := (q.ball.x - (q.paddle.x + q.paddle.w / 2)) / (q.paddle.w / 2) * 420,
        vy := q.ball.vy * -1,
        y := q.paddle.y - q.ball.r - 1 } } ∧
      -1 < (q.ball.x - (q.paddle.x + q.paddle.w / 2)) / (q.paddle.w / 2) ∧
      (q.ball.x - (q.paddle.x + q.paddle.w / 2)) / (q.paddle.w / 2) < 1 ∧
      |(beforeBricks s dt).ball.vx| < 420 ∧
      (beforeBricks s dt).ball.vy = -q.ball.vy ∧
      (beforeBricks s dt).ball.vy < 0 ∧
      |(beforeBricks s dt).ball.vy| = |q.ball.vy| ∧
      (beforeBricks s dt).ball.y = q.paddle.y - q.ball.r - 1 ∧
      (beforeBricks s dt).ball.x = q.ball.x) ∧
    (¬ (q.ball.y + q.ball.r > q.paddle.y ∧ q.ball.x > q.paddle.x ∧
        q.ball.x < q.paddle.x + q.paddle.w ∧ q.ball.vy > 0) →
      beforeBricks s dt = q) := by
  have hb : beforeBricks s dt = paddleHit q := by rw [hq]; rfl
  rw [hb]
  constructor
  · intro hc
    have he : paddleHit q = { q with ball := { q.ball with
        vx := (q.ball.x - (q.paddle.x + q.paddle.w / 2)) / (q.paddle.w / 2) * 420,
        vy := q.ball.vy * -1,
        y := q.paddle.y - q.ball.r - 1 } } := by
      unfold paddleHit
      rw [if_pos hc]
    obtain ⟨_, h2, h3, h4⟩ := hc
    have hw : 0 < q.paddle.w / 2 := by linarith
    have r1 : -1 < (q.ball.x - (q.paddle.x + q.paddle.w / 2)) / (q.paddle.w / 2) := by
      rw [lt_div_iff₀ hw]; linarith
    have r2 : (q.ball.x - (q.paddle.x + q.paddle.w / 2)) / (q.paddle.w / 2) < 1 := by
      rw [div_lt_iff₀ hw]; linarith
    rw [he]
    refine ⟨rfl, r1, r2, ?_, ?_, ?_, ?_, rfl, rfl⟩
    · show |(q.ball.x - (q.paddle.x + q.paddle.w / 2)) / (q.paddle.w / 2) * 420| < 420
      rw [abs_lt]
      constructor <;> nlinarith
    · show q.ball.vy * -1 = -q.ball.vy
      ring
    · show q.ball.vy * -1 < 0
      linarith
    · show |q.ball.vy * -1| = |q.ball.vy|
      rw [mul_neg_one, abs_neg]
  · intro hc
    unfold paddleHit
    rw [if_neg hc]

/-- C15 on an 800×600 canvas: after an update that sends the ball to the top left corner
and a pointer move that puts the paddle at x = 420 (the state `aimed`), an update of 2.1 s
brings the ball down onto the paddle at x = 470; it leaves with `vx = -70`, `vy = -260` and
`y = 551`. -/
theorem breakout_paddle_reflection_witness :
    _onMouse (update { new 800 600 [] 0 with running := true } 3 0) 480 0 800 = some aimed ∧
    (walls (moveBall (movePaddle aimed (21/10)) (21/10))).ball.vy > 0 ∧
    (beforeBricks aimed (21/10)).ball.vx = -70 ∧
    (beforeBricks aimed (21/10)).ball.vy = -260 ∧
    (beforeBricks aimed (21/10)).ball.y = 551 := by
  have hc : (walls (moveBall (movePaddle aimed (21/10)) (21/10))).ball.y +
      (walls (moveBall (movePaddle aimed (21/10)) (21/10))).ball.r >
      (walls (moveBall (movePaddle aimed (21/10)) (21/10))).paddle.y ∧
      (walls (moveBall (movePaddle aimed (21/10)) (21/10))).ball.x >
      (walls (moveBall (movePaddle aimed (21/10)) (21/10))).paddle.x ∧
      (walls (moveBall (movePaddle aimed (21/10)) (21/10))).ball.x <
      (walls (moveBall (movePaddle aimed (21/10)) (21/10))).paddle.x +
      (walls (moveBall (movePaddle aimed (21/10)) (21/10))).paddle.w ∧
      (walls (moveBall (movePaddle aimed (21/10)) (21/10))).ball.vy > 0 := by
    decide!
  have h := (breakout_paddle_reflection aimed _ (21/10) rfl).1 hc
  refine ⟨by decide!, hc.2.2.2, ?_, ?_, ?_⟩
  · rw [h.1]; decide!
  · rw [h.2.2.2.2.1]; decide!
  · rw [h.2.2.2.2.2.2.2.1]; decide!

end BreakoutGame

/-! ## Paddle confinement -/

theorem clamp_mem_real {lo x : ℝ} (h : 0 ≤ lo) : 0 ≤ max 0 (min lo x) ∧ max 0 (min lo x) ≤ lo :=
  ⟨le_max_left _ _, max_le h (min_le_left _ _)⟩

theorem clamp_mem_rat {lo x : ℚ} (h : 0 ≤ lo) : 0 ≤ max 0 (min lo x) ∧ max 0 (min lo x) ≤ lo :=
  ⟨le_max_left _ _, max_le h (min_le_left _ _)⟩

theorem pong_movePaddles_clamped (s : PongGame) (dt : ℝ) (h : s.paddleH ≤ s.h) :
    (0 ≤ (PongGame.movePaddles s dt).player.y ∧
      (PongGame.movePaddles s dt).player.y ≤ s.h - s.paddleH) ∧
    (0 ≤ (PongGame.movePaddles s dt).ai.y ∧
      (PongGame.movePaddles s dt).ai.y ≤ s.h - s.paddleH) := by
  have hlo : 0 ≤ s.h - s.paddleH := sub_nonneg.2 h
  unfold PongGame.movePaddles
  dsimp only
  split_ifs <;> exact ⟨clamp_mem_real hlo, clamp_mem_real hlo⟩

theorem pong_sides_keep_paddles (m : PongGame) (ra rb : ℝ) :
    (PongGame.checkEnd (PongGame.aiSide (PongGame.playerSide m ra) rb)).player = m.player ∧
    (PongGame.checkEnd (PongGame.aiSide (PongGame.playerSide m ra) rb)).ai = m.ai := by
  have h1 : (PongGame.playerSide m ra).player = m.player ∧
      (PongGame.playerSide m ra).ai = m.ai := by
    unfold PongGame.playerSide
    split_ifs <;> exact ⟨rfl, rfl⟩
  have h2 : ∀ p : PongGame, (PongGame.aiSide p rb).player = p.player ∧
      (PongGame.aiSide p rb).ai = p.ai := by
    intro p
    unfold PongGame.aiSide
    split_ifs <;> exact ⟨rfl, rfl⟩
  have h3 : ∀ p : PongGame, (PongGame.checkEnd p).player = p.player ∧
      (PongGame.checkEnd p).ai = p.ai := by
    intro p
    unfold PongGame.checkEnd PongGame.endGame PongGame.stop
    dsimp only
    split_ifs <;> exact ⟨rfl, rfl⟩
  rw [(h3 _).1, (h3 _).2, (h2 _).1, (h2 _).2, h1.1, h1.2]
  exact ⟨rfl, rfl⟩

namespace BreakoutGame

theorem movePaddle_clamped (s : BreakoutGame) (dt : ℚ) (h : s.paddle.w ≤ s.w) :
    0 ≤ (movePaddle s dt).paddle.x ∧ (movePaddle s dt).paddle.x ≤ s.w - s.paddle.w := by
  have hlo : 0 ≤ s.w - s.paddle.w := sub_nonneg.2 h
  unfold movePaddle
  dsimp only
  split_ifs <;> exact clamp_mem_rat hlo

theorem movePaddle_keeps (s : BreakoutGame) (dt : ℚ) :
    (movePaddle s dt).w = s.w ∧ (movePaddle s dt).h = s.h ∧
    (movePaddle s dt).paddle.w = s.paddle.w ∧ (movePaddle s dt).paddle.y = s.paddle.y ∧
    (movePaddle s dt).ball = s.ball ∧ (movePaddle s dt).bricks = s.bricks ∧
    (movePaddle s dt).score = s.score ∧ (movePaddle s dt).lives = s.lives ∧
    (movePaddle s dt).running = s.running ∧ (movePaddle s dt).results = s.results := by
  unfold movePaddle
  dsimp only
  split_ifs <;> exact ⟨rfl, rfl, rfl, rfl, rfl, rfl, rfl, rfl, rfl, rfl⟩

theorem moveBall_keeps (s : BreakoutGame) (dt : ℚ) :
    (moveBall s dt).w = s.w ∧ (moveBall s dt).h = s.h ∧
    (moveBall s dt).paddle = s.paddle ∧ (moveBall s dt).ball.r = s.ball.r ∧
    (moveBall s dt).bricks = s.bricks ∧
    (moveBall s dt).score = s.score ∧ (moveBall s dt).lives = s.lives ∧
    (moveBall s dt).running = s.running ∧ (moveBall s dt).results = s.results :=
  ⟨rfl, rfl, rfl, rfl, rfl, rfl, rfl, rfl, rfl⟩

theorem walls_keeps (s : BreakoutGame) :
    (walls s).w = s.w ∧ (walls s).h = s.h ∧
    (walls s).paddle = s.paddle ∧ (walls s).ball.r = s.ball.r ∧
    (walls s).bricks = s.bricks ∧
    (walls s).score = s.score ∧ (walls s).lives = s.lives ∧
    (walls s).running = s.running ∧ (walls s).results = s.results := by
  unfold walls
  dsimp only
  split_ifs <;> exact ⟨rfl, rfl, rfl, rfl, rfl, rfl, rfl, rfl, rfl⟩

theorem paddleHit_keeps (s : BreakoutGame) :
    (paddleHit s).w = s.w ∧ (paddleHit s).h = s.h ∧
    (paddleHit s).paddle = s.paddle ∧ (paddleHit s).ball.r = s.ball.r ∧
    (paddleHit s).bricks = s.bricks ∧
    (paddleHit s).score = s.score ∧ (paddleHit s).lives = s.lives ∧
    (paddleHit s).running = s.running ∧ (paddleHit s).results = s.results ∧
    (paddleHit s).ball.x = s.ball.x := by
  unfold paddleHit
  split_ifs <;> exact ⟨rfl, rfl, rfl, rfl, rfl, rfl, rfl, rfl, rfl, rfl⟩

theorem breakBricks_keeps (s : BreakoutGame) :
    (breakBricks s).w = s.w ∧ (breakBricks s).h = s.h ∧
    (breakBricks s).paddle = s.paddle ∧ (breakBricks s).ball.r = s.ball.r ∧
    (breakBricks s).ball.x = s.ball.x ∧ (breakBricks s).ball.y = s.ball.y ∧
    (breakBricks s).lives = s.lives ∧
    (breakBricks s).running = s.running ∧ (breakBricks s).results = s.results :=
  ⟨rfl, rfl, rfl, rfl, rfl, rfl, rfl, rfl, rfl⟩

/-- The fields that the stages of `update` before the bottom-edge test never change, and
the clamped paddle. -/
theorem afterBricks_keeps (s : BreakoutGame) (dt : ℚ) :
    (afterBricks s dt).w = s.w ∧ (afterBricks s dt).h = s.h ∧
    (afterBricks s dt).paddle = (movePaddle s dt).paddle ∧
    (afterBricks s dt).ball.r = s.ball.r ∧
    (afterBricks s dt).lives = s.lives ∧
    (afterBricks s dt).running = s.running ∧ (afterBricks s dt).results = s.results := by
  unfold afterBricks beforeBricks
  obtain ⟨a1, a2, a3, a4, _, _, a7, a8, a9⟩ :=
    breakBricks_keeps (paddleHit (walls (moveBall (movePaddle s dt) dt)))
  obtain ⟨b1, b2, b3, b4, _, _, b7, b8, b9, _⟩ :=
    paddleHit_keeps (walls (moveBall (movePaddle s dt) dt))
  obtain ⟨c1, c2, c3, c4, _, _, c7, c8, c9⟩ := walls_keeps (moveBall (movePaddle s dt) dt)
  obtain ⟨d1, d2, d3, d4, _, _, d7, d8, d9⟩ := moveBall_keeps (movePaddle s dt) dt
  obtain ⟨e1, e2, _, _, e5, _, _, e8, e9, e10⟩ := movePaddle_keeps s dt
  refine ⟨?_, ?_, ?_, ?_, ?_, ?_, ?_⟩
  · rw [a1, b1, c1, d1, e1]
  · rw [a2, b2, c2, d2, e2]
  · rw [a3, b3, c3, d3]
  · rw [a4, b4, c4, d4, e5]
  · rw [a7, b7, c7, d7, e8]
  · rw [a8, b8, c8, d8, e9]
  · rw [a9, b9, c9, d9, e10]

theorem endGame_keeps_board (s : BreakoutGame) (win : Bool) :
    (endGame s win).w = s.w ∧ (endGame s win).h = s.h ∧ (endGame s win).paddle = s.paddle ∧
    (endGame s win).ball = s.ball ∧ (endGame s win).bricks = s.bricks ∧
    (endGame s win).score = s.score ∧ (endGame s win).lives = s.lives ∧
    (endGame s win).running = false ∧
    (endGame s win).results = s.results ++ [⟨s.score, win⟩] := by
  unfold endGame stop
  dsimp only
  split_ifs <;> exact ⟨rfl, rfl, rfl, rfl, rfl, rfl, rfl, rfl, rfl⟩

end BreakoutGame

namespace BreakoutGame

/-- The five ways through the statements of `update` that follow the brick loop. -/
theorem settle_cases (p : BreakoutGame) (r : ℚ) :
    (fallen p = false ∧ p.bricks.all (fun b => !b.alive) = true ∧
      settle p r = endGame p true) ∨
    (fallen p = false ∧ p.bricks.all (fun b => !b.alive) = false ∧ settle p r = p) ∨
    (fallen p = true ∧ p.lives - 1 ≤ 0 ∧
      settle p r = endGame { p with lives := p.lives - 1 } false) ∨
    (fallen p = true ∧ ¬ p.lives - 1 ≤ 0 ∧ p.bricks.all (fun b => !b.alive) = true ∧
      settle p r = endGame (respawn p r) true) ∨
    (fallen p = true ∧ ¬ p.lives - 1 ≤ 0 ∧ p.bricks.all (fun b => !b.alive) = false ∧
      settle p r = respawn p r) := by
  by_cases hf : p.ball.y - p.ball.r > p.h
  · have hft : fallen p = true := by unfold fallen; exact decide_eq_true hf
    by_cases hl : p.lives - 1 ≤ 0
    · right; right; left
      refine ⟨hft, hl, ?_⟩
      unfold settle
      dsimp only
      rw [if_pos hf, if_pos hl]
    · by_cases ha : p.bricks.all (fun b => !b.alive) = true
      · right; right; right; left
        refine ⟨hft, hl, ha, ?_⟩
        unfold settle
        dsimp only
        rw [if_pos hf, if_neg hl, if_pos ha]
        rfl
      · right; right; right; right
        refine ⟨hft, hl, by simpa using ha, ?_⟩
        unfold settle
        dsimp only
        rw [if_pos hf, if_neg hl, if_neg ha]
        rfl
  · have hft : fallen p = false := by unfold fallen; exact decide_eq_false hf
    by_cases ha : p.bricks.all (fun b => !b.alive) = true
    · left
      refine ⟨hft, ha, ?_⟩
      unfold settle
      dsimp only
      rw [if_neg hf, if_pos ha]
    · right; left
      refine ⟨hft, by simpa using ha, ?_⟩
      unfold settle
      dsimp only
      rw [if_neg hf, if_neg ha]

end BreakoutGame

namespace BreakoutGame

theorem respawn_keeps (p : BreakoutGame) (r : ℚ) :
    (respawn p r).w = p.w ∧ (respawn p r).h = p.h ∧
    (respawn p r).paddle.w = p.paddle.w ∧ (respawn p r).paddle.y = p.paddle.y ∧
    (respawn p r).paddle.x = (p.w - p.paddle.w) / 2 ∧
    (respawn p r).ball.r = p.ball.r ∧ (respawn p r).ball.x = p.w / 2 ∧
    (respawn p r).ball.y = p.h - 60 ∧
    (respawn p r).bricks = p.bricks ∧ (respawn p r).score = p.score ∧
    (respawn p r).lives = p.lives - 1 ∧
    (respawn p r).running = p.running ∧ (respawn p r).results = p.results :=
  ⟨rfl, rfl, rfl, rfl, rfl, rfl, rfl, rfl, rfl, rfl, rfl, rfl, rfl⟩

/-- The paddle after the statements that follow the brick loop: where it was, or in the
middle after a respawn. -/
theorem settle_paddle (p : BreakoutGame) (r : ℚ) :
    (settle p r).w = p.w ∧ (settle p r).paddle.w = p.paddle.w ∧
    ((settle p r).paddle.x = p.paddle.x ∨
      (fallen p = true ∧ ¬ p.lives - 1 ≤ 0 ∧ (settle p r).paddle.x = (p.w - p.paddle.w) / 2)) ∧
    (fallen p = true → ¬ p.lives - 1 ≤ 0 → (settle p r).paddle.x = (p.w - p.paddle.w) / 2) := by
  rcases settle_cases p r with ⟨hf, _, e⟩ | ⟨hf, _, e⟩ | ⟨hf, hl, e⟩ | ⟨hf, hl, _, e⟩ |
    ⟨hf, hl, _, e⟩ <;> rw [e]
  · obtain ⟨e1, _, e3, _⟩ := endGame_keeps_board p true
    rw [e1, e3]
    exact ⟨rfl, rfl, Or.inl rfl, fun h => by rw [hf] at h; exact absurd h (by decide)⟩
  · exact ⟨rfl, rfl, Or.inl rfl, fun h => by rw [hf] at h; exact absurd h (by decide)⟩
  · obtain ⟨e1, _, e3, _⟩ := endGame_keeps_board { p with lives := p.lives - 1 } false
    rw [e1, e3]
    exact ⟨rfl, rfl, Or.inl rfl, fun _ h => absurd hl h⟩
  · obtain ⟨e1, _, e3, _⟩ := endGame_keeps_board (respawn p r) true
    rw [e1, e3]
    exact ⟨rfl, rfl, Or.inr ⟨hf, hl, rfl⟩, fun _ _ => rfl⟩
  · exact ⟨rfl, rfl, Or.inr ⟨hf, hl, rfl⟩, fun _ _ => rfl⟩

end BreakoutGame

namespace BreakoutGame

/-- The four outcomes of the handler `_onMouse`: a rectangle of non-zero width, and a
rectangle of zero width with the pointer on the one side, on the other side, or at its left
edge (or on a canvas of width 0), where `paddle.x` is left without a number. -/
theorem onMouse_cases (s : BreakoutGame) (clientX left width : ℚ) :
    (width ≠ 0 ∧ _onMouse s clientX left width = some { s with paddle := { s.paddle with
      x := max 0 (min (s.w - s.paddle.w)
        ((clientX - left) * (s.w / width) - s.paddle.w / 2)) } }) ∨
    (width = 0 ∧ (clientX - left) * s.w > 0 ∧ _onMouse s clientX left width =
      some { s with paddle := { s.paddle with x := max 0 (s.w - s.paddle.w) } }) ∨
    (width = 0 ∧ (clientX - left) * s.w < 0 ∧ _onMouse s clientX left width =
      some { s with paddle := { s.paddle with x := 0 } }) ∨
    (width = 0 ∧ (clientX - left) * s.w = 0 ∧ _onMouse s clientX left width = none) := by
  by_cases hw : width = 0
  · by_cases hp : (clientX - left) * s.w > 0
    · right; left
      refine ⟨hw, hp, ?_⟩
      unfold _onMouse
      rw [if_pos hw, if_pos hp]
    · by_cases hn : (clientX - left) * s.w < 0
      · right; right; left
        refine ⟨hw, hn, ?_⟩
        unfold _onMouse
        rw [if_pos hw, if_neg hp, if_pos hn]
      · right; right; right
        refine ⟨hw, le_antisymm (le_of_not_lt hp) (le_of_not_lt hn), ?_⟩
        unfold _onMouse
        rw [if_pos hw, if_neg hp, if_neg hn]
  · left
    refine ⟨hw, ?_⟩
    unfold _onMouse
    rw [if_neg hw]

/-- When the handler `_onMouse` leaves a number in `paddle.x`, it changed nothing else, and
the number is on the board if the board is at least as wide as the paddle. -/
theorem onMouse_some {s t : BreakoutGame} {clientX left width : ℚ}
    (ht : _onMouse s clientX left width = some t) :
    ∃ x : ℚ, t = { s with paddle := { s.paddle with x := x } } ∧
      (s.paddle.w ≤ s.w → 0 ≤ x ∧ x ≤ s.w - s.paddle.w) := by
  rcases onMouse_cases s clientX left width with ⟨_, e⟩ | ⟨_, _, e⟩ | ⟨_, _, e⟩ | ⟨_, _, e⟩
  · rw [e] at ht
    exact ⟨_, (Option.some.inj ht).symm, fun h => clamp_mem_rat (sub_nonneg.2 h)⟩
  · rw [e] at ht
    refine ⟨_, (Option.some.inj ht).symm, fun h => ?_⟩
    rw [max_eq_right (sub_nonneg.2 h)]
    exact ⟨sub_nonneg.2 h, le_refl _⟩
  · rw [e] at ht
    exact ⟨_, (Option.some.inj ht).symm, fun h => ⟨le_refl _, sub_nonneg.2 h⟩⟩
  · rw [e] at ht
    exact absurd ht (by simp)

end BreakoutGame

/-- C11, as stated, fails for a pointer-move event whose bounding rectangle has width 0 and
whose `clientX` is `rect.left`, on a fresh 800×600 session (`w >= paddle.w`): the scale
`canvas.width / rect.width` is `Infinity`, `x = 0 * Infinity` is `NaN`, and `Math.min` and
`Math.max` pass it on, so `paddle.x` is left without a number and is not within
`[0, w - paddle.w]`. With `clientX` to the right of `rect.left` the same rectangle leaves
the paddle at `w - paddle.w = 680`. -/
theorem breakout_pointer_on_empty_rect_leaves_no_number :
    (BreakoutGame.new 800 600 [] 0).paddle.w ≤ (BreakoutGame.new 800 600 [] 0).w ∧
    BreakoutGame._onMouse (BreakoutGame.new 800 600 [] 0) 0 0 0 = none ∧
    BreakoutGame._onMouse (BreakoutGame.new 800 600 [] 0) 100 0 0 =
      some { BreakoutGame.new 800 600 [] 0 with
        paddle := { (BreakoutGame.new 800 600 [] 0).paddle with x := 680 } } := by
  decide!

/-- C11, amended: in Pong, when the board is at least as high as a paddle, every `update(dt)`, for
any `dt` and any held keys, leaves `player.y` and `ai.y` within `[0, h - paddleH]`. In
Breakout, when the board is at least as wide as the paddle, every `update(dt)` and every
respawn after a lost life leaves `paddle.x` within `[0, w - paddle.w]`; the respawn puts it
at `(w - paddle.w) / 2`. A pointer-move event whose bounding rectangle has a width other
than 0 leaves a number in `paddle.x`; the only events that leave none have width 0 and
`(clientX - rect.left) * canvas.width = 0`; and every event that leaves a number leaves it
within `[0, w - paddle.w]` and changes neither `w` nor `paddle.w`. -/
theorem paddles_confined :
    (∀ (s : PongGame) (dt ra rb : ℝ), s.paddleH ≤ s.h →
      0 ≤ (PongGame.update s dt ra rb).player.y ∧
      (PongGame.update s dt ra rb).player.y ≤ s.h - s.paddleH ∧
      0 ≤ (PongGame.update s dt ra rb).ai.y ∧
      (PongGame.update s dt ra rb).ai.y ≤ s.h - s.paddleH) ∧
    (∀ (s : BreakoutGame) (dt r : ℚ), s.paddle.w ≤ s.w →
      0 ≤ (BreakoutGame.update s dt r).paddle.x ∧
      (BreakoutGame.update s dt r).paddle.x ≤ s.w - s.paddle.w ∧
      (BreakoutGame.update s dt r).w = s.w ∧
      (BreakoutGame.update s dt r).paddle.w = s.paddle.w ∧
      (BreakoutGame.fallen (BreakoutGame.afterBricks s dt) = true →
        ¬ s.lives - 1 ≤ 0 →
        (BreakoutGame.update s dt r).paddle.x = (s.w - s.paddle.w) / 2)) ∧
    (∀ (s : BreakoutGame) (clientX left width : ℚ), s.paddle.w ≤ s.w →
      (width ≠ 0 → ∃ t, BreakoutGame._onMouse s clientX left width = some t) ∧
      (BreakoutGame._onMouse s clientX left width = none ↔
        width = 0 ∧ (clientX - left) * s.w = 0) ∧
      (∀ t, BreakoutGame._onMouse s clientX left width = some t →
        0 ≤ t.paddle.x ∧ t.paddle.x ≤ s.w - s.paddle.w ∧
        t.w = s.w ∧ t.paddle.w = s.paddle.w)) := by
  refine ⟨?_, ?_, ?_⟩
  · intro s dt ra rb h
    obtain ⟨⟨p1, p2⟩, a1, a2⟩ := pong_movePaddles_clamped s dt h
    have hk := pong_sides_keep_paddles
      (PongGame.moveBall (PongGame.movePaddles s dt) dt) ra rb
    have hm := PongGame.moveBall_frame (PongGame.movePaddles s dt) dt
    unfold PongGame.update
    rw [hk.1, hk.2, hm.2.2.2.1, hm.2.2.2.2]
    exact ⟨p1, p2, a1, a2⟩
  · intro s dt r h
    obtain ⟨k1, _, k3, _, k5, _⟩ := BreakoutGame.afterBricks_keeps s dt
    obtain ⟨c1, c2⟩ := BreakoutGame.movePaddle_clamped s dt h
    obtain ⟨m1, _, m3, _⟩ := BreakoutGame.movePaddle_keeps s dt
    obtain ⟨s1, s2, s3, s4⟩ := BreakoutGame.settle_paddle (BreakoutGame.afterBricks s dt) r
    have hu : BreakoutGame.update s dt r =
        BreakoutGame.settle (BreakoutGame.afterBricks s dt) r := rfl
    rw [hu, s1, s2, k1, k3, m3]
    rw [k1, k3, m3] at s3 s4
    rw [k5] at s3 s4
    refine ⟨?_, ?_, rfl, rfl, s4⟩
    · rcases s3 with e | ⟨_, _, e⟩ <;> rw [e]
      · exact c1
      · linarith
    · rcases s3 with e | ⟨_, _, e⟩ <;> rw [e]
      · exact c2
      · linarith
  · intro s clientX left width h
    refine ⟨fun hw => ?_, ⟨fun hn => ?_, fun hn => ?_⟩, fun t ht => ?_⟩
    · rcases BreakoutGame.onMouse_cases s clientX left width with
        ⟨_, e⟩ | ⟨h0, _⟩ | ⟨h0, _⟩ | ⟨h0, _⟩
      · exact ⟨_, e⟩
      · exact absurd h0 hw
      · exact absurd h0 hw
      · exact absurd h0 hw
    · rcases BreakoutGame.onMouse_cases s clientX left width with
        ⟨_, e⟩ | ⟨_, _, e⟩ | ⟨_, _, e⟩ | ⟨h0, hz, _⟩
      · rw [e] at hn; exact absurd hn (by simp)
      · rw [e] at hn; exact absurd hn (by simp)
      · rw [e] at hn; exact absurd hn (by simp)
      · exact ⟨h0, hz⟩
    · rcases BreakoutGame.onMouse_cases s clientX left width with
        ⟨hw, _⟩ | ⟨_, hp, _⟩ | ⟨_, hp, _⟩ | ⟨_, _, e⟩
      · exact absurd hn.1 hw
      · rw [hn.2] at hp; exact absurd hp (lt_irrefl _)
      · rw [hn.2] at hp; exact absurd hp (lt_irrefl _)
      · exact e
    · obtain ⟨x, rfl, hx⟩ := BreakoutGame.onMouse_some ht
      exact ⟨(hx h).1, (hx h).2, rfl, rfl⟩

/-- C11 on 800×600 canvases: the player paddle of Pong with the up key held for a whole
second stays on the board, and the paddle of Breakout pointed far to the right, over a
canvas shown at its own size, stops at `w - paddle.w = 680`, which is on the board. -/
theorem paddles_confined_witness :
    0 ≤ (PongGame.update
      { PongGame.new 800 600 [] 0 (1/2) with
        running := true, keys := { up := true, down := false } }
      1 0 0).player.y ∧
    (PongGame.update
      { PongGame.new 800 600 [] 0 (1/2) with
        running := true, keys := { up := true, down := false } }
      1 0 0).player.y ≤
      ({ PongGame.new 800 600 [] 0 (1/2) with
        running := true, keys := { up := true, down := false } } : PongGame).h -
      ({ PongGame.new 800 600 [] 0 (1/2) with
        running := true, keys := { up := true, down := false } } : PongGame).paddleH ∧
    BreakoutGame._onMouse (BreakoutGame.new 800 600 [] 0) 5000 0 800 =
      some { BreakoutGame.new 800 600 [] 0 with
        paddle := { (BreakoutGame.new 800 600 [] 0).paddle with x := 680 } } ∧
    (0 ≤ ({ BreakoutGame.new 800 600 [] 0 with
        paddle := { (BreakoutGame.new 800 600 [] 0).paddle with x := 680 } } :
          BreakoutGame).paddle.x ∧
      ({ BreakoutGame.new 800 600 [] 0 with
        paddle := { (BreakoutGame.new 800 600 [] 0).paddle with x := 680 } } :
          BreakoutGame).paddle.x ≤
        (BreakoutGame.new 800 600 [] 0).w - (BreakoutGame.new 800 600 [] 0).paddle.w ∧
      ({ BreakoutGame.new 800 600 [] 0 with
        paddle := { (BreakoutGame.new 800 600 [] 0).paddle with x := 680 } } :
          BreakoutGame).w = (BreakoutGame.new 800 600 [] 0).w ∧
      ({ BreakoutGame.new 800 600 [] 0 with
        paddle := { (BreakoutGame.new 800 600 [] 0).paddle with x := 680 } } :
          BreakoutGame).paddle.w = (BreakoutGame.new 800 600 [] 0).paddle.w) :=
  have hp := paddles_confined.1
      { PongGame.new 800 600 [] 0 (1/2) with
        running := true, keys := { up := true, down := false } }
      1 0 0 (by norm_num [PongGame.new])
  have hm : BreakoutGame._onMouse (BreakoutGame.new 800 600 [] 0) 5000 0 800 =
      some { BreakoutGame.new 800 600 [] 0 with
        paddle := { (BreakoutGame.new 800 600 [] 0).paddle with x := 680 } } := by decide!
  ⟨hp.1, hp.2.1, hm,
    (paddles_confined.2.2 (BreakoutGame.new 800 600 [] 0) 5000 0 800 (by decide!)).2.2 _ hm⟩

/-! ## Breakout: the brick loop -/

namespace BreakoutGame

/-- The brick loop as a whole: every brick that is alive and overlapped is dead afterwards
and no other brick is touched, the score has gone up by 10 for each of them and the
vertical velocity has been negated once for each of them. -/
theorem hitBricks_spec (ball : BreakoutBall) :
    ∀ (bs : List Brick) (vy : ℚ) (score : Int),
      (hitBricks ball vy score bs).2.2 =
        bs.map (fun b => if kills ball b then { b with alive := false } else b) ∧
      (hitBricks ball vy score bs).2.1 = score + 10 * (bs.countP (kills ball) : Nat) ∧
      (hitBricks ball vy score bs).1 = vy * (-1) ^ bs.countP (kills ball)
  | [], vy, score => by
    refine ⟨rfl, ?_, ?_⟩
    · show score = score + 10 * ((0 : Nat) : Int)
      simp
    · show vy = vy * (-1) ^ 0
      simp
  | b :: rest, vy, score => by
    by_cases ha : b.alive = true
    · by_cases ho : overlaps ball b = true
      · have hk : kills ball b = true := by unfold kills; rw [ha, ho]; rfl
        obtain ⟨i1, i2, i3⟩ := hitBricks_spec ball rest (vy * -1) (score + 10)
        have he : hitBricks ball vy score (b :: rest) =
            ((hitBricks ball (vy * -1) (score + 10) rest).1,
             (hitBricks ball (vy * -1) (score + 10) rest).2.1,
             { b with alive := false } :: (hitBricks ball (vy * -1) (score + 10) rest).2.2) := by
          rw [hitBricks]
          simp [ha, ho]
        rw [he]
        refine ⟨?_, ?_, ?_⟩
        · show _ :: _ = _
          rw [i1, List.map_cons, if_pos hk]
        · show (hitBricks ball (vy * -1) (score + 10) rest).2.1 = _
          rw [i2, List.countP_cons_of_pos _ _ hk]
          push_cast
          ring
        · show (hitBricks ball (vy * -1) (score + 10) rest).1 = _
          rw [i3, List.countP_cons_of_pos _ _ hk, pow_succ]
          ring
      · have hk : ¬ kills ball b = true := by unfold kills; simp [ho]
        obtain ⟨i1, i2, i3⟩ := hitBricks_spec ball rest vy score
        have he : hitBricks ball vy score (b :: rest) =
            ((hitBricks ball vy score rest).1, (hitBricks ball vy score rest).2.1,
             b :: (hitBricks ball vy score rest).2.2) := by
          rw [hitBricks]
          simp [ha, ho]
        rw [he]
        refine ⟨?_, ?_, ?_⟩
        · show _ :: _ = _
          rw [i1, List.map_cons, if_neg hk]
        · show (hitBricks ball vy score rest).2.1 = _
          rw [i2, List.countP_cons_of_neg _ _ hk]
        · show (hitBricks ball vy score rest).1 = _
          rw [i3, List.countP_cons_of_neg _ _ hk]
    · have hk : ¬ kills ball b = true := by unfold kills; simp [ha]
      obtain ⟨i1, i2, i3⟩ := hitBricks_spec ball rest vy score
      have he : hitBricks ball vy score (b :: rest) =
          ((hitBricks ball vy score rest).1, (hitBricks ball vy score rest).2.1,
           b :: (hitBricks ball vy score rest).2.2) := by
        rw [hitBricks]
        simp [ha]
      rw [he]
      refine ⟨?_, ?_, ?_⟩
      · show _ :: _ = _
        rw [i1, List.map_cons, if_neg hk]
      · show (hitBricks ball vy score rest).2.1 = _
        rw [i2, List.countP_cons_of_neg _ _ hk]
      · show (hitBricks ball vy score rest).1 = _
        rw [i3, List.countP_cons_of_neg _ _ hk]

/-- The dead bricks after the loop are the dead bricks before it and the killed ones. -/
theorem deadCount_after (ball : BreakoutBall) (bs : List Brick) :
    deadCount (bs.map (fun b => if kills ball b then { b with alive := false } else b)) =
      deadCount bs + bs.countP (kills ball) := by
  induction bs with
  | nil => rfl
  | cons b rest ih =>
    unfold deadCount at ih ⊢
    rw [List.map_cons]
    by_cases hk : kills ball b = true
    · have ha : b.alive = true := by
        unfold kills at hk
        simp only [Bool.and_eq_true] at hk
        exact hk.1
      rw [if_pos hk, List.countP_cons_of_pos _ _ (by simp), ih,
        List.countP_cons_of_neg _ _ (by simp [ha]), List.countP_cons_of_pos _ _ hk]
      omega
    · rw [if_neg hk, List.countP_cons_of_neg _ _ hk]
      by_cases ha : b.alive = true
      · rw [List.countP_cons_of_neg _ _ (by simp [ha]), ih,
          List.countP_cons_of_neg _ _ (by simp [ha])]
      · rw [List.countP_cons_of_pos _ _ (by simpa using ha), ih,
          List.countP_cons_of_pos _ _ (by simpa using ha)]
        omega

end BreakoutGame

namespace BreakoutGame

/-- The statements before the brick loop leave bricks and score alone. -/
theorem beforeBricks_keeps (s : BreakoutGame) (dt : ℚ) :
    (beforeBricks s dt).bricks = s.bricks ∧ (beforeBricks s dt).score = s.score := by
  unfold beforeBricks
  obtain ⟨_, _, _, _, b5, b6, _⟩ := paddleHit_keeps (walls (moveBall (movePaddle s dt) dt))
  obtain ⟨_, _, _, _, c5, c6, _⟩ := walls_keeps (moveBall (movePaddle s dt) dt)
  obtain ⟨_, _, _, _, d5, d6, _⟩ := moveBall_keeps (movePaddle s dt) dt
  obtain ⟨_, _, _, _, _, e6, e7, _⟩ := movePaddle_keeps s dt
  exact ⟨by rw [b5, c5, d5, e6], by rw [b6, c6, d6, e7]⟩

/-- The statements after the brick loop leave bricks and score alone. -/
theorem settle_keeps (p : BreakoutGame) (r : ℚ) :
    (settle p r).bricks = p.bricks ∧ (settle p r).score = p.score := by
  rcases settle_cases p r with ⟨_, _, e⟩ | ⟨_, _, e⟩ | ⟨_, _, e⟩ | ⟨_, _, _, e⟩ |
    ⟨_, _, _, e⟩ <;> rw [e]
  · obtain ⟨_, _, _, _, e5, e6, _⟩ := endGame_keeps_board p true
    exact ⟨e5, e6⟩
  · exact ⟨rfl, rfl⟩
  · obtain ⟨_, _, _, _, e5, e6, _⟩ := endGame_keeps_board { p with lives := p.lives - 1 } false
    exact ⟨e5, e6⟩
  · obtain ⟨_, _, _, _, e5, e6, _⟩ := endGame_keeps_board (respawn p r) true
    exact ⟨e5, e6⟩
  · exact ⟨rfl, rfl⟩

/-- Bricks and score after `update`, from the ball as the brick loop sees it. -/
theorem update_bricks (s : BreakoutGame) (dt r : ℚ) :
    (update s dt r).bricks = s.bricks.map (fun b =>
      if kills (beforeBricks s dt).ball b then { b with alive := false } else b) ∧
    (update s dt r).score =
      s.score + 10 * (s.bricks.countP (kills (beforeBricks s dt).ball) : Nat) := by
  have hu : update s dt r = settle (breakBricks (beforeBricks s dt)) r := rfl
  obtain ⟨k1, k2⟩ := settle_keeps (breakBricks (beforeBricks s dt)) r
  obtain ⟨b1, b2⟩ := beforeBricks_keeps s dt
  obtain ⟨h1, h2, _⟩ := hitBricks_spec (beforeBricks s dt).ball (beforeBricks s dt).bricks
    (beforeBricks s dt).ball.vy (beforeBricks s dt).score
  rw [hu, k1, k2]
  refine ⟨?_, ?_⟩
  · show (hitBricks _ _ _ _).2.2 = _
    rw [h1, b1]
  · show (hitBricks _ _ _ _).2.1 = _
    rw [h2, b1, b2]

/-- The bricks that `reset()` lays are all alive. -/
theorem layBricks_deadCount (rows cols : Nat) (bw bh : ℚ) :
    deadCount (layBricks rows cols bw bh) = 0 := by
  unfold deadCount layBricks
  rw [List.countP_eq_zero]
  intro b hb
  simp only [List.mem_flatMap, List.mem_map, List.mem_range] at hb
  obtain ⟨_, _, _, _, rfl⟩ := hb
  simp

/-- The input handlers leave bricks, score, lives, session flag and results alone. -/
theorem inputs_keep (s : BreakoutGame) :
    (∀ (c : String) (down : Bool), (_onKey s c down).bricks = s.bricks ∧
      (_onKey s c down).score = s.score ∧ (_onKey s c down).lives = s.lives ∧
      (_onKey s c down).running = s.running ∧ (_onKey s c down).results = s.results ∧
      (_onKey s c down).ball = s.ball ∧ (_onKey s c down).w = s.w ∧
      (_onKey s c down).h = s.h ∧ (_onKey s c down).paddle = s.paddle) ∧
    (∀ (clientX left width : ℚ) (t : BreakoutGame),
      _onMouse s clientX left width = some t →
      t.bricks = s.bricks ∧ t.score = s.score ∧ t.lives = s.lives ∧
      t.running = s.running ∧ t.results = s.results ∧ t.ball = s.ball ∧
      t.w = s.w ∧ t.h = s.h ∧ t.paddle.w = s.paddle.w ∧ t.paddle.y = s.paddle.y) := by
  refine ⟨?_, ?_⟩
  · intro c down
    unfold _onKey
    dsimp only
    split_ifs <;> exact ⟨rfl, rfl, rfl, rfl, rfl, rfl, rfl, rfl, rfl⟩
  · intro clientX left width t ht
    obtain ⟨x, rfl, _⟩ := onMouse_some ht
    exact ⟨rfl, rfl, rfl, rfl, rfl, rfl, rfl, rfl, rfl, rfl⟩

/-- In every reachable state the score is ten times the number of dead bricks. -/
theorem reach_score {w h k : Nat} {s : BreakoutGame} (hreach : Reach w h k s) :
    s.score = 10 * (deadCount s.bricks : Nat) := by
  induction hreach with
  | reset store r =>
    show (0 : Int) = 10 * ((deadCount (layBricks 5 10 _ 20) : Nat) : Int)
    rw [layBricks_deadCount]
    rfl
  | key c down _ ih =>
    obtain ⟨e1, e2, _⟩ := (inputs_keep _).1 c down
    rw [e1, e2]
    exact ih
  | mouse clientX left width _ hm ih =>
    obtain ⟨e1, e2, _⟩ := (inputs_keep _).2 clientX left width _ hm
    rw [e1, e2]
    exact ih
  | update dt r _ _ ih =>
    obtain ⟨e1, e2⟩ := update_bricks _ dt r
    rw [e1, e2, deadCount_after, ih]
    push_cast
    ring

/-- C14: across every `update(dt)` the bricks afterwards are the bricks before, in the same
order and with the same geometry, where a brick is dead afterwards exactly when it was dead
before or it was alive and the ball, where it is after motion, walls and paddle, passes the
overlap test; no dead brick is alive again and the number of alive bricks does not go up;
the score goes up by 10 for each brick killed in the update. In every state reachable from
`reset()` the score is 10 times the number of dead bricks. -/
theorem breakout_bricks_and_score :
    (∀ (s : BreakoutGame) (dt r : ℚ),
      (update s dt r).bricks = s.bricks.map (fun b =>
        if kills (beforeBricks s dt).ball b then { b with alive := false } else b) ∧
      List.Forall₂ (fun b b' => b'.x = b.x ∧ b'.y = b.y ∧ b'.w = b.w ∧ b'.h = b.h ∧
          (b.alive = false → b'.alive = false) ∧
          ((b.alive = true ∧ b'.alive = false) ↔
            (b.alive = true ∧ overlaps (beforeBricks s dt).ball b = true)))
        s.bricks (update s dt r).bricks ∧
      (update s dt r).bricks.countP (fun b => b.alive) ≤ s.bricks.countP (fun b => b.alive) ∧
      deadCount (update s dt r).bricks =
        deadCount s.bricks + s.bricks.countP (kills (beforeBricks s dt).ball) ∧
      (update s dt r).score =
        s.score + 10 * (s.bricks.countP (kills (beforeBricks s dt).ball) : Nat)) ∧
    (∀ (w h k : Nat) (s : BreakoutGame), Reach w h k s →
      s.score = 10 * (deadCount s.bricks : Nat)) := by
  refine ⟨?_, fun w h k s hr => reach_score hr⟩
  intro s dt r
  obtain ⟨e1, e2⟩ := update_bricks s dt r
  refine ⟨e1, ?_, ?_, ?_, e2⟩
  · rw [e1, List.forall₂_map_right_iff, List.forall₂_same]
    intro b _
    by_cases hk : kills (beforeBricks s dt).ball b = true
    · rw [if_pos hk]
      have hk2 := hk
      unfold kills at hk2
      simp only [Bool.and_eq_true] at hk2
      exact ⟨rfl, rfl, rfl, rfl, fun _ => rfl, fun _ => hk2, fun _ => ⟨hk2.1, rfl⟩⟩
    · rw [if_neg hk]
      refine ⟨rfl, rfl, rfl, rfl, fun h => h, ?_, ?_⟩
      · rintro ⟨h1, h2⟩
        rw [h1] at h2
        exact absurd h2 (by decide)
      · rintro ⟨h1, h2⟩
        exact absurd (by unfold kills; rw [h1, h2]; rfl) hk
  · rw [e1, List.countP_map]
    apply List.countP_mono_left
    intro b _ hb
    by_cases hk : kills (beforeBricks s dt).ball b = true
    · simp [hk] at hb
    · simpa [hk] using hb
  · rw [e1, deadCount_after]

end BreakoutGame

namespace BreakoutGame

/-- A fresh session on an 800 by 600 board and an update of 1.42 seconds: the ball reaches
the first brick of the bottom row and kills it; one brick is dead and the score is 10. -/
theorem breakout_bricks_and_score_witness :
    Reach 800 600 0 (update { new 800 600 [] 0 with running := true } (71/50) 0) ∧
    deadCount (update { new 800 600 [] 0 with running := true } (71/50) 0).bricks = 1 ∧
    (update { new 800 600 [] 0 with running := true } (71/50) 0).score = 10 := by
  have c : ({ new 800 600 [] 0 with running := true } : BreakoutGame).bricks.countP
      (kills (beforeBricks { new 800 600 [] 0 with running := true } (71/50)).ball) = 1 := by
    decide!
  have f : fallen (afterBricks { new 800 600 [] 0 with running := true } (71/50)) = false := by
    decide!
  have hr : Reach 800 600 0 (update { new 800 600 [] 0 with running := true } (71/50) 0) := by
    have h := Reach.update (71/50) 0 (Reach.reset [] 0 : Reach 800 600 0 _) rfl
    rw [f] at h
    exact h
  obtain ⟨_, _, _, e4, e5⟩ :=
    breakout_bricks_and_score.1 { new 800 600 [] 0 with running := true } (71/50) 0
  rw [c] at e4 e5
  refine ⟨hr, ?_, ?_⟩
  · rw [e4]
    show deadCount (layBricks 5 10 _ 20) + 1 = 1
    rw [layBricks_deadCount]
  · rw [e5]
    rfl

end BreakoutGame

/-! ## Breakout: lives and the end of a session -/

namespace BreakoutGame

/-- The five outcomes of `update(dt)`, told apart by the bottom-edge test, the lives and the
bricks once the brick loop is over. -/
theorem update_outcome (s : BreakoutGame) (dt r : ℚ) :
    (fallen (afterBricks s dt) = false ∧
      (afterBricks s dt).bricks.all (fun b => !b.alive) = true ∧
      update s dt r = endGame (afterBricks s dt) true ∧
      (update s dt r).lives = s.lives ∧ (update s dt r).running = false ∧
      (update s dt r).results = s.results ++ [⟨(update s dt r).score, true⟩]) ∨
    (fallen (afterBricks s dt) = false ∧
      (afterBricks s dt).bricks.all (fun b => !b.alive) = false ∧
      update s dt r = afterBricks s dt ∧
      (update s dt r).lives = s.lives ∧ (update s dt r).running = s.running ∧
      (update s dt r).results = s.results) ∨
    (fallen (afterBricks s dt) = true ∧ s.lives - 1 ≤ 0 ∧
      update s dt r = endGame { afterBricks s dt with lives := s.lives - 1 } false ∧
      (update s dt r).lives = s.lives - 1 ∧ (update s dt r).running = false ∧
      (update s dt r).results = s.results ++ [⟨(update s dt r).score, false⟩]) ∨
    (fallen (afterBricks s dt) = true ∧ ¬ s.lives - 1 ≤ 0 ∧
      (afterBricks s dt).bricks.all (fun b => !b.alive) = true ∧
      update s dt r = endGame (respawn (afterBricks s dt) r) true ∧
      (update s dt r).lives = s.lives - 1 ∧ (update s dt r).running = false ∧
      (update s dt r).results = s.results ++ [⟨(update s dt r).score, true⟩]) ∨
    (fallen (afterBricks s dt) = true ∧ ¬ s.lives - 1 ≤ 0 ∧
      (afterBricks s dt).bricks.all (fun b => !b.alive) = false ∧
      update s dt r = respawn (afterBricks s dt) r ∧
      (update s dt r).lives = s.lives - 1 ∧ (update s dt r).running = s.running ∧
      (update s dt r).results = s.results) := by
  have hu : update s dt r = settle (afterBricks s dt) r := rfl
  obtain ⟨_, _, _, _, a5, a6, a7⟩ := afterBricks_keeps s dt
  rcases settle_cases (afterBricks s dt) r with ⟨hf, ha, e⟩ | ⟨hf, ha, e⟩ | ⟨hf, hl, e⟩ |
    ⟨hf, hl, ha, e⟩ | ⟨hf, hl, ha, e⟩
  · left
    obtain ⟨_, _, _, _, _, e6, e7, e8, e9⟩ := endGame_keeps_board (afterBricks s dt) true
    refine ⟨hf, ha, hu.trans e, ?_, ?_, ?_⟩
    · rw [hu, e, e7, a5]
    · rw [hu, e, e8]
    · rw [hu, e, e9, e6, a7]
  · right; left
    refine ⟨hf, ha, hu.trans e, ?_, ?_, ?_⟩
    · rw [hu, e, a5]
    · rw [hu, e, a6]
    · rw [hu, e, a7]
  · right; right; left
    rw [a5] at hl e
    obtain ⟨_, _, _, _, _, e6, e7, e8, e9⟩ :=
      endGame_keeps_board { afterBricks s dt with lives := s.lives - 1 } false
    refine ⟨hf, hl, hu.trans e, ?_, ?_, ?_⟩
    · rw [hu, e, e7]
    · rw [hu, e, e8]
    · rw [hu, e, e9, e6]
      show (afterBricks s dt).results ++ _ = _
      rw [a7]
  · right; right; right; left
    rw [a5] at hl
    obtain ⟨_, _, _, _, _, e6, e7, e8, e9⟩ :=
      endGame_keeps_board (respawn (afterBricks s dt) r) true
    refine ⟨hf, hl, ha, hu.trans e, ?_, ?_, ?_⟩
    · rw [hu, e, e7]
      show (afterBricks s dt).lives - 1 = _
      rw [a5]
    · rw [hu, e, e8]
    · rw [hu, e, e9, e6]
      show (afterBricks s dt).results ++ _ = _
      rw [a7]
  · right; right; right; right
    rw [a5] at hl
    refine ⟨hf, hl, ha, hu.trans e, ?_, ?_, ?_⟩
    · rw [hu, e]
      show (afterBricks s dt).lives - 1 = _
      rw [a5]
    · rw [hu, e]
      show (afterBricks s dt).running = _
      rw [a6]
    · rw [hu, e]
      show (afterBricks s dt).results = _
      rw [a7]

/-- In a reachable state the lives are three less the bottom passes so far; the session is
either running with no result yet and a life left, or over with one result: a loss with no
life left, or a win. -/
theorem reach_lives {w h k : Nat} {s : BreakoutGame} (hreach : Reach w h k s) :
    s.lives = 3 - (k : Int) ∧
    ((s.running = true ∧ s.results = [] ∧ 1 ≤ s.lives) ∨
     (s.running = false ∧ s.results = [⟨s.score, false⟩] ∧ s.lives = 0) ∨
     (s.running = false ∧ s.results = [⟨s.score, true⟩] ∧ 1 ≤ s.lives)) := by
  induction hreach with
  | reset store r => exact ⟨rfl, Or.inl ⟨rfl, rfl, show (1 : Int) ≤ 3 by decide⟩⟩
  | key c down _ ih =>
    obtain ⟨_, e2, e3, e4, e5, _⟩ := (inputs_keep _).1 c down
    rw [e2, e3, e4, e5]
    exact ih
  | mouse clientX left width _ hm ih =>
    obtain ⟨_, e2, e3, e4, e5, _⟩ := (inputs_keep _).2 clientX left width _ hm
    rw [e2, e3, e4, e5]
    exact ih
  | @update k s dt r _ hrun ih =>
    obtain ⟨hl, hs⟩ := ih
    have hs1 : s.results = [] ∧ 1 ≤ s.lives := by
      rcases hs with ⟨_, h2, h3⟩ | ⟨h1, _⟩ | ⟨h1, _⟩
      · exact ⟨h2, h3⟩
      · rw [hrun] at h1; exact absurd h1 (by decide)
      · rw [hrun] at h1; exact absurd h1 (by decide)
    obtain ⟨hres, hge⟩ := hs1
    rcases update_outcome s dt r with ⟨hf, _, _, u1, u2, u3⟩ | ⟨hf, _, _, u1, u2, u3⟩ |
      ⟨hf, hle, _, u1, u2, u3⟩ | ⟨hf, hle, _, _, u1, u2, u3⟩ | ⟨hf, hle, _, _, u1, u2, u3⟩
    · rw [hf]
      refine ⟨?_, Or.inr (Or.inr ⟨u2, ?_, ?_⟩)⟩
      · rw [u1, hl]; simp
      · rw [u3, hres]; rfl
      · rw [u1]; exact hge
    · rw [hf]
      refine ⟨?_, Or.inl ⟨?_, ?_, ?_⟩⟩
      · rw [u1, hl]; simp
      · rw [u2]; exact hrun
      · rw [u3]; exact hres
      · rw [u1]; exact hge
    · rw [hf]
      refine ⟨?_, Or.inr (Or.inl ⟨u2, ?_, ?_⟩)⟩
      · rw [u1, hl]; simp; ring
      · rw [u3, hres]; rfl
      · rw [u1]; omega
    · rw [hf]
      refine ⟨?_, Or.inr (Or.inr ⟨u2, ?_, ?_⟩)⟩
      · rw [u1, hl]; simp; ring
      · rw [u3, hres]; rfl
      · rw [u1]; omega
    · rw [hf]
      refine ⟨?_, Or.inl ⟨?_, ?_, ?_⟩⟩
      · rw [u1, hl]; simp; ring
      · rw [u2]; exact hrun
      · rw [u3]; exact hres
      · rw [u1]; omega

end BreakoutGame

namespace BreakoutGame

/-- The number of bricks that `reset()` lays. -/
theorem layBricks_length (rows cols : Nat) (bw bh : ℚ) :
    (layBricks rows cols bw bh).length = rows * cols := by
  unfold layBricks
  induction rows with
  | zero => simp
  | succ n ih =>
    rw [List.range_succ, List.flatMap_append, List.length_append, ih]
    simp [Nat.succ_mul, Function.comp_def]

/-- C12: in every state reachable from `reset()` by input events and by `update(dt)` calls
made while the session is running, `0 <= lives <= 3`, the lives are three less the bottom
passes so far and at most one result has been emitted. An `update(dt)` of a running reachable
session emits a loss exactly when the ball is below the board at the bottom test
(`ball.y - r > h`) with one life remaining; that update then stops the session, leaves no
life and emits the loss and nothing else. Every `update(dt)` emits at most one result. A
fresh session has 50 bricks and 3 lives, and after three bottom passes with no brick
destroyed the session is over, with the single result a loss with score 0. -/
theorem breakout_lives_and_loss :
    (∀ (w h k : Nat) (s : BreakoutGame), Reach w h k s →
      0 ≤ s.lives ∧ s.lives ≤ 3 ∧ s.lives = 3 - (k : Int) ∧ s.results.length ≤ 1) ∧
    (∀ (w h k : Nat) (s : BreakoutGame) (dt r : ℚ), Reach w h k s → s.running = true →
      ((update s dt r).results = s.results ++ [⟨(update s dt r).score, false⟩] ↔
        (fallen (afterBricks s dt) = true ∧ s.lives = 1)) ∧
      (fallen (afterBricks s dt) = true ∧ s.lives = 1 →
        update s dt r = endGame { afterBricks s dt with lives := s.lives - 1 } false ∧
        (update s dt r).running = false ∧ (update s dt r).lives = 0 ∧
        (update s dt r).results = [⟨(update s dt r).score, false⟩])) ∧
    (∀ (s : BreakoutGame) (dt r : ℚ), ∃ out : List BreakoutResult,
      out.length ≤ 1 ∧ (update s dt r).results = s.results ++ out) ∧
    (∀ (w h : Nat) (store : Store) (r : ℚ),
      (new w h store r).bricks.length = 50 ∧ deadCount (new w h store r).bricks = 0 ∧
      (new w h store r).lives = 3 ∧ (new w h store r).score = 0) ∧
    (∀ (w h : Nat) (s : BreakoutGame), Reach w h 3 s → deadCount s.bricks = 0 →
      s.running = false ∧ s.lives = 0 ∧ s.score = 0 ∧ s.results = [⟨0, false⟩]) := by
  refine ⟨?_, ?_, ?_, ?_, ?_⟩
  · intro w h k s hr
    obtain ⟨hl, hs⟩ := reach_lives hr
    refine ⟨?_, ?_, hl, ?_⟩
    · rcases hs with ⟨_, _, h3⟩ | ⟨_, _, h3⟩ | ⟨_, _, h3⟩ <;> omega
    · omega
    · rcases hs with ⟨_, h2, _⟩ | ⟨_, h2, _⟩ | ⟨_, h2, _⟩ <;> rw [h2] <;> simp
  · intro w h k s dt r hr hrun
    obtain ⟨_, hs⟩ := reach_lives hr
    have hs1 : s.results = [] ∧ 1 ≤ s.lives := by
      rcases hs with ⟨_, h2, h3⟩ | ⟨h1, _⟩ | ⟨h1, _⟩
      · exact ⟨h2, h3⟩
      · rw [hrun] at h1; exact absurd h1 (by decide)
      · rw [hrun] at h1; exact absurd h1 (by decide)
    obtain ⟨hres, hge⟩ := hs1
    rcases update_outcome s dt r with ⟨hf, _, _, u1, u2, u3⟩ | ⟨hf, _, _, u1, u2, u3⟩ |
      ⟨hf, hle, ue, u1, u2, u3⟩ | ⟨hf, hle, _, _, u1, u2, u3⟩ | ⟨hf, hle, _, _, u1, u2, u3⟩
    · refine ⟨⟨fun e => ?_, fun e => ?_⟩, fun e => ?_⟩
      · rw [u3] at e
        simp at e
      · rw [hf] at e; exact absurd e.1 (by decide)
      · rw [hf] at e; exact absurd e.1 (by decide)
    · refine ⟨⟨fun e => ?_, fun e => ?_⟩, fun e => ?_⟩
      · rw [u3] at e
        simp at e
      · rw [hf] at e; exact absurd e.1 (by decide)
      · rw [hf] at e; exact absurd e.1 (by decide)
    · have h1 : s.lives = 1 := by omega
      refine ⟨⟨fun _ => ⟨hf, h1⟩, fun _ => u3⟩, fun _ => ⟨ue, u2, ?_, ?_⟩⟩
      · rw [u1, h1]; rfl
      · rw [u3, hres]; rfl
    · refine ⟨⟨fun e => ?_, fun e => ?_⟩, fun e => ?_⟩
      · rw [u3] at e
        simp at e
      · exact absurd (by rw [e.2]; decide) hle
      · exact absurd (by rw [e.2]; decide) hle
    · refine ⟨⟨fun e => ?_, fun e => ?_⟩, fun e => ?_⟩
      · rw [u3] at e
        simp at e
      · exact absurd (by rw [e.2]; decide) hle
      · exact absurd (by rw [e.2]; decide) hle
  · intro s dt r
    rcases update_outcome s dt r with ⟨_, _, _, _, _, u3⟩ | ⟨_, _, _, _, _, u3⟩ |
      ⟨_, _, _, _, _, u3⟩ | ⟨_, _, _, _, _, _, u3⟩ | ⟨_, _, _, _, _, _, u3⟩
    · exact ⟨_, by simp, u3⟩
    · exact ⟨[], by simp, by rw [u3]; simp⟩
    · exact ⟨_, by simp, u3⟩
    · exact ⟨_, by simp, u3⟩
    · exact ⟨[], by simp, by rw [u3]; simp⟩
  · intro w h store r
    exact ⟨layBricks_length 5 10 _ 20, layBricks_deadCount _ _ _ _, rfl, rfl⟩
  · intro w h s hr hd
    obtain ⟨hl, hs⟩ := reach_lives hr
    have hsc := reach_score hr
    rw [hd] at hsc
    have hl0 : s.lives = 0 := by rw [hl]; rfl
    have hsc0 : s.score = 0 := by rw [hsc]; rfl
    rcases hs with ⟨_, _, h3⟩ | ⟨h1, h2, _⟩ | ⟨_, _, h3⟩
    · omega
    · rw [hsc0] at h2
      exact ⟨h1, hl0, hsc0, h2⟩
    · omega

end BreakoutGame

namespace BreakoutGame

/-- Scenario C on an 800 by 600 board: six updates of three seconds each from a fresh running
session; the ball leaves through the bottom in the second, the fourth and the sixth, no
brick is hit, and the session ends as a loss with score 0. -/
theorem breakout_lives_and_loss_witness :
    ∃ s : BreakoutGame, Reach 800 600 3 s ∧ deadCount s.bricks = 0 ∧
      s.running = false ∧ s.lives = 0 ∧ s.score = 0 ∧ s.results = [⟨0, false⟩] := by
  have r0 : Reach 800 600 0 { new 800 600 [] 0 with running := true } := Reach.reset [] 0
  have r1 : Reach 800 600 0 (update { new 800 600 [] 0 with running := true } 3 0) := by
    have f : fallen (afterBricks { new 800 600 [] 0 with running := true } 3) = false := by
      decide!
    have h := Reach.update 3 0 r0 rfl
    rw [f] at h
    exact h
  have r2 : Reach 800 600 1
      (update (update { new 800 600 [] 0 with running := true } 3 0) 3 0) := by
    have f : fallen (afterBricks
        (update { new 800 600 [] 0 with running := true } 3 0) 3) = true := by decide!
    have h := Reach.update 3 0 r1 (by decide!)
    rw [f] at h
    exact h
  have r3 : Reach 800 600 1
      (update (update (update { new 800 600 [] 0 with running := true } 3 0) 3 0) 3 0) := by
    have f : fallen (afterBricks
        (update (update { new 800 600 [] 0 with running := true } 3 0) 3 0) 3) = false := by
      decide!
    have h := Reach.update 3 0 r2 (by decide!)
    rw [f] at h
    exact h
  have r4 : Reach 800 600 2
      (update (update (update (update { new 800 600 [] 0 with running := true } 3 0) 3 0)
        3 0) 3 0) := by
    have f : fallen (afterBricks
        (update (update (update { new 800 600 [] 0 with running := true } 3 0) 3 0) 3 0)
        3) = true := by decide!
    have h := Reach.update 3 0 r3 (by decide!)
    rw [f] at h
    exact h
  have r5 : Reach 800 600 2
      (update (update (update (update (update { new 800 600 [] 0 with running := true } 3 0)
        3 0) 3 0) 3 0) 3 0) := by
    have f : fallen (afterBricks
        (update (update (update (update { new 800 600 [] 0 with running := true } 3 0) 3 0)
          3 0) 3 0) 3) = false := by decide!
    have h := Reach.update 3 0 r4 (by decide!)
    rw [f] at h
    exact h
  have r6 : Reach 800 600 3
      (update (update (update (update (update (update
        { new 800 600 [] 0 with running := true } 3 0) 3 0) 3 0) 3 0) 3 0) 3 0) := by
    have f : fallen (afterBricks
        (update (update (update (update (update { new 800 600 [] 0 with running := true } 3 0)
          3 0) 3 0) 3 0) 3 0) 3) = true := by decide!
    have h := Reach.update 3 0 r5 (by decide!)
    rw [f] at h
    exact h
  have hd : deadCount (update (update (update (update (update (update
      { new 800 600 [] 0 with running := true } 3 0) 3 0) 3 0) 3 0) 3 0) 3 0).bricks = 0 := by
    decide!
  exact ⟨_, r6, hd, breakout_lives_and_loss.2.2.2.2 800 600 _ r6 hd⟩

end BreakoutGame

namespace BreakoutGame

/-- C13, as stated, fails on a 800 by 160 board with one brick and one life left: the ball
kills the last brick in the brick loop, so every brick is dead once the loop is over, and in
the same update it is below the board at the bottom test; the update emits the loss and
returns before the win test, so no win is reported. -/
theorem breakout_last_brick_on_last_life_is_a_loss :
    lastBrick.running = true ∧ lastBrick.lives = 1 ∧ lastBrick.results = [] ∧
    lastBrick.bricks.length = 50 ∧ deadCount lastBrick.bricks = 49 ∧
    (afterBricks lastBrick (1/25)).bricks.all (fun b => !b.alive) = true ∧
    fallen (afterBricks lastBrick (1/25)) = true ∧
    (update lastBrick (1/25) 0).running = false ∧
    (update lastBrick (1/25) 0).results = [⟨500, false⟩] := by
  decide!

/-- C13, amended: if every brick is dead once `update(dt)` has run the brick loop, the update
ends the session as a win, whatever the lives and wherever the ball, unless the ball is below
the board at the bottom test (`ball.y - r > h`) and that costs the last life
(`lives - 1 <= 0`): then the update ends the session as a loss and reports no win. -/
theorem breakout_all_dead_wins_unless_lost (s : BreakoutGame) (dt r : ℚ)
    (hall : (afterBricks s dt).bricks.all (fun b => !b.alive) = true) :
    (¬ (fallen (afterBricks s dt) = true ∧ s.lives - 1 ≤ 0) →
      (update s dt r = endGame (afterBricks s dt) true ∨
        update s dt r = endGame (respawn (afterBricks s dt) r) true) ∧
      (update s dt r).running = false ∧
      (update s dt r).results = s.results ++ [⟨(update s dt r).score, true⟩]) ∧
    (fallen (afterBricks s dt) = true ∧ s.lives - 1 ≤ 0 →
      update s dt r = endGame { afterBricks s dt with lives := s.lives - 1 } false ∧
      (update s dt r).running = false ∧
      (update s dt r).results = s.results ++ [⟨(update s dt r).score, false⟩]) := by
  rcases update_outcome s dt r with ⟨hf, _, ue, _, u2, u3⟩ | ⟨_, ha, _⟩ |
    ⟨hf, hle, ue, _, u2, u3⟩ | ⟨hf, hle, _, ue, _, u2, u3⟩ | ⟨_, _, ha, _⟩
  · refine ⟨fun _ => ⟨Or.inl ue, u2, u3⟩, fun e => ?_⟩
    rw [hf] at e
    exact absurd e.1 (by decide)
  · rw [hall] at ha
    exact absurd ha (by decide)
  · exact ⟨fun e => absurd ⟨hf, hle⟩ e, fun _ => ⟨ue, u2, u3⟩⟩
  · exact ⟨fun _ => ⟨Or.inr ue, u2, u3⟩, fun e => absurd e.2 hle⟩
  · rw [hall] at ha
    exact absurd ha (by decide)

/-- The same board as in the counterexample, with two lives left: the last brick is killed
while the ball leaves through the bottom; a life is lost, the ball is put back and the
update ends the session as a win with score 500. -/
theorem breakout_all_dead_wins_unless_lost_witness :
    (afterBricks { lastBrick with lives := 2 } (1/25)).bricks.all (fun b => !b.alive) = true ∧
    fallen (afterBricks { lastBrick with lives := 2 } (1/25)) = true ∧
    (update { lastBrick with lives := 2 } (1/25) 0).score = 500 ∧
    (update { lastBrick with lives := 2 } (1/25) 0).running = false ∧
    (update { lastBrick with lives := 2 } (1/25) 0).results =
      ({ lastBrick with lives := 2 } : BreakoutGame).results ++
        [⟨(update { lastBrick with lives := 2 } (1/25) 0).score, true⟩] :=
  ⟨by decide!, by decide!, by decide!,
    ((breakout_all_dead_wins_unless_lost { lastBrick with lives := 2 } (1/25) 0
      (by decide!)).1 (by decide!)).2⟩

end BreakoutGame

/-! ## The ball and the walls -/

noncomputable section

namespace PongGame

/-- The two wall statements of `update`: when the top one fires the ball is put on the top
wall, when the bottom one fires it is put on the bottom wall, and on a board at least as
high as the ball at most one of them fires. -/
theorem moveBall_walls (s : PongGame) (dt : ℝ) (h2 : 2 * s.ball.r ≤ s.h) :
    (moveBall s dt).ball.r = s.ball.r ∧
    (s.ball.y + s.ball.vy * dt - s.ball.r < 0 →
      (moveBall s dt).ball.y = s.ball.r ∧ (moveBall s dt).ball.vy = s.ball.vy * -1) ∧
    ((if s.ball.y + s.ball.vy * dt - s.ball.r < 0 then s.ball.r
        else s.ball.y + s.ball.vy * dt) + s.ball.r > s.h →
      ¬ (s.ball.y + s.ball.vy * dt - s.ball.r < 0) ∧
      (moveBall s dt).ball.y = s.h - s.ball.r ∧ (moveBall s dt).ball.vy = s.ball.vy * -1) ∧
    (¬ (s.ball.y + s.ball.vy * dt - s.ball.r < 0) →
      ¬ (s.ball.y + s.ball.vy * dt + s.ball.r > s.h) →
      (moveBall s dt).ball.y = s.ball.y + s.ball.vy * dt ∧
      (moveBall s dt).ball.vy = s.ball.vy) := by
  by_cases ht : s.ball.y + s.ball.vy * dt - s.ball.r < 0
  · have hb : ¬ (s.ball.r + s.ball.r > s.h) := by linarith
    have e : (moveBall s dt).ball =
        { s.ball with
          x := s.ball.x + s.ball.vx * dt, y := s.ball.r, vy := s.ball.vy * -1 } := by
      unfold moveBall
      dsimp only
      rw [if_pos ht]
      dsimp only
      rw [if_neg hb]
    rw [e, if_pos ht]
    exact ⟨rfl, fun _ => ⟨rfl, rfl⟩, fun h => absurd h hb, fun h => absurd ht h⟩
  · rw [if_neg ht]
    by_cases hb : s.ball.y + s.ball.vy * dt + s.ball.r > s.h
    · have e : (moveBall s dt).ball =
          { s.ball with
            x := s.ball.x + s.ball.vx * dt, y := s.h - s.ball.r, vy := s.ball.vy * -1 } := by
        unfold moveBall
        dsimp only
        rw [if_neg ht]
        dsimp only
        rw [if_pos hb]
      rw [e]
      exact ⟨rfl, fun h => absurd h ht, fun _ => ⟨ht, rfl, rfl⟩, fun _ h => absurd hb h⟩
    · have e : (moveBall s dt).ball =
          { s.ball with
            x := s.ball.x + s.ball.vx * dt, y := s.ball.y + s.ball.vy * dt } := by
        unfold moveBall
        dsimp only
        rw [if_neg ht]
        dsimp only
        rw [if_neg hb]
      rw [e]
      exact ⟨rfl, fun h => absurd h ht, fun h => absurd h hb, fun _ _ => ⟨rfl, rfl⟩⟩

/-- After the wall statements the ball is between the two walls. -/
theorem moveBall_between (s : PongGame) (dt : ℝ) (h2 : 2 * s.ball.r ≤ s.h) :
    s.ball.r ≤ (moveBall s dt).ball.y ∧ (moveBall s dt).ball.y ≤ s.h - s.ball.r := by
  obtain ⟨_, ht, hb, hn⟩ := moveBall_walls s dt h2
  by_cases c1 : s.ball.y + s.ball.vy * dt - s.ball.r < 0
  · rw [(ht c1).1]
    constructor <;> linarith
  · by_cases c2 : s.ball.y + s.ball.vy * dt + s.ball.r > s.h
    · rw [(hb (by rw [if_neg c1]; exact c2)).2.1]
      constructor <;> linarith
    · rw [(hn c1 c2).1]
      constructor <;> linarith

/-- A paddle statement of `update` leaves the ball at its height or serves it from the
middle of the board. -/
theorem sides_height (m : PongGame) (ra rb : ℝ) :
    ((playerSide m ra).h = m.h ∧ (playerSide m ra).ball.r = m.ball.r ∧
      ((playerSide m ra).ball.y = m.ball.y ∨ (playerSide m ra).ball.y = m.h / 2)) ∧
    ((aiSide m rb).h = m.h ∧ (aiSide m rb).ball.r = m.ball.r ∧
      ((aiSide m rb).ball.y = m.ball.y ∨ (aiSide m rb).ball.y = m.h / 2)) := by
  constructor
  · unfold playerSide
    split_ifs
    · exact ⟨rfl, rfl, Or.inl rfl⟩
    · exact ⟨rfl, rfl, Or.inr rfl⟩
    · exact ⟨rfl, rfl, Or.inl rfl⟩
  · unfold aiSide
    split_ifs
    · exact ⟨rfl, rfl, Or.inl rfl⟩
    · exact ⟨rfl, rfl, Or.inr rfl⟩
    · exact ⟨rfl, rfl, Or.inl rfl⟩

/-- After `update(dt)` the ball is between the top and the bottom wall, on any board at
least as high as the ball. -/
theorem update_between (s : PongGame) (dt ra rb : ℝ) (h2 : 2 * s.ball.r ≤ s.h) :
    (update s dt ra rb).ball.r = s.ball.r ∧
    s.ball.r ≤ (update s dt ra rb).ball.y ∧ (update s dt ra rb).ball.y ≤ s.h - s.ball.r := by
  have hb : (movePaddles s dt).ball = s.ball := (movePaddles_frame s dt).2.2.2
  have hh : (movePaddles s dt).h = s.h := (movePaddles_wh s dt).2
  have h2' : 2 * (movePaddles s dt).ball.r ≤ (movePaddles s dt).h := by rw [hb, hh]; exact h2
  obtain ⟨m1, m2⟩ := moveBall_between (movePaddles s dt) dt h2'
  have mr := (moveBall_walls (movePaddles s dt) dt h2').1
  have mh := (moveBall_wh (movePaddles s dt) dt).2
  rw [hb] at m1 mr
  rw [hh] at m2 mh
  rw [hb] at m2
  obtain ⟨p1, p2, p3⟩ := (sides_height (moveBall (movePaddles s dt) dt) ra rb).1
  obtain ⟨a1, a2, a3⟩ :=
    (sides_height (playerSide (moveBall (movePaddles s dt) dt) ra) ra rb).2
  rw [(update_ball s dt ra rb).1, a2, p2, mr]
  refine ⟨rfl, ?_⟩
  rcases a3 with a3 | a3 <;> rw [a3]
  · rcases p3 with p3 | p3 <;> rw [p3]
    · exact ⟨m1, m2⟩
    · rw [mh]
      constructor <;> linarith
  · rw [p1, mh]
    constructor <;> linarith

/-- In a reachable state the ball is between the top and the bottom wall, if the board is
at least 16 high. -/
theorem reach_between {w h : Nat} {s : PongGame} (hr : Reach w h s) (hh : 16 ≤ h) :
    8 ≤ s.ball.y ∧ s.ball.y ≤ (h : ℝ) - 8 := by
  have hh' : (16 : ℝ) ≤ h := by exact_mod_cast hh
  induction hr with
  | reset store r1 r2 =>
    show (8 : ℝ) ≤ (h : ℝ) / 2 ∧ (h : ℝ) / 2 ≤ (h : ℝ) - 8
    constructor <;> linarith
  | @key s k d hs ih =>
    have e : (_onKey s k d).ball = s.ball := by
      unfold _onKey
      dsimp only
      split_ifs <;> rfl
    rw [e]
    exact ih
  | @update s dt ra rb hs _ ih =>
    obtain ⟨_, g2, _, _, _, _, g7, _⟩ := reach_geometry hs
    have h2 : 2 * s.ball.r ≤ s.h := by rw [g7, g2]; linarith
    obtain ⟨_, u2, u3⟩ := update_between s dt ra rb h2
    rw [g7] at u2
    rw [g7, g2] at u3
    exact ⟨u2, u3⟩

end PongGame

end

namespace BreakoutGame

/-- The left and right wall statements of `update`: when one fires the ball is put on that
wall and `vx` is negated, and on a board at least as wide as the ball at most one fires. -/
theorem walls_sides (s : BreakoutGame) (h2 : 2 * s.ball.r ≤ s.w) :
    (s.ball.x - s.ball.r < 0 →
      (walls s).ball.x = s.ball.r ∧ (walls s).ball.vx = s.ball.vx * -1) ∧
    ((if s.ball.x - s.ball.r < 0 then s.ball.r else s.ball.x) + s.ball.r > s.w →
      ¬ (s.ball.x - s.ball.r < 0) ∧
      (walls s).ball.x = s.w - s.ball.r ∧ (walls s).ball.vx = s.ball.vx * -1) ∧
    (¬ (s.ball.x - s.ball.r < 0) → ¬ (s.ball.x + s.ball.r > s.w) →
      (walls s).ball.x = s.ball.x ∧ (walls s).ball.vx = s.ball.vx) := by
  by_cases hl : s.ball.x - s.ball.r < 0
  · have hr : ¬ (s.ball.r + s.ball.r > s.w) := by linarith
    have e : (walls s).ball.x = s.ball.r ∧ (walls s).ball.vx = s.ball.vx * -1 := by
      unfold walls
      dsimp only
      rw [if_pos hl]
      dsimp only
      rw [if_neg hr]
      split_ifs <;> exact ⟨rfl, rfl⟩
    rw [if_pos hl]
    exact ⟨fun _ => e, fun h => absurd h hr, fun h => absurd hl h⟩
  · rw [if_neg hl]
    by_cases hr : s.ball.x + s.ball.r > s.w
    · have e : (walls s).ball.x = s.w - s.ball.r ∧ (walls s).ball.vx = s.ball.vx * -1 := by
        unfold walls
        dsimp only
        rw [if_neg hl, if_pos hr]
        split_ifs <;> exact ⟨rfl, rfl⟩
      exact ⟨fun h => absurd h hl, fun _ => ⟨hl, e⟩, fun _ h => absurd hr h⟩
    · have e : (walls s).ball.x = s.ball.x ∧ (walls s).ball.vx = s.ball.vx := by
        unfold walls
        dsimp only
        rw [if_neg hl, if_neg hr]
        split_ifs <;> exact ⟨rfl, rfl⟩
      exact ⟨fun h => absurd h hl, fun h => absurd h hr, fun _ _ => e⟩

/-- The top wall statement of `update`: when it fires the ball is put on the top wall and
`vy` is negated. -/
theorem walls_top (s : BreakoutGame) :
    (s.ball.y - s.ball.r < 0 →
      (walls s).ball.y = s.ball.r ∧ (walls s).ball.vy = s.ball.vy * -1) ∧
    (¬ (s.ball.y - s.ball.r < 0) →
      (walls s).ball.y = s.ball.y ∧ (walls s).ball.vy = s.ball.vy) := by
  have hy : ∀ q : BreakoutGame, q.ball.y = s.ball.y → q.ball.r = s.ball.r →
      q.ball.vy = s.ball.vy → ∀ t : BreakoutGame,
      t = (if q.ball.y - q.ball.r < 0
          then { q with ball := { q.ball with y := q.ball.r, vy := q.ball.vy * -1 } }
          else q) →
      (s.ball.y - s.ball.r < 0 → t.ball.y = s.ball.r ∧ t.ball.vy = s.ball.vy * -1) ∧
      (¬ (s.ball.y - s.ball.r < 0) → t.ball.y = s.ball.y ∧ t.ball.vy = s.ball.vy) := by
    intro q e1 e2 e3 t et
    by_cases c : q.ball.y - q.ball.r < 0
    · have c' : s.ball.y - s.ball.r < 0 := by rw [← e1, ← e2]; exact c
      rw [if_pos c] at et
      rw [et]
      refine ⟨fun _ => ⟨e2, ?_⟩, fun h => absurd c' h⟩
      show q.ball.vy * -1 = _
      rw [e3]
    · have c' : ¬ (s.ball.y - s.ball.r < 0) := by rw [← e1, ← e2]; exact c
      rw [if_neg c] at et
      rw [et]
      exact ⟨fun h => absurd h c', fun _ => ⟨e1, e3⟩⟩
  refine hy _ ?_ ?_ ?_ (walls s) rfl <;> split_ifs <;> rfl

/-- After the wall statements the ball is between the side walls and below the top wall. -/
theorem walls_between (s : BreakoutGame) (h2 : 2 * s.ball.r ≤ s.w) :
    s.ball.r ≤ (walls s).ball.x ∧ (walls s).ball.x ≤ s.w - s.ball.r ∧
    s.ball.r ≤ (walls s).ball.y := by
  obtain ⟨sl, sr, sn⟩ := walls_sides s h2
  obtain ⟨tt, tn⟩ := walls_top s
  have hx : s.ball.r ≤ (walls s).ball.x ∧ (walls s).ball.x ≤ s.w - s.ball.r := by
    by_cases c1 : s.ball.x - s.ball.r < 0
    · rw [(sl c1).1]
      constructor <;> linarith
    · by_cases c2 : s.ball.x + s.ball.r > s.w
      · rw [(sr (by rw [if_neg c1]; exact c2)).2.1]
        constructor <;> linarith
      · rw [(sn c1 c2).1]
        constructor <;> linarith
  refine ⟨hx.1, hx.2, ?_⟩
  by_cases c : s.ball.y - s.ball.r < 0
  · rw [(tt c).1]
  · rw [(tn c).1]
    linarith

end BreakoutGame

namespace BreakoutGame

/-- The paddle statement of `update` leaves the ball at its height or puts it just above
the paddle. -/
theorem paddleHit_height (s : BreakoutGame) :
    (paddleHit s).ball.y = s.ball.y ∨ (paddleHit s).ball.y = s.paddle.y - s.ball.r - 1 := by
  unfold paddleHit
  split_ifs
  · exact Or.inr rfl
  · exact Or.inl rfl

/-- The statements after the brick loop keep the board and leave the ball where it is or
put it back at the start position. -/
theorem settle_board (p : BreakoutGame) (r : ℚ) :
    (settle p r).w = p.w ∧ (settle p r).h = p.h ∧ (settle p r).paddle.w = p.paddle.w ∧
    (settle p r).paddle.y = p.paddle.y ∧ (settle p r).ball.r = p.ball.r ∧
    (((settle p r).ball.x = p.ball.x ∧ (settle p r).ball.y = p.ball.y) ∨
      ((settle p r).ball.x = p.w / 2 ∧ (settle p r).ball.y = p.h - 60)) := by
  rcases settle_cases p r with ⟨_, _, e⟩ | ⟨_, _, e⟩ | ⟨_, _, e⟩ | ⟨_, _, _, e⟩ |
    ⟨_, _, _, e⟩ <;> rw [e]
  · obtain ⟨e1, e2, e3, e4, _⟩ := endGame_keeps_board p true
    rw [e1, e2, e3, e4]
    exact ⟨rfl, rfl, rfl, rfl, rfl, Or.inl ⟨rfl, rfl⟩⟩
  · exact ⟨rfl, rfl, rfl, rfl, rfl, Or.inl ⟨rfl, rfl⟩⟩
  · obtain ⟨e1, e2, e3, e4, _⟩ := endGame_keeps_board { p with lives := p.lives - 1 } false
    rw [e1, e2, e3, e4]
    exact ⟨rfl, rfl, rfl, rfl, rfl, Or.inl ⟨rfl, rfl⟩⟩
  · obtain ⟨e1, e2, e3, e4, _⟩ := endGame_keeps_board (respawn p r) true
    rw [e1, e2, e3, e4]
    exact ⟨rfl, rfl, rfl, rfl, rfl, Or.inr ⟨rfl, rfl⟩⟩
  · exact ⟨rfl, rfl, rfl, rfl, rfl, Or.inr ⟨rfl, rfl⟩⟩

/-- The board constants and the ball after `update(dt)`, from the ball after the wall
statements. -/
theorem update_board (s : BreakoutGame) (dt r : ℚ) :
    (update s dt r).w = s.w ∧ (update s dt r).h = s.h ∧
    (update s dt r).paddle.w = s.paddle.w ∧ (update s dt r).paddle.y = s.paddle.y ∧
    (update s dt r).ball.r = s.ball.r ∧
    ((update s dt r).ball.x = (walls (moveBall (movePaddle s dt) dt)).ball.x ∨
      (update s dt r).ball.x = s.w / 2) ∧
    ((update s dt r).ball.y = (walls (moveBall (movePaddle s dt) dt)).ball.y ∨
      (update s dt r).ball.y = s.paddle.y - s.ball.r - 1 ∨
      (update s dt r).ball.y = s.h - 60) := by
  have hu : update s dt r = settle (afterBricks s dt) r := rfl
  obtain ⟨a1, a2, a3, a4, _⟩ := afterBricks_keeps s dt
  obtain ⟨_, _, m3, m4, _⟩ := movePaddle_keeps s dt
  obtain ⟨s1, s2, s3, s4, s5, s6⟩ := settle_board (afterBricks s dt) r
  obtain ⟨_, _, w3, w4, _⟩ := walls_keeps (moveBall (movePaddle s dt) dt)
  have hax : (afterBricks s dt).ball.x = (walls (moveBall (movePaddle s dt) dt)).ball.x :=
    (paddleHit_keeps (walls (moveBall (movePaddle s dt) dt))).2.2.2.2.2.2.2.2.2
  have hay : (afterBricks s dt).ball.y =
      (paddleHit (walls (moveBall (movePaddle s dt) dt))).ball.y := rfl
  have hpy := paddleHit_height (walls (moveBall (movePaddle s dt) dt))
  have hwp : (walls (moveBall (movePaddle s dt) dt)).paddle.y = s.paddle.y := by
    rw [w3]
    show (movePaddle s dt).paddle.y = _
    rw [m4]
  have hwr : (walls (moveBall (movePaddle s dt) dt)).ball.r = s.ball.r := by
    rw [w4]
    show (movePaddle s dt).ball.r = _
    rw [(movePaddle_keeps s dt).2.2.2.2.1]
  rw [hwp, hwr] at hpy
  rw [hu, s1, s2, s3, s4, s5, a1, a2, a3, a4, m3, m4]
  refine ⟨rfl, rfl, rfl, rfl, rfl, ?_, ?_⟩
  · rcases s6 with ⟨x1, _⟩ | ⟨x1, _⟩
    · exact Or.inl (x1.trans hax)
    · exact Or.inr (x1.trans (by rw [a1]))
  · rcases s6 with ⟨_, y1⟩ | ⟨_, y1⟩
    · rcases hpy with y2 | y2
      · exact Or.inl (y1.trans (hay.trans y2))
      · exact Or.inr (Or.inl (y1.trans (hay.trans y2)))
    · exact Or.inr (Or.inr (y1.trans (by rw [a2])))

/-- After `update(dt)` the ball is between the side walls and below the top wall, when the
board is at least as wide as the ball and the heights just above the paddle and of the
start position are below the top wall. -/
theorem update_on_board (s : BreakoutGame) (dt r : ℚ) (h2 : 2 * s.ball.r ≤ s.w)
    (hp : s.ball.r ≤ s.paddle.y - s.ball.r - 1) (hs : s.ball.r ≤ s.h - 60) :
    s.ball.r ≤ (update s dt r).ball.x ∧ (update s dt r).ball.x ≤ s.w - s.ball.r ∧
    s.ball.r ≤ (update s dt r).ball.y := by
  obtain ⟨_, _, _, _, _, ux, uy⟩ := update_board s dt r
  have hmr : (moveBall (movePaddle s dt) dt).ball.r = s.ball.r := by
    show (movePaddle s dt).ball.r = _
    rw [(movePaddle_keeps s dt).2.2.2.2.1]
  have hmw : (moveBall (movePaddle s dt) dt).w = s.w := (movePaddle_keeps s dt).1
  obtain ⟨b1, b2, b3⟩ := walls_between (moveBall (movePaddle s dt) dt)
    (by rw [hmr, hmw]; exact h2)
  rw [hmr] at b1 b3
  rw [hmr, hmw] at b2
  refine ⟨?_, ?_, ?_⟩
  · rcases ux with e | e <;> rw [e]
    · exact b1
    · linarith
  · rcases ux with e | e <;> rw [e]
    · exact b2
    · linarith
  · rcases uy with e | e | e <;> rw [e]
    · exact b3
    · exact hp
    · exact hs

/-- In a state reachable on a board at least 16 wide and 68 high the board constants are
those of `reset()` and the ball is between the side walls and below the top wall. -/
theorem reach_on_board {w h k : Nat} {s : BreakoutGame} (hreach : Reach w h k s)
    (hw : 16 ≤ w) (hh : 68 ≤ h) :
    Geometry w h s ∧ 8 ≤ s.ball.x ∧ s.ball.x ≤ (w : ℚ) - 8 ∧ 8 ≤ s.ball.y := by
  have hw' : (16 : ℚ) ≤ w := by exact_mod_cast hw
  have hh' : (68 : ℚ) ≤ h := by exact_mod_cast hh
  induction hreach with
  | reset store r =>
    refine ⟨⟨rfl, rfl, rfl, rfl, rfl⟩, ?_, ?_, ?_⟩
    · show (8 : ℚ) ≤ (w : ℚ) / 2
      linarith
    · show (w : ℚ) / 2 ≤ (w : ℚ) - 8
      linarith
    · show (8 : ℚ) ≤ (h : ℚ) - 60
      linarith
  | @key k s c down _ ih =>
    obtain ⟨⟨g1, g2, g3, g4, g5⟩, i1, i2, i3⟩ := ih
    obtain ⟨_, _, _, _, _, e6, e7, e8, e9⟩ := (inputs_keep s).1 c down
    unfold Geometry
    rw [e6, e7, e8, e9]
    exact ⟨⟨g1, g2, g3, g4, g5⟩, i1, i2, i3⟩
  | @mouse k s t clientX left width _ hm ih =>
    obtain ⟨⟨g1, g2, g3, g4, g5⟩, i1, i2, i3⟩ := ih
    obtain ⟨_, _, _, _, _, e6, e7, e8, e9, e10⟩ := (inputs_keep s).2 clientX left width t hm
    unfold Geometry
    rw [e6, e7, e8, e9, e10]
    exact ⟨⟨g1, g2, g3, g4, g5⟩, i1, i2, i3⟩
  | @update k s dt r _ _ ih =>
    obtain ⟨⟨g1, g2, g3, g4, g5⟩, _⟩ := ih
    obtain ⟨u1, u2, u3, u4, u5, _⟩ := update_board s dt r
    obtain ⟨b1, b2, b3⟩ := update_on_board s dt r (by rw [g5, g1]; linarith)
      (by rw [g5, g4]; linarith) (by rw [g5, g2]; linarith)
    rw [g5] at b1 b3
    rw [g5, g1] at b2
    unfold Geometry
    rw [u1, u2, u3, u4, u5]
    exact ⟨⟨g1, g2, g3, g4, g5⟩, b1, b2, b3⟩

end BreakoutGame

/-- C19, as stated, fails for Breakout on a 800 by 50 board (`h >= 2r = 16`): the first
update of a fresh session, with `dt = 0.01`, puts the ball on the top wall and then, the
paddle being at height 10, just above the paddle, at height 1, which is less than the
radius 8. -/
theorem breakout_ball_above_top_wall_on_low_board :
    BreakoutGame.Reach 800 50 0 { BreakoutGame.new 800 50 [] 0 with running := true } ∧
    ({ BreakoutGame.new 800 50 [] 0 with running := true } : BreakoutGame).h = 50 ∧
    (BreakoutGame.update { BreakoutGame.new 800 50 [] 0 with running := true }
      (1/100) 0).ball.r = 8 ∧
    (BreakoutGame.update { BreakoutGame.new 800 50 [] 0 with running := true }
      (1/100) 0).ball.y = 1 ∧
    (BreakoutGame.update { BreakoutGame.new 800 50 [] 0 with running := true }
      (1/100) 0).ball.y <
      (BreakoutGame.update { BreakoutGame.new 800 50 [] 0 with running := true }
        (1/100) 0).ball.r :=
  ⟨BreakoutGame.Reach.reset [] 0, by decide!, by decide!, by decide!, by decide!⟩

/-- C19, amended: the Pong part holds as stated: on a board at least 16 high, in every
reachable state and for every `dt >= 0`, the ball has `8 <= ball.y <= h - 8` after
`update(dt)`, and when the top or the bottom wall statement fires the ball is put on that
wall with `vy` negated and pointing into the board. The Breakout part needs a board at
least 68 high (and 16 wide): then in every reachable state and for every `dt >= 0` the ball
has `8 <= ball.x <= w - 8` and `8 <= ball.y` after `update(dt)`, and when the left, right or
top wall statement fires the ball is put on that wall with the velocity component negated
and pointing into the board. -/
theorem ball_stays_between_walls :
    (∀ (w h : Nat) (s : PongGame) (dt ra rb : ℝ), PongGame.Reach w h s → 16 ≤ h → 0 ≤ dt →
      ((PongGame.update s dt ra rb).ball.r = 8 ∧
        8 ≤ (PongGame.update s dt ra rb).ball.y ∧
        (PongGame.update s dt ra rb).ball.y ≤ (h : ℝ) - 8) ∧
      (s.ball.y + s.ball.vy * dt - s.ball.r < 0 →
        (PongGame.moveBall (PongGame.movePaddles s dt) dt).ball.y = 8 ∧
        (PongGame.moveBall (PongGame.movePaddles s dt) dt).ball.vy = s.ball.vy * -1 ∧
        0 < (PongGame.moveBall (PongGame.movePaddles s dt) dt).ball.vy) ∧
      ((if s.ball.y + s.ball.vy * dt - s.ball.r < 0 then s.ball.r
          else s.ball.y + s.ball.vy * dt) + s.ball.r > s.h →
        (PongGame.moveBall (PongGame.movePaddles s dt) dt).ball.y = (h : ℝ) - 8 ∧
        (PongGame.moveBall (PongGame.movePaddles s dt) dt).ball.vy = s.ball.vy * -1 ∧
        (PongGame.moveBall (PongGame.movePaddles s dt) dt).ball.vy < 0)) ∧
    (∀ (w h k : Nat) (s : BreakoutGame) (dt r : ℚ), BreakoutGame.Reach w h k s →
      16 ≤ w → 68 ≤ h → 0 ≤ dt →
      ((BreakoutGame.update s dt r).ball.r = 8 ∧
        8 ≤ (BreakoutGame.update s dt r).ball.x ∧
        (BreakoutGame.update s dt r).ball.x ≤ (w : ℚ) - 8 ∧
        8 ≤ (BreakoutGame.update s dt r).ball.y) ∧
      (s.ball.x + s.ball.vx * dt - s.ball.r < 0 →
        (BreakoutGame.walls (BreakoutGame.moveBall
          (BreakoutGame.movePaddle s dt) dt)).ball.x = 8 ∧
        (BreakoutGame.walls (BreakoutGame.moveBall
          (BreakoutGame.movePaddle s dt) dt)).ball.vx = s.ball.vx * -1 ∧
        0 < (BreakoutGame.walls (BreakoutGame.moveBall
          (BreakoutGame.movePaddle s dt) dt)).ball.vx) ∧
      ((if s.ball.x + s.ball.vx * dt - s.ball.r < 0 then s.ball.r
          else s.ball.x + s.ball.vx * dt) + s.ball.r > s.w →
        (BreakoutGame.walls (BreakoutGame.moveBall
          (BreakoutGame.movePaddle s dt) dt)).ball.x = (w : ℚ) - 8 ∧
        (BreakoutGame.walls (BreakoutGame.moveBall
          (BreakoutGame.movePaddle s dt) dt)).ball.vx = s.ball.vx * -1 ∧
        (BreakoutGame.walls (BreakoutGame.moveBall
          (BreakoutGame.movePaddle s dt) dt)).ball.vx < 0) ∧
      (s.ball.y + s.ball.vy * dt - s.ball.r < 0 →
        (BreakoutGame.walls (BreakoutGame.moveBall
          (BreakoutGame.movePaddle s dt) dt)).ball.y = 8 ∧
        (BreakoutGame.walls (BreakoutGame.moveBall
          (BreakoutGame.movePaddle s dt) dt)).ball.vy = s.ball.vy * -1 ∧
        0 < (BreakoutGame.walls (BreakoutGame.moveBall
          (BreakoutGame.movePaddle s dt) dt)).ball.vy)) := by
  constructor
  · intro w h s dt ra rb hr hh hdt
    have hh' : (16 : ℝ) ≤ h := by exact_mod_cast hh
    obtain ⟨_, g2, _, _, _, _, g7, _⟩ := PongGame.reach_geometry hr
    obtain ⟨y1, y2⟩ := PongGame.reach_between hr hh
    have h2 : 2 * s.ball.r ≤ s.h := by rw [g7, g2]; linarith
    have hb : (PongGame.movePaddles s dt).ball = s.ball :=
      (PongGame.movePaddles_frame s dt).2.2.2
    have hmh : (PongGame.movePaddles s dt).h = s.h := (PongGame.movePaddles_wh s dt).2
    obtain ⟨u1, u2, u3⟩ := PongGame.update_between s dt ra rb h2
    obtain ⟨_, mt, mb, _⟩ := PongGame.moveBall_walls (PongGame.movePaddles s dt) dt
      (by rw [hb, hmh]; exact h2)
    rw [hb] at mt mb
    rw [hmh] at mb
    rw [g7] at u1 u2 u3 mt mb ⊢
    rw [g2] at u3 mb ⊢
    refine ⟨⟨u1, u2, u3⟩, fun c => ?_, fun c => ?_⟩
    · obtain ⟨e1, e2⟩ := mt c
      refine ⟨e1, e2, ?_⟩
      rw [e2]
      have hv : s.ball.vy < 0 := by
        by_contra hn
        have := mul_nonneg (le_of_not_lt hn) hdt
        linarith
      linarith
    · obtain ⟨c1, e1, e2⟩ := mb c
      rw [if_neg c1] at c
      refine ⟨e1, e2, ?_⟩
      rw [e2]
      have hv : 0 < s.ball.vy := by
        by_contra hn
        have := mul_nonpos_of_nonpos_of_nonneg (le_of_not_lt hn) hdt
        linarith
      linarith
  · intro w h k s dt r hr hw hh hdt
    have hw' : (16 : ℚ) ≤ w := by exact_mod_cast hw
    have hh' : (68 : ℚ) ≤ h := by exact_mod_cast hh
    obtain ⟨⟨g1, g2, g3, g4, g5⟩, x1, x2, y1⟩ := BreakoutGame.reach_on_board hr hw hh
    obtain ⟨b1, b2, b3⟩ := BreakoutGame.update_on_board s dt r (by rw [g5, g1]; linarith)
      (by rw [g5, g4]; linarith) (by rw [g5, g2]; linarith)
    have ur := (BreakoutGame.update_board s dt r).2.2.2.2.1
    have hmb : (BreakoutGame.moveBall (BreakoutGame.movePaddle s dt) dt).ball =
        { s.ball with x := s.ball.x + s.ball.vx * dt, y := s.ball.y + s.ball.vy * dt } := by
      show ({ (BreakoutGame.movePaddle s dt).ball with
        x := (BreakoutGame.movePaddle s dt).ball.x +
          (BreakoutGame.movePaddle s dt).ball.vx * dt,
        y := (BreakoutGame.movePaddle s dt).ball.y +
          (BreakoutGame.movePaddle s dt).ball.vy * dt } : BreakoutBall) = _
      rw [(BreakoutGame.movePaddle_keeps s dt).2.2.2.2.1]
    have hmw : (BreakoutGame.moveBall (BreakoutGame.movePaddle s dt) dt).w = s.w :=
      (BreakoutGame.movePaddle_keeps s dt).1
    obtain ⟨sl, sr, _⟩ := BreakoutGame.walls_sides
      (BreakoutGame.moveBall (BreakoutGame.movePaddle s dt) dt)
      (by rw [hmb, hmw]; show 2 * s.ball.r ≤ s.w; rw [g5, g1]; linarith)
    obtain ⟨tt, _⟩ := BreakoutGame.walls_top
      (BreakoutGame.moveBall (BreakoutGame.movePaddle s dt) dt)
    rw [hmb] at sl sr tt
    rw [hmw] at sr
    dsimp only at sl sr tt
    rw [g5] at b1 b2 b3 sl sr tt ⊢
    rw [g1] at b2 sr ⊢
    rw [ur, g5]
    refine ⟨⟨rfl, b1, b2, b3⟩, fun c => ?_, fun c => ?_, fun c => ?_⟩
    · obtain ⟨e1, e2⟩ := sl c
      refine ⟨e1, e2, ?_⟩
      rw [e2]
      have hv : s.ball.vx < 0 := by
        by_contra hn
        have := mul_nonneg (le_of_not_lt hn) hdt
        linarith
      linarith
    · obtain ⟨c1, e1, e2⟩ := sr c
      rw [if_neg c1] at c
      refine ⟨e1, e2, ?_⟩
      rw [e2]
      have hv : 0 < s.ball.vx := by
        by_contra hn
        have := mul_nonpos_of_nonpos_of_nonneg (le_of_not_lt hn) hdt
        linarith
      linarith
    · obtain ⟨e1, e2⟩ := tt c
      refine ⟨e1, e2, ?_⟩
      rw [e2]
      have hv : s.ball.vy < 0 := by
        by_contra hn
        have := mul_nonneg (le_of_not_lt hn) hdt
        linarith
      linarith

/-- Fresh sessions on an 800 by 600 board and an update of three seconds: the Pong ball,
served upwards, is put on the top wall and sent down; the Breakout ball, served to the left,
is put on the left wall and sent right, and after the update it is inside the walls. -/
theorem ball_stays_between_walls_witness :
    ((PongGame.moveBall (PongGame.movePaddles
        { PongGame.new 800 600 [] 0 0 with running := true } 3) 3).ball.y = 8 ∧
      (PongGame.moveBall (PongGame.movePaddles
        { PongGame.new 800 600 [] 0 0 with running := true } 3) 3).ball.vy =
        ({ PongGame.new 800 600 [] 0 0 with running := true } : PongGame).ball.vy * -1 ∧
      0 < (PongGame.moveBall (PongGame.movePaddles
        { PongGame.new 800 600 [] 0 0 with running := true } 3) 3).ball.vy) ∧
    ((BreakoutGame.update { BreakoutGame.new 800 600 [] 0 with running := true } 3 0).ball.r
        = 8 ∧
      8 ≤ (BreakoutGame.update
        { BreakoutGame.new 800 600 [] 0 with running := true } 3 0).ball.x ∧
      (BreakoutGame.update
        { BreakoutGame.new 800 600 [] 0 with running := true } 3 0).ball.x ≤
        ((800 : Nat) : ℚ) - 8 ∧
      8 ≤ (BreakoutGame.update
        { BreakoutGame.new 800 600 [] 0 with running := true } 3 0).ball.y) ∧
    ((BreakoutGame.walls (BreakoutGame.moveBall (BreakoutGame.movePaddle
        { BreakoutGame.new 800 600 [] 0 with running := true } 3) 3)).ball.x = 8 ∧
      (BreakoutGame.walls (BreakoutGame.moveBall (BreakoutGame.movePaddle
        { BreakoutGame.new 800 600 [] 0 with running := true } 3) 3)).ball.vx =
        ({ BreakoutGame.new 800 600 [] 0 with running := true } : BreakoutGame).ball.vx * -1 ∧
      0 < (BreakoutGame.walls (BreakoutGame.moveBall (BreakoutGame.movePaddle
        { BreakoutGame.new 800 600 [] 0 with running := true } 3) 3)).ball.vx) :=
  ⟨(ball_stays_between_walls.1 800 600 _ 3 0 0 (PongGame.Reach.reset [] 0 0) (by decide)
      (by norm_num)).2.1 (by norm_num [PongGame.new]),
    (ball_stays_between_walls.2 800 600 0 _ 3 0 (BreakoutGame.Reach.reset [] 0) (by decide)
      (by decide) (by norm_num)).1,
    (ball_stays_between_walls.2 800 600 0 _ 3 0 (BreakoutGame.Reach.reset [] 0) (by decide)
      (by decide) (by norm_num)).2.1 (by decide!)⟩


/-! ## Breakout: at most two bricks in one update -/

/-- In a list without repetition, a test that at most one value passes counts at most one. -/
theorem countP_le_one_of_unique {α : Type} (p : α → Bool) :
    ∀ l : List α, l.Nodup → (∀ a ∈ l, ∀ b ∈ l, p a = true → p b = true → a = b) →
      l.countP p ≤ 1
  | [], _, _ => by simp
  | a :: l, hn, hu => by
    have hn' := List.nodup_cons.1 hn
    have ih := countP_le_one_of_unique p l hn'.2
      (fun x hx y hy => hu x (List.mem_cons_of_mem _ hx) y (List.mem_cons_of_mem _ hy))
    by_cases ha : p a = true
    · have h0 : l.countP p = 0 := by
        rw [List.countP_eq_zero]
        intro b hb hpb
        have e := hu a (List.mem_cons_self _ _) b (List.mem_cons_of_mem _ hb) ha hpb
        exact hn'.1 (e ▸ hb)
      rw [List.countP_cons_of_pos _ _ ha, h0]
    · rw [List.countP_cons_of_neg _ _ ha]
      exact ih

/-- In a list without repetition, a test that only two given values can pass counts at most
two. -/
theorem countP_le_two_of_pair {α : Type} [DecidableEq α] (p : α → Bool) (u v : α)
    (l : List α) (hn : l.Nodup) (hp : ∀ a ∈ l, p a = true → a = u ∨ a = v) :
    l.countP p ≤ 2 := by
  have h1 : l.countP p ≤ l.countP (fun a => decide (a = u) || decide (a = v)) := by
    apply List.countP_mono_left
    intro a ha hpa
    rcases hp a ha hpa with e | e <;> simp [e]
  have h2 : ∀ m : List α, m.countP (fun a => decide (a = u) || decide (a = v)) ≤
      m.countP (fun a => decide (a = u)) + m.countP (fun a => decide (a = v)) := by
    intro m
    induction m with
    | nil => simp
    | cons a m ih =>
      by_cases hu : a = u <;> by_cases hv : a = v <;>
        simp [List.countP_cons, hu, hv] <;> omega
  have h3 : ∀ c : α, l.countP (fun a => decide (a = c)) ≤ 1 := by
    intro c
    apply countP_le_one_of_unique _ l hn
    intro a _ b _ ha hb
    rw [decide_eq_true_eq] at ha hb
    rw [ha, hb]
  have := h2 l
  have := h3 u
  have := h3 v
  omega

namespace BreakoutGame

/-- The bricks of `reset()`, row by row: the rows before the last one and the last row. -/
theorem layBricks_succ (n cols : Nat) (bw bh : ℚ) :
    layBricks (n + 1) cols bw bh = layBricks n cols bw bh ++
      (List.range cols).map (fun c : Nat =>
        ({ x := 30 + (c : ℚ) * (bw + 2), y := 40 + (n : ℚ) * (bh + 6),
           w := bw, h := bh, alive := true } : Brick)) := by
  unfold layBricks
  rw [List.range_succ, List.flatMap_append]
  simp [List.map_flatMap]
  exact (List.map_eq_flatMap _ _).symm

/-- Every brick of `reset()` is the brick of a row `r` and a column `c`. -/
theorem mem_layBricks {rows cols : Nat} {bw bh : ℚ} {b : Brick}
    (hb : b ∈ layBricks rows cols bw bh) :
    ∃ r c : Nat, r < rows ∧ c < cols ∧
      b = { x := 30 + (c : ℚ) * (bw + 2), y := 40 + (r : ℚ) * (bh + 6),
            w := bw, h := bh, alive := true } := by
  induction rows with
  | zero => simp [layBricks] at hb
  | succ n ih =>
    rw [layBricks_succ, List.mem_append] at hb
    rcases hb with hb | hb
    · obtain ⟨r, c, hr, hc, e⟩ := ih hb
      exact ⟨r, c, by omega, hc, e⟩
    · rw [List.mem_map] at hb
      obtain ⟨c, hc, e⟩ := hb
      exact ⟨n, c, by omega, List.mem_range.1 hc, e.symm⟩

/-- The columns are apart: a ball is over at most one of them. -/
theorem column_unique {x bw : ℚ} {c d : Nat}
    (hc : x > 30 + (c : ℚ) * (bw + 2) ∧ x < 30 + (c : ℚ) * (bw + 2) + bw)
    (hd : x > 30 + (d : ℚ) * (bw + 2) ∧ x < 30 + (d : ℚ) * (bw + 2) + bw) : c = d := by
  have hbw : 0 < bw := by linarith
  rcases Nat.lt_trichotomy c d with h | h | h
  · exfalso
    have h1 : (c : ℚ) + 1 ≤ d := by exact_mod_cast h
    nlinarith
  · exact h
  · exfalso
    have h1 : (d : ℚ) + 1 ≤ c := by exact_mod_cast h
    nlinarith

/-- In one row the ball overlaps at most one brick, and none if it is not at the height of
the row. -/
theorem row_count (ball : BreakoutBall) (n cols : Nat) (bw bh : ℚ) :
    ((List.range cols).map (fun c : Nat =>
        ({ x := 30 + (c : ℚ) * (bw + 2), y := 40 + (n : ℚ) * (bh + 6),
           w := bw, h := bh, alive := true } : Brick))).countP (overlaps ball) ≤
      if ball.y - ball.r < 40 + (n : ℚ) * (bh + 6) + bh ∧
          ball.y + ball.r > 40 + (n : ℚ) * (bh + 6)
        then 1 else 0 := by
  rw [List.countP_map]
  by_cases hy : ball.y - ball.r < 40 + (n : ℚ) * (bh + 6) + bh ∧
      ball.y + ball.r > 40 + (n : ℚ) * (bh + 6)
  · rw [if_pos hy]
    apply countP_le_one_of_unique _ _ (List.nodup_range cols)
    intro c _ d _ hc hd
    simp only [Function.comp, overlaps, Bool.and_eq_true, decide_eq_true_eq] at hc hd
    exact column_unique ⟨hc.1.1.1, hc.1.1.2⟩ ⟨hd.1.1.1, hd.1.1.2⟩
  · rw [if_neg hy]
    apply Nat.le_of_eq
    rw [List.countP_eq_zero]
    intro c _ hc
    simp only [Function.comp, overlaps, Bool.and_eq_true, decide_eq_true_eq] at hc
    exact hy ⟨hc.1.2, hc.2⟩

/-- The bricks of `reset()` that the ball overlaps are at most as many as the rows at whose
height the ball is. -/
theorem layout_count (ball : BreakoutBall) (cols : Nat) (bw bh : ℚ) (n : Nat) :
    (layBricks n cols bw bh).countP (overlaps ball) ≤
      (List.range n).countP (fun r : Nat =>
        decide (ball.y - ball.r < 40 + (r : ℚ) * (bh + 6) + bh ∧
          ball.y + ball.r > 40 + (r : ℚ) * (bh + 6))) := by
  induction n with
  | zero => simp [layBricks]
  | succ n ih =>
    rw [layBricks_succ, List.range_succ, List.countP_append, List.countP_append]
    have hr := row_count ball n cols bw bh
    have e : [n].countP (fun r : Nat =>
        decide (ball.y - ball.r < 40 + (r : ℚ) * (bh + 6) + bh ∧
          ball.y + ball.r > 40 + (r : ℚ) * (bh + 6))) =
        if ball.y - ball.r < 40 + (n : ℚ) * (bh + 6) + bh ∧
          ball.y + ball.r > 40 + (n : ℚ) * (bh + 6) then 1 else 0 := by
      simp [List.countP_cons]
    rw [e]
    omega

/-- A ball of radius 8 is at the height of at most two rows of height 20 that are 6 apart. -/
theorem rows_two (y : ℚ) (n : Nat) :
    (List.range n).countP (fun r : Nat =>
      decide (y - 8 < 40 + (r : ℚ) * (20 + 6) + 20 ∧ y + 8 > 40 + (r : ℚ) * (20 + 6))) ≤ 2 := by
  apply countP_le_two_of_pair _ (⌊(y - 68) / 26⌋ + 1).toNat (⌊(y - 68) / 26⌋ + 2).toNat _
    (List.nodup_range n)
  intro r _ hr
  rw [decide_eq_true_eq] at hr
  obtain ⟨h1, h2⟩ := hr
  have f1 : (⌊(y - 68) / 26⌋ : ℚ) ≤ (y - 68) / 26 := Int.floor_le _
  have f2 : (y - 68) / 26 < (⌊(y - 68) / 26⌋ : ℚ) + 1 := Int.lt_floor_add_one _
  have lo : (⌊(y - 68) / 26⌋ : ℚ) < (r : ℚ) := by linarith
  have hi : (r : ℚ) < (⌊(y - 68) / 26⌋ : ℚ) + 3 := by linarith
  have lo' : ⌊(y - 68) / 26⌋ < (r : ℤ) := by exact_mod_cast lo
  have hi' : (r : ℤ) < ⌊(y - 68) / 26⌋ + 3 := by exact_mod_cast hi
  omega

end BreakoutGame

namespace BreakoutGame

/-- A killed brick is an overlapped brick. -/
theorem kills_overlaps {ball : BreakoutBall} {b : Brick} (hk : kills ball b = true) :
    overlaps ball b = true := by
  unfold kills at hk
  simp only [Bool.and_eq_true] at hk
  exact hk.2

/-- With the bricks in the places of `reset()`, rows of height 20, and a ball of radius 8,
the brick loop kills at most two bricks. -/
theorem kills_count_le_two (ball : BreakoutBall) (bricks : List Brick) (rows cols : Nat)
    (bw : ℚ) (hr : ball.r = 8) (hlay : bricks.map unbroken = layBricks rows cols bw 20) :
    bricks.countP (kills ball) ≤ 2 := by
  have h1 : bricks.countP (kills ball) ≤ bricks.countP (overlaps ball) :=
    List.countP_mono_left (fun b _ hk => kills_overlaps hk)
  have h2 : bricks.countP (overlaps ball) = (bricks.map unbroken).countP (overlaps ball) := by
    rw [List.countP_map]
    rfl
  have h3 := layout_count ball cols bw 20 rows
  have h4 := rows_two ball.y rows
  rw [hr] at h3
  rw [hlay] at h2
  exact le_trans h1 (h2 ▸ le_trans h3 h4)

/-- With the bricks in the places of `reset()`, the bricks that the brick loop kills are in
one column. -/
theorem kills_same_column (ball : BreakoutBall) (bricks : List Brick) (rows cols : Nat)
    (bw bh : ℚ) (hlay : bricks.map unbroken = layBricks rows cols bw bh) :
    ∀ b ∈ bricks, ∀ b' ∈ bricks, kills ball b = true → kills ball b' = true →
      b.x = b'.x := by
  have hplace : ∀ b ∈ bricks, ∃ c : Nat, b.x = 30 + (c : ℚ) * (bw + 2) ∧ b.w = bw := by
    intro b hb
    have hm : unbroken b ∈ layBricks rows cols bw bh := hlay ▸ List.mem_map_of_mem unbroken hb
    obtain ⟨_, c, _, _, e⟩ := mem_layBricks hm
    exact ⟨c, congrArg Brick.x e, congrArg Brick.w e⟩
  intro b hb b' hb' hk hk'
  obtain ⟨c, ex, ew⟩ := hplace b hb
  obtain ⟨d, ex', ew'⟩ := hplace b' hb'
  have ho := kills_overlaps hk
  have ho' := kills_overlaps hk'
  simp only [overlaps, Bool.and_eq_true, decide_eq_true_eq] at ho ho'
  rw [ex, ew] at ho
  rw [ex', ew'] at ho'
  have hcd : c = d := column_unique ⟨ho.1.1.1, ho.1.1.2⟩ ⟨ho'.1.1.1, ho'.1.1.2⟩
  rw [ex, ex', hcd]

/-- In every reachable state the ball has radius 8 and the bricks are in the places where
`reset()` put them. -/
theorem reach_layout {w h k : Nat} {s : BreakoutGame} (hreach : Reach w h k s) :
    s.ball.r = 8 ∧
    s.bricks.map unbroken = layBricks 5 10 ((⌊((w : ℚ) - 60) / 10⌋ : ℤ) : ℚ) 20 := by
  induction hreach with
  | reset store r =>
    refine ⟨rfl, ?_⟩
    show (layBricks 5 10 _ 20).map unbroken = layBricks 5 10 _ 20
    rw [List.map_congr_left, List.map_id]
    intro b hb
    obtain ⟨_, _, _, _, e⟩ := mem_layBricks hb
    rw [e]
    rfl
  | key c down _ ih =>
    obtain ⟨e1, _, _, _, _, e6, _⟩ := (inputs_keep _).1 c down
    rw [e1, e6]
    exact ih
  | mouse clientX left width _ hm ih =>
    obtain ⟨e1, _, _, _, _, e6, _⟩ := (inputs_keep _).2 clientX left width _ hm
    rw [e1, e6]
    exact ih
  | @update k s dt r _ _ ih =>
    obtain ⟨u1, _⟩ := update_bricks s dt r
    rw [(update_board s dt r).2.2.2.2.1, u1, List.map_map]
    refine ⟨ih.1, ?_⟩
    rw [← ih.2]
    apply List.map_congr_left
    intro b _
    show unbroken (if kills (beforeBricks s dt).ball b then { b with alive := false } else b) = _
    split_ifs <;> rfl

/-- C21: in every state reachable from `reset()` the bricks are in the places where
`reset()` put them (10 columns of width `brickW = floor((w - 60) / 10)` that are 2 apart, 5
rows of height 20 that are 6 apart) and the ball has radius 8; then an `update(dt)` kills at
most two bricks, and the bricks it kills are in one column. When it kills exactly two, `vy`
after the brick loop is `vy` before it and the score has gone up by 20. -/
theorem breakout_at_most_two_bricks {w h k : Nat} {s : BreakoutGame}
    (hreach : Reach w h k s) (dt r : ℚ) :
    s.ball.r = 8 ∧
    s.bricks.map unbroken = layBricks 5 10 ((⌊((w : ℚ) - 60) / 10⌋ : ℤ) : ℚ) 20 ∧
    s.bricks.countP (kills (beforeBricks s dt).ball) ≤ 2 ∧
    deadCount (update s dt r).bricks ≤ deadCount s.bricks + 2 ∧
    (∀ b ∈ s.bricks, ∀ b' ∈ s.bricks, kills (beforeBricks s dt).ball b = true →
      kills (beforeBricks s dt).ball b' = true → b.x = b'.x) ∧
    (s.bricks.countP (kills (beforeBricks s dt).ball) = 2 →
      (afterBricks s dt).ball.vy = (beforeBricks s dt).ball.vy ∧
      (update s dt r).score = s.score + 20 ∧
      deadCount (update s dt r).bricks = deadCount s.bricks + 2) := by
  obtain ⟨hr, hlay⟩ := reach_layout hreach
  have hbr : (beforeBricks s dt).ball.r = 8 := by
    have e : (afterBricks s dt).ball.r = (beforeBricks s dt).ball.r := rfl
    rw [← e, (afterBricks_keeps s dt).2.2.2.1, hr]
  have hc := kills_count_le_two (beforeBricks s dt).ball s.bricks 5 10 _ hbr hlay
  obtain ⟨u1, u2⟩ := update_bricks s dt r
  have hd : deadCount (update s dt r).bricks =
      deadCount s.bricks + s.bricks.countP (kills (beforeBricks s dt).ball) := by
    rw [u1, deadCount_after]
  refine ⟨hr, hlay, hc, by omega,
    kills_same_column (beforeBricks s dt).ball s.bricks 5 10 _ 20 hlay, fun h2 => ?_⟩
  refine ⟨?_, ?_, by omega⟩
  · obtain ⟨_, _, h3⟩ := hitBricks_spec (beforeBricks s dt).ball (beforeBricks s dt).bricks
      (beforeBricks s dt).ball.vy (beforeBricks s dt).score
    show (hitBricks _ _ _ _).1 = _
    rw [h3, (beforeBricks_keeps s dt).1, h2]
    ring
  · rw [u2, h2]
    rfl

/-- A fresh session on an 800 by 600 board and an update of 20/13 seconds: the ball is at
height 140 over the first column, between the two lowest rows; it kills the two bricks,
`vy` stays -260 and the score is 20. -/
theorem breakout_at_most_two_bricks_witness :
    ({ new 800 600 [] 0 with running := true } : BreakoutGame).bricks.countP
      (kills (beforeBricks { new 800 600 [] 0 with running := true } (20/13)).ball) = 2 ∧
    (beforeBricks { new 800 600 [] 0 with running := true } (20/13)).ball.vy = -260 ∧
    (afterBricks { new 800 600 [] 0 with running := true } (20/13)).ball.vy =
      (beforeBricks { new 800 600 [] 0 with running := true } (20/13)).ball.vy ∧
    (update { new 800 600 [] 0 with running := true } (20/13) 0).score =
      ({ new 800 600 [] 0 with running := true } : BreakoutGame).score + 20 ∧
    deadCount (update { new 800 600 [] 0 with running := true } (20/13) 0).bricks =
      deadCount ({ new 800 600 [] 0 with running := true } : BreakoutGame).bricks + 2 :=
  ⟨by decide!, by decide!,
    (breakout_at_most_two_bricks (Reach.reset [] 0 : Reach 800 600 0 _) (20/13) 0).2.2.2.2.2
      (by decide!)⟩

end BreakoutGame


end Arcade
